import Mathlib

/-!
# grt: Gaussian particle enclosure generation

A shallow embedding of `particle_primatives.hpp`, `math_utils.hpp`, the
loader `GRTModel::_load` of `grt_model.hpp` and the loader `GRTModel::load` of
`grt_model.h`, followed by the theorems about them.

Modelling conventions.

* `float` is an ordered field `F` together with the `<cmath>` functions
  (`FloatFns F`); the theorems instantiate `F` with the real numbers, so they
  speak about exact real arithmetic.  Decimal literals denote their decimal
  value.
* Where the range and the precision of `float` matter (`normalize`), a `float`
  is a `Single`: a finite number, an infinity or a NaN.  Every operation rounds
  its exact result with a function `rnd`, of which the theorems use only the
  error bound of the format, and delivers an infinity beyond `FLT_MAX`.
* `uint32_t` arithmetic is arithmetic on `Nat` reduced modulo `2^32`
  (`u32`); `int` components of `glm::ivec3` are `Int` wrapped into
  `[-2^31, 2^31)` (`i32`).
* Buffers behind raw pointers are lists; an access outside the list makes
  the whole computation `none`.
* `glm::vec3`, `glm::vec4`, `glm::ivec3`, `glm::mat3` are records; a `Mat3`
  is stored by columns as in glm.
* A file is the list of its bytes; `decode` gives the value of the float with
  a given 32-bit pattern; the bytes of an `int` or a `float` are taken lowest
  byte first.
* The loader is `GRTModel::_load` called with `printInfo = false`; a call that
  throws or runs into undefined behaviour is `none`, and memory allocation
  always succeeds.
-/

namespace GRT

/-! ## Scalars and machine integers -/

/-- The functions of `<cmath>` used by the sources. -/
class FloatFns (F : Type) where
  /-- Models `std::exp`. -/
  exp : F → F
  /-- Models `std::log`. -/
  log : F → F
  /-- Models `std::pow`. -/
  pow : F → F → F
  /-- Models `std::sqrt`. -/
  sqrt : F → F

/-- Reduction of a natural number to the range of `uint32_t`. -/
def u32 (n : Nat) : Nat := n % 2 ^ 32

/-- Reduction of an integer to the range of a 32-bit two's complement `int`. -/
def i32 (z : Int) : Int := (z + 2 ^ 31) % 2 ^ 32 - 2 ^ 31

/-! ## glm records -/

/-- Record `glm::vec3`. -/
structure Vec3 (F : Type) where
  x : F
  y : F
  z : F

/-- Record `glm::vec4`. -/
structure Vec4 (F : Type) where
  x : F
  y : F
  z : F
  w : F

/-- Record `glm::ivec3`. -/
structure Int3 where
  x : Int
  y : Int
  z : Int
deriving DecidableEq, Repr

/-- Record `glm::mat3`: `c0`, `c1`, `c2` are the columns `m[0]`, `m[1]`, `m[2]`. -/
structure Mat3 (F : Type) where
  c0 : Vec3 F
  c1 : Vec3 F
  c2 : Vec3 F

section glm

variable {F : Type} [LinearOrderedField F]

/-- Component-wise product `a * b` of two `glm::vec3`. -/
def Vec3.mul (a b : Vec3 F) : Vec3 F := ⟨a.x * b.x, a.y * b.y, a.z * b.z⟩

/-- Product `s * v` of a scalar and a `glm::vec3`. -/
def Vec3.smulL (s : F) (v : Vec3 F) : Vec3 F := ⟨s * v.x, s * v.y, s * v.z⟩

/-- Product `v * s` of a `glm::vec3` and a scalar. -/
def Vec3.smulR (v : Vec3 F) (s : F) : Vec3 F := ⟨v.x * s, v.y * s, v.z * s⟩

/-- Sum `a + b` of two `glm::vec3`. -/
def Vec3.add (a b : Vec3 F) : Vec3 F := ⟨a.x + b.x, a.y + b.y, a.z + b.z⟩

/-- Product `v * m` of a `glm::vec3` and a `glm::mat3` (row vector times matrix). -/
def Vec3.mulMat (v : Vec3 F) (m : Mat3 F) : Vec3 F :=
  ⟨m.c0.x * v.x + m.c0.y * v.y + m.c0.z * v.z,
   m.c1.x * v.x + m.c1.y * v.y + m.c1.z * v.z,
   m.c2.x * v.x + m.c2.y * v.y + m.c2.z * v.z⟩

/-- Value `glm::dot(a, b)` for `glm::vec4`. -/
def Vec4.dot (a b : Vec4 F) : F := a.x * b.x + a.y * b.y + a.z * b.z + a.w * b.w

/-- Quotient `v / s` of a `glm::vec4` by a scalar. -/
def Vec4.divS (v : Vec4 F) (s : F) : Vec4 F := ⟨v.x / s, v.y / s, v.z / s, v.w / s⟩

/-- Sum `a + b` of two `glm::ivec3`, each component a 32-bit `int`. -/
def Int3.add (a b : Int3) : Int3 := ⟨i32 (a.x + b.x), i32 (a.y + b.y), i32 (a.z + b.z)⟩

end glm

/-! ## particle_primatives.hpp -/

/-- Constant `ICOSAHEDRON_NUM_VERT`. -/
def ICOSAHEDRON_NUM_VERT : Nat := 12

/-- Constant `ICOSAHEDRON_NUM_TRI`. -/
def ICOSAHEDRON_NUM_TRI : Nat := 20

/-- Macro `MOGRenderAdaptiveKernelClamping` (its default value). -/
def MOGRenderAdaptiveKernelClamping : Nat := 1

section primitives

variable {F : Type} [LinearOrderedField F]

/-- Constant `GOLDEN_RATIO`. -/
def GOLDEN_RATIO : F := 1.618033988749895

/-- Constant `ICOSAHEDRON_EDGE`. -/
def ICOSAHEDRON_EDGE : F := 1.323169076499215

/-- Constant `ICOSAHEDRON_VERT_SCALE`. -/
def ICOSAHEDRON_VERT_SCALE : F := 0.5 * ICOSAHEDRON_EDGE

/-- Function `getIcosahedronVertices`. -/
def getIcosahedronVertices : List (Vec3 F) :=
  [⟨-1, GOLDEN_RATIO, 0⟩, ⟨1, GOLDEN_RATIO, 0⟩, ⟨0, 1, - GOLDEN_RATIO⟩,
   ⟨- GOLDEN_RATIO, 0, -1⟩, ⟨- GOLDEN_RATIO, 0, 1⟩, ⟨0, 1, GOLDEN_RATIO⟩,
   ⟨ GOLDEN_RATIO, 0, 1⟩, ⟨0, -1, GOLDEN_RATIO⟩, ⟨-1, - GOLDEN_RATIO, 0⟩,
   ⟨0, -1, - GOLDEN_RATIO⟩, ⟨ GOLDEN_RATIO, 0, -1⟩, ⟨1, - GOLDEN_RATIO, 0⟩]

/-- Function `getIcosahedronTriangles`. -/
def getIcosahedronTriangles : List Int3 :=
  [⟨0, 1, 2⟩, ⟨0, 2, 3⟩, ⟨0, 3, 4⟩, ⟨0, 4, 5⟩, ⟨0, 5, 1⟩,
   ⟨6, 1, 5⟩, ⟨6, 5, 7⟩, ⟨6, 7, 11⟩, ⟨6, 11, 10⟩, ⟨6, 10, 1⟩,
   ⟨8, 4, 3⟩, ⟨8, 3, 9⟩, ⟨8, 9, 11⟩, ⟨8, 11, 7⟩, ⟨8, 7, 4⟩,
   ⟨9, 3, 2⟩, ⟨9, 2, 10⟩, ⟨9, 10, 11⟩,
   ⟨5, 4, 7⟩, ⟨1, 10, 2⟩]

variable [FloatFns F]

/-- Function `kernelScale`. -/
def kernelScale (density modulatedMinResponse : F) (opts : Nat) (kernelDegree : F) : F :=
  let responseModulation : F :=
    if opts &&& MOGRenderAdaptiveKernelClamping ≠ 0 then density else 1
  let minResponse : F := min (modulatedMinResponse / responseModulation) 0.97
  -- bump kernel
  if kernelDegree < 0 then
    let k : F := |kernelDegree|
    let s : F := 1 / FloatFns.pow 3 k
    let ks : F := FloatFns.pow ((1 / (FloatFns.log minResponse - 1) + 1) / s) (1 / k)
    ks
  -- linear kernel
  else if kernelDegree = 0 then
    ((1 - minResponse) / 3) / (-0.329630334487)
  else
    -- generalized gaussian of degree b : scaling a = -4.5/3^b
    let b : F := kernelDegree
    let a : F := -4.5 / FloatFns.pow 3 b
    -- find distance r (>0) st e^{a*r^b} = minResponse
    FloatFns.pow (FloatFns.log minResponse / a) (1 / b)

omit [FloatFns F] in
/-- Function `quaternionWXYZToMatrixTranspose`; the result is `outMat`. -/
def quaternionWXYZToMatrixTranspose (q : Vec4 F) : Mat3 F :=
  let r := q.x
  let x := q.y
  let y := q.z
  let z := q.w
  { c0 := ⟨1 - 2 * (y * y + z * z), 2 * (x * y - r * z), 2 * (x * z + r * y)⟩
    c1 := ⟨2 * (x * y + r * z), 1 - 2 * (x * x + z * z), 2 * (y * z - r * x)⟩
    c2 := ⟨2 * (x * z - r * y), 2 * (y * z + r * x), 1 - 2 * (x * x + y * y)⟩ }

/-- Store `buf[i] = v` through a raw pointer; `none` outside the buffer. -/
def writeAt {α : Type} (buf : List α) (i : Nat) (v : α) : Option (List α) :=
  if i < buf.length then some (buf.set i v) else none

/-- Loop `for (uint32_t i = 0; i < n; ++i) body`, threading the state. -/
def forLoop {σ : Type} (n : Nat) (body : Nat → σ → Option σ) (s : σ) : Option σ :=
  match n with
  | 0 => some s
  | k + 1 => (forLoop k body s).bind (body k)

/-- Function `computeGaussianEnclosingIcosahedron`; the result is the pair of
output buffers `(gPrimVrt, gPrimTri)`. -/
def computeGaussianEnclosingIcosahedron (gNum : Nat)
    (gPos : List (Vec3 F)) (gRot : List (Vec4 F)) (gScl : List (Vec3 F)) (gDns : List F)
    (kernelMinResponse : F) (opts : Nat) (degree : F)
    (gPrimVrt : List (Vec3 F)) (gPrimTri : List Int3) :
    Option (List (Vec3 F) × List Int3) :=
  let icosaVrt : List (Vec3 F) := getIcosahedronVertices
  let icosaTri : List Int3 := getIcosahedronTriangles
  forLoop gNum (fun idx out => do
    let sVertIdx := u32 (ICOSAHEDRON_NUM_VERT * idx)
    let sTriIdx := u32 (ICOSAHEDRON_NUM_TRI * idx)
    let rot := quaternionWXYZToMatrixTranspose (← gRot[idx]?)
    let scl ← gScl[idx]?
    let trans ← gPos[idx]?
    let kscl := Vec3.smulR
      (Vec3.smulL (kernelScale (← gDns[idx]?) kernelMinResponse opts degree) scl)
      ICOSAHEDRON_VERT_SCALE
    let vrt ← forLoop ICOSAHEDRON_NUM_VERT (fun i buf => do
      writeAt buf (u32 (sVertIdx + i))
        (Vec3.add (Vec3.mulMat (Vec3.mul (← icosaVrt[i]?) kscl) rot) trans)) out.1
    let triIdxOffset : Int3 := ⟨i32 sVertIdx, i32 sVertIdx, i32 sVertIdx⟩
    let tri ← forLoop ICOSAHEDRON_NUM_TRI (fun i buf => do
      writeAt buf (u32 (sTriIdx + i)) (Int3.add (← icosaTri[i]?) triIdxOffset)) out.2
    pure (vrt, tri)) (gPrimVrt, gPrimTri)

end primitives

/-! ## math_utils.hpp -/

section mathUtils

variable {F : Type} [LinearOrderedField F] [FloatFns F]

/-- Function `sigmoid(float)`. -/
def sigmoid (x : F) : F := 1 / (1 + FloatFns.exp (-x))

/-- Function `sigmoid(std::vector<float>&)`; the result is the vector after the call. -/
def sigmoidVec (vecs : List F) : List F := vecs.map fun v => sigmoid v

omit [FloatFns F] in
/-- Default value `1e-12f` of the parameter `epsilon` of `normalize`. -/
def normalizeEpsilon : F := 1e-12

/-- Function `normalize` at `glm::vec4`; the result is the vector after the call. -/
def normalize (vecs : List (Vec4 F)) (epsilon : F) : List (Vec4 F) :=
  vecs.map fun v =>
    let norm := FloatFns.sqrt (Vec4.dot v v)
    if norm > epsilon then Vec4.divS v norm else ⟨0, 0, 0, 0⟩

/-- Function `exp` at `glm::vec3` (`glm::exp` acts on each component); the result is the
vector after the call. -/
def exp (vecs : List (Vec3 F)) : List (Vec3 F) :=
  vecs.map fun v => ⟨FloatFns.exp v.x, FloatFns.exp v.y, FloatFns.exp v.z⟩

end mathUtils

/-! ## math_utils.hpp in single precision -/

/-- A value of type `float`: a finite number, an infinity or a NaN.  The finite numbers
are kept in `F`; the two zeros of the format are not told apart. -/
inductive Single (F : Type) where
  | fin (x : F)
  | pinf
  | ninf
  | nan

namespace Single

section ops

variable {F : Type} [LinearOrderedField F]

/-- Constant `FLT_MAX`, the largest finite `float`: `2^128 - 2^104`. -/
def FLT_MAX : F := 340282346638528859811704183484516925440

/-- The `float` delivered by an operation whose exact result is `x`: `rnd x` is `x`
rounded to the precision of the format, and a rounded result beyond `FLT_MAX` is replaced
by an infinity. -/
def round (rnd : F → F) (x : F) : Single F :=
  if FLT_MAX < rnd x then pinf else if rnd x < -FLT_MAX then ninf else fin (rnd x)

/-- Product `a * b` of two `float`. -/
def mul (rnd : F → F) : Single F → Single F → Single F
  | fin x, fin y => round rnd (x * y)
  | fin x, pinf => if 0 < x then pinf else if x < 0 then ninf else nan
  | fin x, ninf => if 0 < x then ninf else if x < 0 then pinf else nan
  | pinf, fin y => if 0 < y then pinf else if y < 0 then ninf else nan
  | ninf, fin y => if 0 < y then ninf else if y < 0 then pinf else nan
  | pinf, pinf => pinf
  | ninf, ninf => pinf
  | pinf, ninf => ninf
  | ninf, pinf => ninf
  | nan, _ => nan
  | _, nan => nan

/-- Sum `a + b` of two `float`. -/
def add (rnd : F → F) : Single F → Single F → Single F
  | fin x, fin y => round rnd (x + y)
  | fin _, pinf => pinf
  | pinf, fin _ => pinf
  | pinf, pinf => pinf
  | fin _, ninf => ninf
  | ninf, fin _ => ninf
  | ninf, ninf => ninf
  | pinf, ninf => nan
  | ninf, pinf => nan
  | nan, _ => nan
  | _, nan => nan

/-- Quotient `a / b` of two `float`; a zero divisor is taken to be `+0`. -/
def div (rnd : F → F) : Single F → Single F → Single F
  | fin x, fin y =>
    if y = 0 then (if 0 < x then pinf else if x < 0 then ninf else nan)
    else round rnd (x / y)
  | fin _, pinf => fin 0
  | fin _, ninf => fin 0
  | pinf, fin y => if 0 ≤ y then pinf else ninf
  | ninf, fin y => if 0 ≤ y then ninf else pinf
  | pinf, pinf => nan
  | pinf, ninf => nan
  | ninf, pinf => nan
  | ninf, ninf => nan
  | nan, _ => nan
  | _, nan => nan

/-- Comparison `a > b` of two `float`: false when either is a NaN. -/
def gt : Single F → Single F → Bool
  | fin x, fin y => decide (y < x)
  | pinf, fin _ => true
  | pinf, ninf => true
  | fin _, ninf => true
  | _, _ => false

/-- Value `std::sqrt(a)`. -/
def sqrt [FloatFns F] (rnd : F → F) : Single F → Single F
  | fin x => if x < 0 then nan else round rnd (FloatFns.sqrt x)
  | pinf => pinf
  | ninf => nan
  | nan => nan

/-- Value `glm::dot(a, b)` for `glm::vec4` of `float`: the component-wise product `tmp`,
then `(tmp.x + tmp.y) + (tmp.z + tmp.w)`. -/
def dot (rnd : F → F) (a b : Vec4 (Single F)) : Single F :=
  let tmp : Vec4 (Single F) :=
    ⟨mul rnd a.x b.x, mul rnd a.y b.y, mul rnd a.z b.z, mul rnd a.w b.w⟩
  add rnd (add rnd tmp.x tmp.y) (add rnd tmp.z tmp.w)

/-- Quotient `v / s` of a `glm::vec4` of `float` by a scalar. -/
def divS (rnd : F → F) (v : Vec4 (Single F)) (s : Single F) : Vec4 (Single F) :=
  ⟨div rnd v.x s, div rnd v.y s, div rnd v.z s, div rnd v.w s⟩

/-- Default value `1e-12f` of the parameter `epsilon` of `normalize`: the `float` nearest
to `1e-12`, which is `9223372 × 2^-63`. -/
def normalizeEpsilon : Single F := fin (9223372 / 2 ^ 63)

/-- Function `normalize` at `glm::vec4`, in single precision; the result is the vector
after the call. -/
def normalize [FloatFns F] (rnd : F → F) (vecs : List (Vec4 (Single F)))
    (epsilon : Single F) : List (Vec4 (Single F)) :=
  vecs.map fun v =>
    let norm := sqrt rnd (dot rnd v v)
    if gt norm epsilon then divS rnd v norm else ⟨fin 0, fin 0, fin 0, fin 0⟩

end ops

end Single

/-! ## grt_model.hpp -/

/-- Record `Vec45`: the array `r` of 45 floats. -/
structure Vec45 (F : Type) where
  r : List F

/-- Data members of class `GRTModel`. -/
structure GRTModel (F : Type) where
  N : Int
  pos_dim : Int
  scales_dim : Int
  rotations_dim : Int
  albedo_dim : Int
  specular_dim : Int
  densities_dim : Int
  positions : List (Vec3 F)
  scales : List (Vec3 F)
  rotations : List (Vec4 F)
  albedos : List (Vec3 F)
  speculars : List (Vec45 F)
  densities : List F
  vertices : List (Vec3 F)
  triangles : List Int3

/-- The object before `_load` runs: the member initialisers of the class. -/
def GRTModel.init {F : Type} : GRTModel F :=
  { N := 0, pos_dim := 0, scales_dim := 0, rotations_dim := 0, albedo_dim := 0,
    specular_dim := 0, densities_dim := 0, positions := [], scales := [], rotations := [],
    albedos := [], speculars := [], densities := [], vertices := [], triangles := [] }

section activations

variable {F : Type} [LinearOrderedField F] [FloatFns F]

/-- The activation pass of `GRTModel::_load` (the three calls under
`// apply activations`), acting in place on the loaded arrays. -/
def applyActivations (m : GRTModel F) : GRTModel F :=
  let rotationsNormalized := normalize m.rotations normalizeEpsilon
  let scalesNormalized := exp m.scales
  let densitiesNormalized := sigmoidVec m.densities
  { m with rotations := rotationsNormalized, scales := scalesNormalized,
           densities := densitiesNormalized }

end activations

/-- State of the `std::ifstream`: the bytes not yet consumed and whether a read has
failed. -/
structure IfStream where
  bytes : List Nat
  failed : Bool

/-- Call `fin.read(buf, n)`: the bytes it stores at the start of `buf` (their number is
`fin.gcount()`) and the stream after the call.  A stream that has failed reads nothing; a
read past the end of the file stores what is left and sets the fail bit. -/
def IfStream.read (fin : IfStream) (n : Nat) : List Nat × IfStream :=
  if fin.failed then ([], fin)
  else if n ≤ fin.bytes.length then (fin.bytes.take n, ⟨fin.bytes.drop n, false⟩)
  else (fin.bytes, ⟨[], true⟩)

/-- The bytes of a buffer after a read has stored `got` at its start. -/
def stored (buf got : List Nat) : List Nat := got ++ buf.drop got.length

/-- The 32-bit word number `k` of a byte buffer, lowest byte first. -/
def word32 (buf : List Nat) (k : Nat) : Nat :=
  buf.getD (4 * k) 0 + 256 * buf.getD (4 * k + 1) 0 + 65536 * buf.getD (4 * k + 2) 0
    + 16777216 * buf.getD (4 * k + 3) 0

section load

variable {F : Type} [LinearOrderedField F] [FloatFns F]

omit [LinearOrderedField F] [FloatFns F] in
/-- Lambda `readVec3` of `GRTModel::_load` for `N = n`.  `decode` gives the value of the
float with a given bit pattern; `uninit k` stands for the bytes found in the uninitialised
`float buffer[3]` when `k` elements are still to be read (nothing is assumed about
them). -/
def readVec3 (decode : Nat → F) (uninit : Nat → List Nat) :
    Nat → IfStream → List (Vec3 F) × IfStream
  | 0, fin => ([], fin)
  | n + 1, fin =>
    let got := fin.read 12
    let buffer := stored (uninit (n + 1)) got.1
    let rest := readVec3 decode uninit n got.2
    (⟨decode (word32 buffer 0), decode (word32 buffer 1), decode (word32 buffer 2)⟩ :: rest.1,
     rest.2)

omit [LinearOrderedField F] [FloatFns F] in
/-- Lambda `readVec4` of `GRTModel::_load` for `N = n`; `uninit` as in `readVec3`. -/
def readVec4 (decode : Nat → F) (uninit : Nat → List Nat) :
    Nat → IfStream → List (Vec4 F) × IfStream
  | 0, fin => ([], fin)
  | n + 1, fin =>
    let got := fin.read 16
    let buffer := stored (uninit (n + 1)) got.1
    let rest := readVec4 decode uninit n got.2
    (⟨decode (word32 buffer 0), decode (word32 buffer 1), decode (word32 buffer 2),
      decode (word32 buffer 3)⟩ :: rest.1, rest.2)

omit [LinearOrderedField F] [FloatFns F] in
/-- Lambda `readVec45` of `GRTModel::_load` for `N = n`: each read goes straight into the
zero-initialised element `vec[i].r`. -/
def readVec45 (decode : Nat → F) : Nat → IfStream → List (Vec45 F) × IfStream
  | 0, fin => ([], fin)
  | n + 1, fin =>
    let got := fin.read 180
    let buffer := stored (List.replicate 180 0) got.1
    let rest := readVec45 decode n got.2
    (⟨(List.range 45).map fun k => decode (word32 buffer k)⟩ :: rest.1, rest.2)

omit [LinearOrderedField F] [FloatFns F] in
/-- Lambda `readFloat` of `GRTModel::_load` for `N = n`: one read into the
zero-initialised vector. -/
def readFloat (decode : Nat → F) (n : Nat) (fin : IfStream) : List F × IfStream :=
  let got := fin.read (n * 4)
  let buffer := stored (List.replicate (n * 4) 0) got.1
  ((List.range n).map fun k => decode (word32 buffer k), got.2)

/-- Conversion of an `int` to `uint32_t`. -/
def toU32 (z : Int) : Nat := (z % 2 ^ 32).toNat

/-- Lines 58 to 110 of `GRTModel::_load`: the seven header integers (`hdr` holds the bytes
of `int header[7]`) are stored in the object and the six blocks are read in order.
`uninit t` is the content of the uninitialised buffers of the `t`-th call of a read
lambda.  The result is the object after `readFloat(densities)`, and `none` when `N` is
negative: the first `vec.resize(N)` throws. -/
def readAllTensors (decode : Nat → F) (uninit : Nat → Nat → List Nat) (hdr : List Nat)
    (fin : IfStream) : Option (GRTModel F) :=
  let header : Nat → Int := fun k => i32 (word32 hdr k)
  let N := header 0
  if N < 0 then none
  else
    -- read all tensors
    let positions := readVec3 decode (uninit 0) N.toNat fin
    let scales := readVec3 decode (uninit 1) N.toNat positions.2
    let rotations := readVec4 decode (uninit 2) N.toNat scales.2
    let albedos := readVec3 decode (uninit 3) N.toNat rotations.2
    let speculars := readVec45 decode N.toNat albedos.2
    let densities := readFloat decode N.toNat speculars.2
    some
      { N := N, pos_dim := header 1, scales_dim := header 2, rotations_dim := header 3,
        albedo_dim := header 4, specular_dim := header 5, densities_dim := header 6,
        positions := positions.1, scales := scales.1, rotations := rotations.1,
        albedos := albedos.1, speculars := speculars.1, densities := densities.1,
        vertices := [], triangles := [] }

/-- Lines 121 to 139 of `GRTModel::_load` (under `// load vertices and triangles`), run on
the object after the activation pass.  The result is `none` when the enclosure generator
stores outside the two buffers allocated here. -/
def loadGeometry (m : GRTModel F) : Option (GRTModel F) :=
  let vertices : List (Vec3 F) :=
    List.replicate (u32 (toU32 m.N * ICOSAHEDRON_NUM_VERT)) ⟨0, 0, 0⟩
  let triangles : List Int3 :=
    List.replicate (u32 (toU32 m.N * ICOSAHEDRON_NUM_TRI)) ⟨0, 0, 0⟩
  let kernelMinResponse : F := 0.0113000004
  let opts : Nat := 0
  let degree : F := 4
  (computeGaussianEnclosingIcosahedron (toU32 m.N) m.positions m.rotations
      m.scales m.densities kernelMinResponse opts degree vertices triangles).map
    fun out => { m with vertices := out.1, triangles := out.2 }

/-- Function `GRTModel::_load` with `printInfo = false`, the default of the constructor;
the result is the object after the call.  `file` is `none` when the file cannot be opened
and the bytes of the file otherwise.  The result is `none` when the call does not return
normally: `vec.resize(N)` throws for a negative `N`, and a store outside the output
buffers is undefined behaviour.  Memory allocation is taken to succeed. -/
def _load (decode : Nat → F) (uninit : Nat → Nat → List Nat) (file : Option (List Nat)) :
    Option (GRTModel F) :=
  match file with
  | none => some GRTModel.init
  | some content =>
    let fin : IfStream := ⟨content, false⟩
    let got := fin.read (7 * 4)
    if got.1.length ≠ 7 * 4 then some GRTModel.init
    else
      (readAllTensors decode uninit got.1 got.2).bind fun m =>
        loadGeometry (applyActivations m)

omit [LinearOrderedField F] [FloatFns F] in
/-- In the words of the specification: the float32 at byte offset `b` of a file, the
value of the four bytes from `b` on, lowest byte first. -/
def float32At (decode : Nat → F) (content : List Nat) (b : Nat) : F :=
  decode (content.getD b 0 + 256 * content.getD (b + 1) 0 + 65536 * content.getD (b + 2) 0
    + 16777216 * content.getD (b + 3) 0)

end load

/-! ## grt_model.h -/

namespace Legacy

/-- The class `GRTModel` of `grt_model.h`: every tensor is a flat `std::vector<float>`. -/
structure GRTModel (F : Type) where
  N : Int
  pos_dim : Int
  scale_dim : Int
  rotate_dim : Int
  albedo_dim : Int
  specular_dim : Int
  density_dim : Int
  position : List F
  scale : List F
  rotate : List F
  features_albedo : List F
  features_specular : List F
  density : List F

/-- The object before `load` runs: the member initialisers of the class. -/
def GRTModel.init {F : Type} : GRTModel F :=
  { N := 0, pos_dim := 0, scale_dim := 0, rotate_dim := 0, albedo_dim := 0,
    specular_dim := 0, density_dim := 0, position := [], scale := [], rotate := [],
    features_albedo := [], features_specular := [], density := [] }

/-- Conversion of an `int` to a 64-bit `size_t`. -/
def toSize (z : Int) : Nat := (z % 2 ^ 64).toNat

/-- Lambda `readTensor` of `GRTModel::load`; the result is `vec` after the call and the
stream after it.  The result is `none` when `vec.resize(count)` throws: `2^61` floats or
more take `2^63` bytes or more, which no vector can hold; below that the allocation is
taken to succeed, and `count * sizeof(float)` does not wrap. -/
def readTensor {F : Type} (decode : Nat → F) (rows cols : Int) (fin : IfStream) :
    Option (List F × IfStream) :=
  let count : Nat := (toSize rows * toSize cols) % 2 ^ 64
  if 2 ^ 61 ≤ count then none
  else
    let got := fin.read (count * 4)
    let buffer := stored (List.replicate (count * 4) 0) got.1
    let vec : List F := (List.range count).map fun k => decode (word32 buffer k)
    if got.1.length ≠ count * 4 then some ([], got.2) else some (vec, got.2)

/-- Function `GRTModel::load` of `grt_model.h` with `printInfo = false`; the result is the
object after the call, and `none` when a `resize` throws.  `file` is `none` when the file
cannot be opened and the bytes of the file otherwise. -/
def load {F : Type} (decode : Nat → F) (file : Option (List Nat)) : Option (GRTModel F) :=
  match file with
  | none => some GRTModel.init
  | some content =>
    let fin : IfStream := ⟨content, false⟩
    let got := fin.read (7 * 4)
    if got.1.length ≠ 7 * 4 then some GRTModel.init
    else
      let header : Nat → Int := fun k => i32 (word32 got.1 k)
      let N := header 0
      let pos_dim := header 1
      let scale_dim := header 2
      let rotate_dim := header 3
      let albedo_dim := header 4
      let specular_dim := header 5
      let density_dim := header 6
      (readTensor decode N pos_dim got.2).bind fun position =>
      (readTensor decode N scale_dim position.2).bind fun scale =>
      (readTensor decode N rotate_dim scale.2).bind fun rotate =>
      (readTensor decode N albedo_dim rotate.2).bind fun features_albedo =>
      (readTensor decode N specular_dim features_albedo.2).bind fun features_specular =>
      (readTensor decode N density_dim features_specular.2).bind fun density =>
      some
        { N := N, pos_dim := pos_dim, scale_dim := scale_dim, rotate_dim := rotate_dim,
          albedo_dim := albedo_dim, specular_dim := specular_dim,
          density_dim := density_dim, position := position.1, scale := scale.1,
          rotate := rotate.1, features_albedo := features_albedo.1,
          features_specular := features_specular.1, density := density.1 }

end Legacy

/-! ## Reading the records as vectors and matrices -/

section reading

variable {F : Type}

/-- The vector `(x, y, z)` that a `glm::vec3` denotes. -/
def Vec3.toFun (v : Vec3 F) : Fin 3 → F := ![v.x, v.y, v.z]

/-- The matrix that a `glm::mat3` denotes: its entry in row `r` and column `c` is
`m[c][r]`. -/
def Mat3.toMatrix (m : Mat3 F) : Matrix (Fin 3) (Fin 3) F :=
  Matrix.of fun r c => (![m.c0, m.c1, m.c2] c).toFun r

end reading

/-! ## Sample files -/

/-- The 24 bytes of the six dimension entries 3, 3, 4, 3, 45, 1 of a header. -/
def sampleDims : List Nat :=
  [3, 0, 0, 0, 3, 0, 0, 0, 4, 0, 0, 0, 3, 0, 0, 0, 45, 0, 0, 0, 1, 0, 0, 0]

/-- A complete file of 264 bytes with one particle: count 1, then position `(0, 0, 0)`,
scale `(0, 0, 0)`, rotation `(1, 0, 0, 0)` (the bytes `00 00 80 3F` are the float 1),
and zero albedo, specular and density. -/
def sampleFile : List Nat :=
  [1, 0, 0, 0] ++ sampleDims ++ List.replicate 24 0 ++ [0, 0, 128, 63] ++ List.replicate 208 0

/-- A file of 260 bytes: count 1, then 232 zero bytes; the density block is missing. -/
def truncatedFile : List Nat := [1, 0, 0, 0] ++ sampleDims ++ List.replicate 232 0

/-- A file of 28 bytes: a header whose first integer is `-1`. -/
def negativeCountFile : List Nat := [255, 255, 255, 255] ++ sampleDims

/-- A complete file with 214748365 particles (the bytes `CD CC CC 0C`), all data bytes
zero. -/
def largeFile : List Nat :=
  ([205, 204, 204, 12] ++ sampleDims) ++ List.replicate (236 * 214748365) 0

/-- The file `sampleFile` with the density block replaced by the bytes `00 00 80 3F` of
the float 1. -/
def sampleFileDense : List Nat :=
  [1, 0, 0, 0] ++ sampleDims ++ List.replicate 24 0 ++ [0, 0, 128, 63] ++ List.replicate 204 0
    ++ [0, 0, 128, 63]

/-- The effective minimum response threshold in the words of the specification: the
global minimum response, divided by the density when the adaptive-kernel-clamping bit
(bit 0) of the option flags is set, then clamped to at most 0.97. -/
def effectiveThreshold {F : Type} [LinearOrderedField F]
    (density globalMinResponse : F) (optsFlags : Nat) : F :=
  min (if optsFlags.testBit 0 then globalMinResponse / density else globalMinResponse) 0.97

/-- Real arithmetic: `std::exp`, `std::log`, `std::pow`, `std::sqrt` are the real
exponential, natural logarithm, power and square root.  They agree with the library
functions where those are finite: logarithms of positive numbers, powers of nonnegative
bases, square roots of nonnegative numbers. -/
noncomputable instance instFloatFnsReal : FloatFns ℝ where
  exp := Real.exp
  log := Real.log
  pow := fun x y => x ^ y
  sqrt := Real.sqrt

/-- In the words of the specification: the standard rotation matrix `R(q)` of a
quaternion `q = (w, x, y, z)`, stored in that order in a `glm::vec4`. -/
def standardRotation {F : Type} [LinearOrderedField F] (q : Vec4 F) :
    Matrix (Fin 3) (Fin 3) F :=
  let w := q.x
  let x := q.y
  let y := q.z
  let z := q.w
  Matrix.of ![![1 - 2 * (y ^ 2 + z ^ 2), 2 * (x * y - w * z), 2 * (x * z + w * y)],
              ![2 * (x * y + w * z), 1 - 2 * (x ^ 2 + z ^ 2), 2 * (y * z - w * x)],
              ![2 * (x * z - w * y), 2 * (y * z + w * x), 1 - 2 * (x ^ 2 + y ^ 2)]]

/-- In the words of the specification: the three directed edges `(a, b)`, `(b, c)`,
`(c, a)` of an index triple `(a, b, c)`. -/
def Int3.edges (t : Int3) : List (Int × Int) := [(t.x, t.y), (t.y, t.z), (t.z, t.x)]

/-! # Theorems -/

/-! ## Loops that store through a pointer -/

section loops

variable {α β : Type}

theorem forLoop_succ {σ : Type} (n : Nat) (body : Nat → σ → Option σ) (s : σ) :
    forLoop (n + 1) body s = (forLoop n body s).bind (body n) := rfl

theorem writeAt_eq_some {buf : List α} {i : Nat} (v : α) (h : i < buf.length) :
    writeAt buf i v = some (buf.set i v) := by
  simp [writeAt, h]

/-- A loop whose `i`-th iteration stores `f src[i]` at index `idx i`: it succeeds when
every index is inside the buffer, keeps the length, leaves alone every cell that is
not an `idx i`, and leaves `f src[i]` in cell `idx i` unless a later iteration stores
there again. -/
theorem forLoop_store (src : List β) (f : β → α) (idx : Nat → Nat) :
    ∀ (n : Nat) (buf : List α), n ≤ src.length → (∀ i, i < n → idx i < buf.length) →
    ∃ out, forLoop n (fun i b => src[i]?.bind fun v => writeAt b (idx i) (f v)) buf = some out ∧
      out.length = buf.length ∧
      (∀ p, (∀ i, i < n → idx i ≠ p) → out[p]? = buf[p]?) ∧
      (∀ i, i < n → (∀ j, i < j → j < n → idx j ≠ idx i) → out[idx i]? = src[i]?.map f) := by
  intro n
  induction n with
  | zero =>
    intro buf _ _
    exact ⟨buf, rfl, rfl, fun _ _ => rfl, fun i hi => absurd hi (Nat.not_lt_zero i)⟩
  | succ n ih =>
    intro buf hsrc hidx
    obtain ⟨mid, hmid, hlen, hframe, hval⟩ :=
      ih buf (Nat.le_of_succ_le hsrc) (fun i hi => hidx i (Nat.lt_succ_of_lt hi))
    have hn : n < src.length := hsrc
    have hin : idx n < mid.length := by rw [hlen]; exact hidx n (Nat.lt_succ_self n)
    refine ⟨mid.set (idx n) (f src[n]), ?_, ?_, ?_, ?_⟩
    · rw [forLoop_succ, hmid]
      simp [List.getElem?_eq_getElem hn, writeAt_eq_some _ hin]
    · simp [hlen]
    · intro p hp
      have hne : idx n ≠ p := hp n (Nat.lt_succ_self n)
      rw [List.getElem?_set_ne hne]
      exact hframe p (fun i hi => hp i (Nat.lt_succ_of_lt hi))
    · intro i hi hlater
      rcases Nat.lt_succ_iff_lt_or_eq.mp hi with hlt | rfl
      · have hne : idx n ≠ idx i := hlater n hlt (Nat.lt_succ_self n)
        rw [List.getElem?_set_ne hne]
        exact hval i hlt (fun j hij hj => hlater j hij (Nat.lt_succ_of_lt hj))
      · rw [List.getElem?_set_self hin]
        simp [List.getElem?_eq_getElem hn]

end loops

/-! ## The kernel radius solver -/

section kernel

@[simp] theorem exp_real (x : ℝ) : FloatFns.exp x = Real.exp x := rfl
@[simp] theorem log_real (x : ℝ) : FloatFns.log x = Real.log x := rfl
@[simp] theorem pow_real (x y : ℝ) : FloatFns.pow x y = x ^ y := rfl
@[simp] theorem sqrt_real (x : ℝ) : FloatFns.sqrt x = Real.sqrt x := rfl

variable {F : Type} [LinearOrderedField F]

/-- The clamped threshold that `kernelScale` computes first is the effective threshold of
the specification. -/
theorem kernelScale_minResponse (density m : F) (opts : Nat) :
    min (m / (if opts &&& MOGRenderAdaptiveKernelClamping ≠ 0 then density else 1)) 0.97
      = effectiveThreshold density m opts := by
  unfold effectiveThreshold MOGRenderAdaptiveKernelClamping
  rcases Nat.mod_two_eq_zero_or_one opts with h | h
  · simp [Nat.and_one_is_mod, Nat.testBit_zero, h]
  · simp [Nat.and_one_is_mod, Nat.testBit_zero, h]

theorem effectiveThreshold_le (density m : F) (opts : Nat) :
    effectiveThreshold density m opts ≤ 0.97 := min_le_right _ _

variable [FloatFns F]

/-- The three branches of `kernelScale` as functions of the effective threshold. -/
theorem kernelScale_eq (density m : F) (opts : Nat) (kernelDegree : F) :
    kernelScale density m opts kernelDegree =
      if kernelDegree < 0 then
        FloatFns.pow ((1 / (FloatFns.log (effectiveThreshold density m opts) - 1) + 1)
          / (1 / FloatFns.pow 3 |kernelDegree|)) (1 / |kernelDegree|)
      else if kernelDegree = 0 then
        ((1 - effectiveThreshold density m opts) / 3) / (-0.329630334487)
      else
        FloatFns.pow (FloatFns.log (effectiveThreshold density m opts)
          / (-4.5 / FloatFns.pow 3 kernelDegree)) (1 / kernelDegree) := by
  unfold kernelScale
  simp only [kernelScale_minResponse]

/-- The generalized-Gaussian branch of `kernelScale` in real arithmetic. -/
theorem kernelScale_gaussian_branch (density m : ℝ) (opts : Nat) (b : ℝ) (hb : 0 < b) :
    kernelScale density m opts b
      = (Real.log (effectiveThreshold density m opts) / (-4.5 / (3 : ℝ) ^ b)) ^ (1 / b) := by
  rw [kernelScale_eq, if_neg (not_lt.mpr hb.le), if_neg hb.ne']
  rfl

/-- The generalized-Gaussian branch of `kernelScale` returns a positive radius. -/
theorem kernelScale_pos (density m : ℝ) (opts : Nat) (b : ℝ) (hb : 0 < b)
    (ht : 0 < effectiveThreshold density m opts) : 0 < kernelScale density m opts b := by
  have hle := effectiveThreshold_le density m opts
  have hlog : Real.log (effectiveThreshold density m opts) < 0 :=
    Real.log_neg ht (by linarith [show (0.97:ℝ) < 1 by norm_num])
  have h3 : (0:ℝ) < 3 ^ b := Real.rpow_pos_of_pos (by norm_num) b
  have ha : (-4.5 : ℝ) / 3 ^ b < 0 := div_neg_of_neg_of_pos (by norm_num) h3
  rw [kernelScale_gaussian_branch density m opts b hb]
  exact Real.rpow_pos_of_pos (div_pos_of_neg_of_neg hlog ha) _

/-- C5: `kernelScale` returns, with `t` the effective (clamped) threshold,
`((1/(ln t − 1) + 1) / s)^(1/k)` with `k = |kernelDegree|` and `s = 3^(−k)` when
`kernelDegree < 0`; `((1 − t)/3) / (−0.329630334487)` when `kernelDegree = 0`; and
`(ln t / a)^(1/b)` with `a = −4.5/3^b` when `kernelDegree = b > 0` (real arithmetic). -/
theorem kernelScale_closed_form (density globalMinResponse : ℝ) (opts : Nat)
    (kernelDegree : ℝ) :
    (kernelDegree < 0 →
      kernelScale density globalMinResponse opts kernelDegree =
        ((1 / (Real.log (effectiveThreshold density globalMinResponse opts) - 1) + 1)
          / (3 : ℝ) ^ (-|kernelDegree|)) ^ (1 / |kernelDegree|)) ∧
    (kernelDegree = 0 →
      kernelScale density globalMinResponse opts kernelDegree =
        ((1 - effectiveThreshold density globalMinResponse opts) / 3) / (-0.329630334487)) ∧
    (0 < kernelDegree →
      kernelScale density globalMinResponse opts kernelDegree =
        (Real.log (effectiveThreshold density globalMinResponse opts)
          / (-4.5 / (3 : ℝ) ^ kernelDegree)) ^ (1 / kernelDegree)) := by
  refine ⟨fun h => ?_, fun h => ?_, fun h => ?_⟩
  · rw [kernelScale_eq, if_pos h, Real.rpow_neg (by norm_num : (0 : ℝ) ≤ 3)]
    simp only [pow_real, log_real, one_div]
  · rw [kernelScale_eq, if_neg (by rw [h]; exact lt_irrefl 0), if_pos h]
  · rw [kernelScale_eq, if_neg (not_lt.mpr h.le), if_neg h.ne']
    rfl

/-- C6: `kernelScale` depends on density, globalMinResponse and opts only through the
effective threshold; when bit 0 of opts is set and `globalMinResponse / density > 0.97`
the effective threshold is exactly 0.97 and the result is the value computed with the
threshold forced to 0.97. -/
theorem kernelScale_depends_on_threshold :
    (∀ (d₁ m₁ : F) (o₁ : Nat) (d₂ m₂ : F) (o₂ : Nat) (kernelDegree : F),
      effectiveThreshold d₁ m₁ o₁ = effectiveThreshold d₂ m₂ o₂ →
      kernelScale d₁ m₁ o₁ kernelDegree = kernelScale d₂ m₂ o₂ kernelDegree) ∧
    (∀ (density globalMinResponse : F) (opts : Nat) (kernelDegree : F),
      opts.testBit 0 = true → 0.97 < globalMinResponse / density →
      effectiveThreshold density globalMinResponse opts = 0.97 ∧
      ∀ (d : F) (o : Nat), o.testBit 0 = false →
        kernelScale density globalMinResponse opts kernelDegree
          = kernelScale d 0.97 o kernelDegree) := by
  refine ⟨fun d₁ m₁ o₁ d₂ m₂ o₂ k h => ?_, fun d m o k hbit hgt => ?_⟩
  · rw [kernelScale_eq, kernelScale_eq, h]
  · have ht : effectiveThreshold d m o = 0.97 := by
      unfold effectiveThreshold
      rw [if_pos hbit]
      exact min_eq_right hgt.le
    refine ⟨ht, fun d' o' ho' => ?_⟩
    have ht' : effectiveThreshold d' (0.97 : F) o' = 0.97 := by
      unfold effectiveThreshold
      simp [ho']
    rw [kernelScale_eq, kernelScale_eq, ht, ht']

/-- C7: for every kernelDegree `b > 0` and every effective threshold `t` in `(0, 0.97]`
the value `r` returned by `kernelScale` satisfies `exp(a · r^b) = t` with
`a = −4.5/3^b`, and `r > 0` (real arithmetic). -/
theorem kernelScale_gaussian_radius (density globalMinResponse : ℝ) (opts : Nat) (b : ℝ)
    (hb : 0 < b) (ht : 0 < effectiveThreshold density globalMinResponse opts) :
    Real.exp ((-4.5 / (3 : ℝ) ^ b) * (kernelScale density globalMinResponse opts b) ^ b)
      = effectiveThreshold density globalMinResponse opts ∧
    0 < kernelScale density globalMinResponse opts b := by
  have hle := effectiveThreshold_le density globalMinResponse opts
  have hlog : Real.log (effectiveThreshold density globalMinResponse opts) < 0 :=
    Real.log_neg ht (by linarith [show (0.97:ℝ) < 1 by norm_num])
  have h3 : (0:ℝ) < 3 ^ b := Real.rpow_pos_of_pos (by norm_num) b
  have ha : (-4.5 : ℝ) / 3 ^ b < 0 := div_neg_of_neg_of_pos (by norm_num) h3
  have hq := div_pos_of_neg_of_neg hlog ha
  rw [kernelScale_eq, if_neg (not_lt.mpr hb.le), if_neg hb.ne']
  simp only [pow_real, log_real]
  constructor
  · rw [← Real.rpow_mul hq.le, one_div, inv_mul_cancel₀ hb.ne', Real.rpow_one,
      mul_div_cancel₀ _ ha.ne, Real.exp_log ht]
  · exact Real.rpow_pos_of_pos hq _

/-- Density 0.5, threshold 0.0113, no option bit, degree 4: the hypotheses of the
radius theorem hold. -/
theorem kernelScale_gaussian_radius_witness :
    ((0 : ℝ) < 4 ∧ 0 < effectiveThreshold (0.5 : ℝ) 0.0113 0) ∧
    (Real.exp ((-4.5 / (3 : ℝ) ^ (4 : ℝ)) * (kernelScale (0.5 : ℝ) 0.0113 0 4) ^ (4 : ℝ))
      = effectiveThreshold (0.5 : ℝ) 0.0113 0 ∧
    0 < kernelScale (0.5 : ℝ) 0.0113 0 4) :=
  have h : 0 < effectiveThreshold (0.5 : ℝ) 0.0113 0 := by
    unfold effectiveThreshold
    norm_num
  ⟨⟨by norm_num, h⟩, kernelScale_gaussian_radius 0.5 0.0113 0 4 (by norm_num) h⟩

end kernel

/-! ## The kernel radius solver near degree 0 -/

section kernelLimits

open Filter Topology

/-- For a base `c` in `[0, 1)` the power `c ^ (1 / |k|)` tends to `0` as `k` tends to `0`. -/
theorem tendsto_rpow_inv_abs (c : ℝ) (h0 : 0 ≤ c) (h1 : c < 1) :
    Tendsto (fun k : ℝ => c ^ (1 / |k|) * 3) (𝓝[≠] 0) (𝓝 0) := by
  have h := (tendsto_rpow_atTop_of_base_lt_one c (by linarith) h1).comp
    (tendsto_inv_zero_atTop.comp tendsto_abs_nhdsWithin_zero)
  have h3 := h.mul_const (3 : ℝ)
  simp only [zero_mul] at h3
  refine h3.congr (fun k => ?_)
  simp [Function.comp]

/-- For a base `c > 1` the power `c ^ (1 / |k|)` grows without bound as `k` tends to `0`. -/
theorem tendsto_rpow_inv_abs_atTop (c : ℝ) (h1 : 1 < c) :
    Tendsto (fun k : ℝ => c ^ (1 / |k|) * 3) (𝓝[≠] 0) atTop := by
  have hpow : Tendsto (fun x : ℝ => c ^ x) atTop atTop := by
    simp_rw [Real.rpow_def_of_pos (lt_trans zero_lt_one h1)]
    exact Real.tendsto_exp_atTop.comp
      ((tendsto_const_mul_atTop_of_pos (Real.log_pos h1)).mpr tendsto_id)
  have h := hpow.comp (tendsto_inv_zero_atTop.comp tendsto_abs_nhdsWithin_zero)
  have h3 := h.atTop_mul_const (by norm_num : (0 : ℝ) < 3)
  refine h3.congr (fun k => ?_)
  simp [Function.comp]

theorem rpow_three_mul (c a : ℝ) (hc : 0 ≤ c) (ha : 0 < a) :
    (c * (3 : ℝ) ^ a) ^ (1 / a) = c ^ (1 / a) * 3 := by
  rw [Real.mul_rpow hc (Real.rpow_nonneg (by norm_num) a), ← Real.rpow_mul (by norm_num),
    mul_one_div_cancel ha.ne', Real.rpow_one]


theorem exp_neg_four_half_lt : Real.exp (-4.5) < 0.0113 := by
  have h1 : (2.7182818283 : ℝ) < Real.exp 1 := Real.exp_one_gt_d9
  have h9 : Real.exp 9 = Real.exp 1 ^ 9 := by
    rw [← Real.exp_nat_mul]; norm_num
  have hlow : (7832 : ℝ) < Real.exp 9 := by
    rw [h9]
    calc (7832 : ℝ) < 2.7182818283 ^ 9 := by norm_num
      _ < Real.exp 1 ^ 9 := pow_lt_pow_left₀ h1 (by norm_num) (by norm_num)
  have hsq : Real.exp (-4.5) * Real.exp (-4.5) = (Real.exp 9)⁻¹ := by
    rw [← Real.exp_add, ← Real.exp_neg]; norm_num
  have hpos : 0 < Real.exp (-4.5) := Real.exp_pos _
  by_contra hge
  push_neg at hge
  have : (0.0113 : ℝ) * 0.0113 ≤ Real.exp (-4.5) * Real.exp (-4.5) :=
    mul_le_mul hge hge (by norm_num) hpos.le
  rw [hsq] at this
  have h2 : (Real.exp 9)⁻¹ < (7832 : ℝ)⁻¹ := inv_strictAnti₀ (by norm_num) hlow
  norm_num at this h2
  linarith


theorem kernelScale_bump (d m : ℝ) (opts : Nat) (k : ℝ) (hk : k < 0)
    (ht : 0 < effectiveThreshold d m opts) :
    kernelScale d m opts k
      = (1 / (Real.log (effectiveThreshold d m opts) - 1) + 1) ^ (1 / |k|) * 3 := by
  have hle := effectiveThreshold_le d m opts
  have hlog : Real.log (effectiveThreshold d m opts) < 0 :=
    Real.log_neg ht (by linarith [show (0.97:ℝ) < 1 by norm_num])
  have hB : 0 ≤ 1 / (Real.log (effectiveThreshold d m opts) - 1) + 1 := by
    have hden : Real.log (effectiveThreshold d m opts) - 1 < 0 := by linarith
    rw [div_add' _ _ _ hden.ne, div_nonneg_iff]
    right
    constructor <;> linarith
  rw [kernelScale_eq, if_pos hk]
  simp only [pow_real, log_real]
  rw [div_div_eq_mul_div, div_one, rpow_three_mul _ _ hB (abs_pos.mpr hk.ne)]

theorem kernelScale_gaussian (d m : ℝ) (opts : Nat) (k : ℝ) (hk : 0 < k)
    (ht : 0 < effectiveThreshold d m opts) :
    kernelScale d m opts k
      = (Real.log (effectiveThreshold d m opts) / (-4.5)) ^ (1 / |k|) * 3 := by
  have hle := effectiveThreshold_le d m opts
  have hlog : Real.log (effectiveThreshold d m opts) < 0 :=
    Real.log_neg ht (by linarith [show (0.97:ℝ) < 1 by norm_num])
  have hL : 0 ≤ Real.log (effectiveThreshold d m opts) / (-4.5) :=
    (div_pos_of_neg_of_neg hlog (by norm_num)).le
  rw [kernelScale_eq, if_neg (not_lt.mpr hk.le), if_neg hk.ne']
  simp only [pow_real, log_real]
  rw [div_div_eq_mul_div, abs_of_pos hk, ← rpow_three_mul _ _ hL hk]
  congr 1
  ring


theorem nhdsLT_le_nhdsNE : 𝓝[<] (0 : ℝ) ≤ 𝓝[≠] 0 :=
  nhdsWithin_mono _ (fun _ hx => ne_of_lt hx)

theorem nhdsGT_le_nhdsNE : 𝓝[>] (0 : ℝ) ≤ 𝓝[≠] 0 :=
  nhdsWithin_mono _ (fun _ hx => ne_of_gt hx)


theorem kernelScale_zero (d m : ℝ) (opts : Nat) :
    kernelScale d m opts 0 = ((1 - effectiveThreshold d m opts) / 3) / (-0.329630334487) := by
  rw [kernelScale_eq, if_neg (lt_irrefl 0), if_pos rfl]

theorem kernelScale_tendsto_left (d m : ℝ) (opts : Nat) (ht : 0 < effectiveThreshold d m opts) :
    Tendsto (fun k => kernelScale d m opts k) (𝓝[<] 0) (𝓝 0) := by
  have hle := effectiveThreshold_le d m opts
  have hlog : Real.log (effectiveThreshold d m opts) < 0 :=
    Real.log_neg ht (by linarith [show (0.97:ℝ) < 1 by norm_num])
  have hden : Real.log (effectiveThreshold d m opts) - 1 < 0 := by linarith
  have hB0 : 0 ≤ 1 / (Real.log (effectiveThreshold d m opts) - 1) + 1 := by
    rw [div_add' _ _ _ hden.ne, div_nonneg_iff]
    right
    constructor <;> linarith
  have hB1 : 1 / (Real.log (effectiveThreshold d m opts) - 1) + 1 < 1 := by
    have := one_div_neg.mpr hden
    linarith
  refine ((tendsto_rpow_inv_abs _ hB0 hB1).mono_left nhdsLT_le_nhdsNE).congr' ?_
  filter_upwards [self_mem_nhdsWithin] with k hk
  exact (kernelScale_bump d m opts k hk ht).symm

theorem kernelScale_tendsto_right (d m : ℝ) (opts : Nat) (ht : 0 < effectiveThreshold d m opts)
    (hbig : Real.exp (-4.5) < effectiveThreshold d m opts) :
    Tendsto (fun k => kernelScale d m opts k) (𝓝[>] 0) (𝓝 0) := by
  have hle := effectiveThreshold_le d m opts
  have hlog : Real.log (effectiveThreshold d m opts) < 0 :=
    Real.log_neg ht (by linarith [show (0.97:ℝ) < 1 by norm_num])
  have hL0 : 0 ≤ Real.log (effectiveThreshold d m opts) / (-4.5) :=
    (div_pos_of_neg_of_neg hlog (by norm_num)).le
  have hL1 : Real.log (effectiveThreshold d m opts) / (-4.5) < 1 := by
    have h := Real.log_lt_log (Real.exp_pos _) hbig
    rw [Real.log_exp] at h
    rw [div_lt_one_of_neg (by norm_num)]
    exact h
  refine ((tendsto_rpow_inv_abs _ hL0 hL1).mono_left nhdsGT_le_nhdsNE).congr' ?_
  filter_upwards [self_mem_nhdsWithin] with k hk
  exact (kernelScale_gaussian d m opts k hk ht).symm

theorem kernelScale_tendsto_right_atTop (d m : ℝ) (opts : Nat)
    (ht : 0 < effectiveThreshold d m opts)
    (hsmall : effectiveThreshold d m opts < Real.exp (-4.5)) :
    Tendsto (fun k => kernelScale d m opts k) (𝓝[>] 0) atTop := by
  have hL1 : 1 < Real.log (effectiveThreshold d m opts) / (-4.5) := by
    have h := Real.log_lt_log ht hsmall
    rw [Real.log_exp] at h
    rw [one_lt_div_of_neg (by norm_num)]
    exact h
  refine ((tendsto_rpow_inv_abs_atTop _ hL1).mono_left nhdsGT_le_nhdsNE).congr' ?_
  filter_upwards [self_mem_nhdsWithin] with k hk
  exact (kernelScale_gaussian d m opts k hk ht).symm

/-- C8 (amended): `kernelScale` is not continuous in `kernelDegree` at 0.  For every
effective threshold `t` in `(0, 0.97]` the bump-branch value tends to 0 as
`kernelDegree → 0` from below; the generalized-Gaussian-branch value tends to 0 as
`kernelDegree → 0` from above when `t > e^(−4.5)` and grows without bound when
`t < e^(−4.5)`; the linear-branch value returned at `kernelDegree = 0` is
`((1 − t)/3)/(−0.329630334487)`, which is below `−0.03` (real arithmetic). -/
theorem kernelScale_limits_at_zero (density globalMinResponse : ℝ) (opts : Nat)
    (ht : 0 < effectiveThreshold density globalMinResponse opts) :
    Tendsto (fun k => kernelScale density globalMinResponse opts k) (𝓝[<] 0) (𝓝 0) ∧
    (Real.exp (-4.5) < effectiveThreshold density globalMinResponse opts →
      Tendsto (fun k => kernelScale density globalMinResponse opts k) (𝓝[>] 0) (𝓝 0)) ∧
    (effectiveThreshold density globalMinResponse opts < Real.exp (-4.5) →
      Tendsto (fun k => kernelScale density globalMinResponse opts k) (𝓝[>] 0) atTop) ∧
    kernelScale density globalMinResponse opts 0
      = ((1 - effectiveThreshold density globalMinResponse opts) / 3) / (-0.329630334487) ∧
    kernelScale density globalMinResponse opts 0 < -0.03 :=
  have hle := effectiveThreshold_le density globalMinResponse opts
  ⟨kernelScale_tendsto_left density globalMinResponse opts ht,
   kernelScale_tendsto_right density globalMinResponse opts ht,
   kernelScale_tendsto_right_atTop density globalMinResponse opts ht,
   kernelScale_zero density globalMinResponse opts, by
    rw [kernelScale_zero, div_lt_iff_of_neg (by norm_num)]
    linarith⟩

theorem effectiveThreshold_builtin : effectiveThreshold (0.5 : ℝ) 0.0113 0 = 0.0113 := by
  unfold effectiveThreshold
  norm_num

/-- Density 0.5, threshold 0.0113, no option bit: the hypothesis of the limit theorem
holds. -/
theorem kernelScale_limits_at_zero_witness :
    0 < effectiveThreshold (0.5 : ℝ) 0.0113 0 ∧
    (Tendsto (fun k => kernelScale (0.5 : ℝ) 0.0113 0 k) (𝓝[<] 0) (𝓝 0) ∧
    (Real.exp (-4.5) < effectiveThreshold (0.5 : ℝ) 0.0113 0 →
      Tendsto (fun k => kernelScale (0.5 : ℝ) 0.0113 0 k) (𝓝[>] 0) (𝓝 0)) ∧
    (effectiveThreshold (0.5 : ℝ) 0.0113 0 < Real.exp (-4.5) →
      Tendsto (fun k => kernelScale (0.5 : ℝ) 0.0113 0 k) (𝓝[>] 0) atTop) ∧
    kernelScale (0.5 : ℝ) 0.0113 0 0
      = ((1 - effectiveThreshold (0.5 : ℝ) 0.0113 0) / 3) / (-0.329630334487) ∧
    kernelScale (0.5 : ℝ) 0.0113 0 0 < -0.03) :=
  have h : 0 < effectiveThreshold (0.5 : ℝ) 0.0113 0 := by
    rw [effectiveThreshold_builtin]; norm_num
  ⟨h, kernelScale_limits_at_zero 0.5 0.0113 0 h⟩

/-- C8 fails at the built-in settings (threshold 0.0113, no option bit): both one-sided
limits of `kernelScale` in `kernelDegree` at 0 are 0, while the value returned at
`kernelDegree = 0` is below `−0.99`; any limit from either side is more than `0.99` away
from it. -/
theorem kernelScale_limits_at_zero_counterexample :
    Tendsto (fun k => kernelScale (0.5 : ℝ) 0.0113 0 k) (𝓝[<] 0) (𝓝 0) ∧
    Tendsto (fun k => kernelScale (0.5 : ℝ) 0.0113 0 k) (𝓝[>] 0) (𝓝 0) ∧
    kernelScale (0.5 : ℝ) 0.0113 0 0 < -0.99 ∧
    ∀ L : ℝ, (Tendsto (fun k => kernelScale (0.5 : ℝ) 0.0113 0 k) (𝓝[<] 0) (𝓝 L) ∨
        Tendsto (fun k => kernelScale (0.5 : ℝ) 0.0113 0 k) (𝓝[>] 0) (𝓝 L)) →
      0.99 < |L - kernelScale (0.5 : ℝ) 0.0113 0 0| := by
  have h : 0 < effectiveThreshold (0.5 : ℝ) 0.0113 0 := by
    rw [effectiveThreshold_builtin]; norm_num
  have hbig : Real.exp (-4.5) < effectiveThreshold (0.5 : ℝ) 0.0113 0 := by
    rw [effectiveThreshold_builtin]; exact exp_neg_four_half_lt
  have hl := kernelScale_tendsto_left 0.5 0.0113 0 h
  have hr := kernelScale_tendsto_right 0.5 0.0113 0 h hbig
  have hz : kernelScale (0.5 : ℝ) 0.0113 0 0 < -0.99 := by
    rw [kernelScale_zero, effectiveThreshold_builtin]
    norm_num
  refine ⟨hl, hr, hz, fun L hL => ?_⟩
  have hL0 : L = 0 := by
    rcases hL with hL | hL
    · exact tendsto_nhds_unique hL hl
    · exact tendsto_nhds_unique hL hr
  rw [hL0, zero_sub, abs_neg, abs_of_neg (by linarith)]
  linarith


end kernelLimits

/-! ## The attribute normalizer -/

section normalizer

theorem Vec4.sqrt_dot_divS (q : Vec4 ℝ) (h : 0 < Real.sqrt (Vec4.dot q q)) :
    Real.sqrt (Vec4.dot (Vec4.divS q (Real.sqrt (Vec4.dot q q)))
      (Vec4.divS q (Real.sqrt (Vec4.dot q q)))) = 1 := by
  have hd : 0 < Vec4.dot q q := Real.sqrt_pos.mp h
  have hs : Real.sqrt (Vec4.dot q q) * Real.sqrt (Vec4.dot q q) = Vec4.dot q q :=
    Real.mul_self_sqrt hd.le
  have : Vec4.dot (Vec4.divS q (Real.sqrt (Vec4.dot q q)))
      (Vec4.divS q (Real.sqrt (Vec4.dot q q))) = 1 := by
    have e : Vec4.dot (Vec4.divS q (Real.sqrt (Vec4.dot q q)))
        (Vec4.divS q (Real.sqrt (Vec4.dot q q)))
        = Vec4.dot q q / (Real.sqrt (Vec4.dot q q) * Real.sqrt (Vec4.dot q q)) := by
      simp only [Vec4.dot, Vec4.divS]
      field_simp
    rw [e, hs, div_self hd.ne']
  rw [this, Real.sqrt_one]

/-- In exact real arithmetic `normalize` keeps the length of the list and maps each
quaternion `q` as follows: if its Euclidean norm exceeds `1e-12` the result is `q` divided
by its norm and has norm 1; otherwise the result is the zero quaternion. -/
theorem normalize_exact (vecs : List (Vec4 ℝ)) :
    (normalize vecs normalizeEpsilon).length = vecs.length ∧
    ∀ (i : Nat) (q : Vec4 ℝ), vecs[i]? = some q →
      ∃ r, (normalize vecs normalizeEpsilon)[i]? = some r ∧
        (1e-12 < Real.sqrt (q.x ^ 2 + q.y ^ 2 + q.z ^ 2 + q.w ^ 2) →
          r = ⟨q.x / Real.sqrt (q.x ^ 2 + q.y ^ 2 + q.z ^ 2 + q.w ^ 2),
               q.y / Real.sqrt (q.x ^ 2 + q.y ^ 2 + q.z ^ 2 + q.w ^ 2),
               q.z / Real.sqrt (q.x ^ 2 + q.y ^ 2 + q.z ^ 2 + q.w ^ 2),
               q.w / Real.sqrt (q.x ^ 2 + q.y ^ 2 + q.z ^ 2 + q.w ^ 2)⟩ ∧
          |Real.sqrt (r.x ^ 2 + r.y ^ 2 + r.z ^ 2 + r.w ^ 2) - 1| ≤ 1e-5) ∧
        (¬ 1e-12 < Real.sqrt (q.x ^ 2 + q.y ^ 2 + q.z ^ 2 + q.w ^ 2) →
          r = ⟨0, 0, 0, 0⟩) := by
  refine ⟨by simp [normalize], fun i q hq => ?_⟩
  have hdot : ∀ v : Vec4 ℝ, v.x ^ 2 + v.y ^ 2 + v.z ^ 2 + v.w ^ 2 = Vec4.dot v v := by
    intro v; simp only [Vec4.dot]; ring
  simp only [hdot]
  have hr : (normalize vecs normalizeEpsilon)[i]? =
      some (if Real.sqrt (Vec4.dot q q) > normalizeEpsilon
        then Vec4.divS q (Real.sqrt (Vec4.dot q q)) else ⟨0, 0, 0, 0⟩) := by
    simp only [normalize, List.getElem?_map, hq, Option.map_some', sqrt_real]
  refine ⟨_, hr, ?_, ?_⟩
  · intro h
    have h' : Real.sqrt (Vec4.dot q q) > (normalizeEpsilon : ℝ) := h
    have hpos : 0 < Real.sqrt (Vec4.dot q q) := lt_trans (by norm_num) h
    simp only [sqrt_real, if_pos h']
    refine ⟨rfl, ?_⟩
    rw [Vec4.sqrt_dot_divS q hpos]
    norm_num
  · intro h
    have h' : ¬ Real.sqrt (Vec4.dot q q) > (normalizeEpsilon : ℝ) := h
    simp only [sqrt_real, if_neg h']

/-- C10: the activation pass of the loader is element-wise and length-preserving: every
component `x` of every scale vector is replaced by `exp(x)` (no clamping) and every
density `x` by the logistic sigmoid `1/(1 + e^(−x))` (real arithmetic). -/
theorem applyActivations_scales_densities (m : GRTModel ℝ) :
    ((applyActivations m).scales.length = m.scales.length ∧
      ∀ (i : Nat) (v : Vec3 ℝ), m.scales[i]? = some v →
        (applyActivations m).scales[i]?
          = some ⟨Real.exp v.x, Real.exp v.y, Real.exp v.z⟩) ∧
    ((applyActivations m).densities.length = m.densities.length ∧
      ∀ (i : Nat) (x : ℝ), m.densities[i]? = some x →
        (applyActivations m).densities[i]? = some (1 / (1 + Real.exp (-x)))) := by
  refine ⟨⟨by simp [applyActivations, exp], fun i v hv => ?_⟩,
    ⟨by simp [applyActivations, sigmoidVec], fun i x hx => ?_⟩⟩
  · simp [applyActivations, exp, hv]
  · simp [applyActivations, sigmoidVec, sigmoid, hx]


end normalizer

/-! ## The enclosure generator -/

section enclosure

variable {F : Type} [LinearOrderedField F] [FloatFns F]

theorem u32_of_lt {n : Nat} (h : n < 2 ^ 32) : u32 n = n := Nat.mod_eq_of_lt h

theorem u32_lt (n : Nat) : u32 n < 2 ^ 32 := Nat.mod_lt _ (by norm_num)

theorem i32_of_lt {z : Int} (h0 : 0 ≤ z) (h : z < 2 ^ 31) : i32 z = z := by
  unfold i32
  rw [Int.emod_eq_of_lt (by omega) (by omega)]
  omega

omit [FloatFns F] in
theorem length_getIcosahedronVertices :
    (getIcosahedronVertices : List (Vec3 F)).length = 12 := rfl

theorem length_getIcosahedronTriangles : getIcosahedronTriangles.length = 20 := rfl

/-- The full description of what `computeGaussianEnclosingIcosahedron` leaves in its two
output buffers. -/
theorem computeGaussianEnclosingIcosahedron_spec
    (gPos : List (Vec3 F)) (gRot : List (Vec4 F)) (gScl : List (Vec3 F)) (gDns : List F)
    (m : F) (opts : Nat) (degree : F) (V0 : List (Vec3 F)) (T0 : List Int3) :
    ∀ gNum : Nat, gNum ≤ gPos.length → gNum ≤ gRot.length → gNum ≤ gScl.length →
    gNum ≤ gDns.length →
    (∀ i, i < gNum → ∀ j, j < 12 → u32 (u32 (12 * i) + j) < V0.length) →
    (∀ i, i < gNum → ∀ t, t < 20 → u32 (u32 (20 * i) + t) < T0.length) →
    ∃ V T, computeGaussianEnclosingIcosahedron gNum gPos gRot gScl gDns m opts degree V0 T0
        = some (V, T) ∧
      V.length = V0.length ∧ T.length = T0.length ∧
      (∀ p, (∀ i, i < gNum → ∀ j, j < 12 → u32 (u32 (12 * i) + j) ≠ p) → V[p]? = V0[p]?) ∧
      (∀ p, (∀ i, i < gNum → ∀ t, t < 20 → u32 (u32 (20 * i) + t) ≠ p) → T[p]? = T0[p]?) ∧
      (12 * gNum ≤ 2 ^ 32 → ∀ i, i < gNum → ∀ j, j < 12 → ∀ q s p d v,
        gRot[i]? = some q → gScl[i]? = some s → gPos[i]? = some p → gDns[i]? = some d →
        (getIcosahedronVertices : List (Vec3 F))[j]? = some v →
        V[12 * i + j]? = some (Vec3.add (Vec3.mulMat (Vec3.mul v
          (Vec3.smulR (Vec3.smulL (kernelScale d m opts degree) s) ICOSAHEDRON_VERT_SCALE))
          (quaternionWXYZToMatrixTranspose q)) p)) ∧
      (20 * gNum ≤ 2 ^ 32 → ∀ i, i < gNum → ∀ t, t < 20 → ∀ c,
        getIcosahedronTriangles[t]? = some c →
        T[20 * i + t]? = some (Int3.add c ⟨i32 (12 * i : Nat), i32 (12 * i : Nat), i32 (12 * i : Nat)⟩)) := by
  intro gNum
  induction gNum with
  | zero =>
    intro _ _ _ _ _ _
    refine ⟨V0, T0, rfl, rfl, rfl, fun _ _ => rfl, fun _ _ => rfl, ?_, ?_⟩
    · intro _ i hi; exact absurd hi (Nat.not_lt_zero i)
    · intro _ i hi; exact absurd hi (Nat.not_lt_zero i)
  | succ k ih =>
    intro hPos hRot hScl hDns hVb hTb
    obtain ⟨V, T, hk, hVl, hTl, hVf, hTf, hVv, hTv⟩ :=
      ih (Nat.le_of_succ_le hPos) (Nat.le_of_succ_le hRot) (Nat.le_of_succ_le hScl)
        (Nat.le_of_succ_le hDns) (fun i hi => hVb i (Nat.lt_succ_of_lt hi))
        (fun i hi => hTb i (Nat.lt_succ_of_lt hi))
    have hq : gRot[k]? = some gRot[k] := List.getElem?_eq_getElem hRot
    have hs : gScl[k]? = some gScl[k] := List.getElem?_eq_getElem hScl
    have hp : gPos[k]? = some gPos[k] := List.getElem?_eq_getElem hPos
    have hd : gDns[k]? = some gDns[k] := List.getElem?_eq_getElem hDns
    obtain ⟨V1, hV1, hV1l, hV1f, hV1v⟩ := forLoop_store (getIcosahedronVertices : List (Vec3 F))
      (fun v => Vec3.add (Vec3.mulMat (Vec3.mul v
          (Vec3.smulR (Vec3.smulL (kernelScale gDns[k] m opts degree) gScl[k])
            ICOSAHEDRON_VERT_SCALE))
          (quaternionWXYZToMatrixTranspose gRot[k])) gPos[k])
      (fun j => u32 (u32 (12 * k) + j)) 12 V (Nat.le_refl 12)
      (fun j hj => by rw [hVl]; exact hVb k (Nat.lt_succ_self k) j hj)
    obtain ⟨T1, hT1, hT1l, hT1f, hT1v⟩ := forLoop_store getIcosahedronTriangles
      (fun c => Int3.add c ⟨i32 (u32 (12 * k) : Nat), i32 (u32 (12 * k) : Nat),
        i32 (u32 (12 * k) : Nat)⟩)
      (fun t => u32 (u32 (20 * k) + t)) 20 T (Nat.le_refl 20)
      (fun t ht => by rw [hTl]; exact hTb k (Nat.lt_succ_self k) t ht)
    refine ⟨V1, T1, ?_, by rw [hV1l, hVl], by rw [hT1l, hTl], ?_, ?_, ?_, ?_⟩
    · unfold computeGaussianEnclosingIcosahedron at hk ⊢
      rw [forLoop_succ, hk]
      simp only [Option.some_bind, hq, hs, hp, hd, Option.bind_eq_bind, Option.pure_def,
        ICOSAHEDRON_NUM_VERT, ICOSAHEDRON_NUM_TRI]
      rw [hV1, Option.some_bind, hT1, Option.some_bind]
    · intro p hp
      rw [hV1f p (fun j hj => hp k (Nat.lt_succ_self k) j hj)]
      exact hVf p (fun i hi => hp i (Nat.lt_succ_of_lt hi))
    · intro p hp
      rw [hT1f p (fun t ht => hp k (Nat.lt_succ_self k) t ht)]
      exact hTf p (fun i hi => hp i (Nat.lt_succ_of_lt hi))
    · intro hno i hi j hj q s pp d v hq1 hs1 hp1 hd1 hv
      have hidx : ∀ a, a < 12 → u32 (u32 (12 * k) + a) = 12 * k + a := by
        intro a ha
        unfold u32
        omega
      rcases Nat.lt_succ_iff_lt_or_eq.mp hi with hlt | rfl
      · rw [hV1f (12 * i + j) (fun a ha => by rw [hidx a ha]; omega)]
        exact hVv (by omega) i hlt j hj q s pp d v hq1 hs1 hp1 hd1 hv
      · obtain rfl : gRot[i] = q := Option.some.inj (hq.symm.trans hq1)
        obtain rfl : gScl[i] = s := Option.some.inj (hs.symm.trans hs1)
        obtain rfl : gPos[i] = pp := Option.some.inj (hp.symm.trans hp1)
        obtain rfl : gDns[i] = d := Option.some.inj (hd.symm.trans hd1)
        have h := hV1v j hj (fun a hja ha => by
          show u32 (u32 (12 * i) + a) ≠ u32 (u32 (12 * i) + j)
          rw [hidx a ha, hidx j hj]; omega)
        simp only [hidx j hj, hv, Option.map_some'] at h
        exact h
    · intro hno i hi t ht c hc
      have hidx : ∀ a, a < 20 → u32 (u32 (20 * k) + a) = 20 * k + a := by
        intro a ha
        unfold u32
        omega
      rcases Nat.lt_succ_iff_lt_or_eq.mp hi with hlt | rfl
      · rw [hT1f (20 * i + t) (fun a ha => by rw [hidx a ha]; omega)]
        exact hTv (by omega) i hlt t ht c hc
      · have h := hT1v t ht (fun a hta ha => by
          show u32 (u32 (20 * i) + a) ≠ u32 (u32 (20 * i) + t)
          rw [hidx a ha, hidx t ht]; omega)
        simp only [hidx t ht, hc, Option.map_some',
          u32_of_lt (by omega : 12 * i < 2 ^ 32)] at h
        exact h

omit [FloatFns F] in
theorem enclosure_vertex_toFun (v scl trans : Vec3 F) (ks : F) (rot : Mat3 F) :
    (Vec3.add (Vec3.mulMat (Vec3.mul v
        (Vec3.smulR (Vec3.smulL ks scl) ICOSAHEDRON_VERT_SCALE)) rot) trans).toFun
      = Matrix.vecMul (v.toFun * fun c => ks * scl.toFun c * ICOSAHEDRON_VERT_SCALE)
          rot.toMatrix + trans.toFun := by
  funext c
  fin_cases c <;>
    simp [Vec3.toFun, Mat3.toMatrix, Matrix.vecMul, Matrix.dotProduct, Fin.sum_univ_three,
      Vec3.add, Vec3.mulMat, Vec3.mul, Vec3.smulR, Vec3.smulL] <;> ring

theorem getIcosahedronTriangles_range (c : Int3) (hc : c ∈ getIcosahedronTriangles) :
    (0 ≤ c.x ∧ c.x < 12) ∧ (0 ≤ c.y ∧ c.y < 12) ∧ (0 ≤ c.z ∧ c.z < 12) := by
  revert c
  decide

/-- C1 (amended): for every particle count `N` with `12 * N ≤ 2^32`, every particle
index `i < N` and every canonical vertex index `j < 12`,
`computeGaussianEnclosingIcosahedron` succeeds and leaves at vertex offset `12 * i + j`
the value `(v_j ⊙ kscl_i) · M_i + position_i`, where `v_j` is canonical vertex `j`,
`kscl_i = kernelScale(density_i, kernelMinResponse, opts, degree) × scale_i ×
ICOSAHEDRON_VERT_SCALE` component-wise, and `M_i` is the matrix built from `rotation_i`
(element-wise scale, then row vector times matrix, then translate). -/
theorem computeGaussianEnclosingIcosahedron_vertex (gNum : Nat)
    (gPos : List (Vec3 F)) (gRot : List (Vec4 F)) (gScl : List (Vec3 F)) (gDns : List F)
    (kernelMinResponse : F) (opts : Nat) (degree : F)
    (gPrimVrt : List (Vec3 F)) (gPrimTri : List Int3)
    (hPos : gPos.length = gNum) (hRot : gRot.length = gNum) (hScl : gScl.length = gNum)
    (hDns : gDns.length = gNum) (hVrt : gPrimVrt.length = 12 * gNum)
    (hTri : gPrimTri.length = 20 * gNum) (hfit : 12 * gNum ≤ 2 ^ 32)
    (i j : Nat) (hi : i < gNum) (hj : j < 12) :
    ∃ V T q scl trans dns v w,
      computeGaussianEnclosingIcosahedron gNum gPos gRot gScl gDns kernelMinResponse opts
        degree gPrimVrt gPrimTri = some (V, T) ∧
      gRot[i]? = some q ∧ gScl[i]? = some scl ∧ gPos[i]? = some trans ∧ gDns[i]? = some dns ∧
      (getIcosahedronVertices : List (Vec3 F))[j]? = some v ∧
      V[12 * i + j]? = some w ∧
      w.toFun = Matrix.vecMul
        (v.toFun * fun c =>
          kernelScale dns kernelMinResponse opts degree * scl.toFun c * ICOSAHEDRON_VERT_SCALE)
        (quaternionWXYZToMatrixTranspose q).toMatrix + trans.toFun := by
  obtain ⟨V, T, hrun, -, -, -, -, hval, -⟩ :=
    computeGaussianEnclosingIcosahedron_spec gPos gRot gScl gDns kernelMinResponse opts degree
      gPrimVrt gPrimTri gNum hPos.ge hRot.ge hScl.ge hDns.ge
      (fun a ha b hb => by rw [hVrt]; unfold u32; omega)
      (fun a ha b hb => by rw [hTri]; unfold u32; omega)
  have hq : gRot[i]? = some gRot[i] := List.getElem?_eq_getElem (by omega)
  have hs : gScl[i]? = some gScl[i] := List.getElem?_eq_getElem (by omega)
  have hp : gPos[i]? = some gPos[i] := List.getElem?_eq_getElem (by omega)
  have hd : gDns[i]? = some gDns[i] := List.getElem?_eq_getElem (by omega)
  have hv : (getIcosahedronVertices : List (Vec3 F))[j]?
      = some ((getIcosahedronVertices : List (Vec3 F))[j]) :=
    List.getElem?_eq_getElem (by rw [length_getIcosahedronVertices]; exact hj)
  exact ⟨V, T, _, _, _, _, _, _, hrun, hq, hs, hp, hd, hv,
    hval hfit i hi j hj _ _ _ _ _ hq hs hp hd hv, enclosure_vertex_toFun _ _ _ _ _⟩

/-- C2 (amended): for every particle count `N` with `12 * N ≤ 2^31`, every particle
index `i < N` and every canonical triangle index `t < 20`,
`computeGaussianEnclosingIcosahedron` succeeds and leaves at triangle offset `20 * i + t`
the canonical index triple `t` with `12 * i` added to each of its three indices. -/
theorem computeGaussianEnclosingIcosahedron_triangle (gNum : Nat)
    (gPos : List (Vec3 F)) (gRot : List (Vec4 F)) (gScl : List (Vec3 F)) (gDns : List F)
    (kernelMinResponse : F) (opts : Nat) (degree : F)
    (gPrimVrt : List (Vec3 F)) (gPrimTri : List Int3)
    (hPos : gPos.length = gNum) (hRot : gRot.length = gNum) (hScl : gScl.length = gNum)
    (hDns : gDns.length = gNum) (hVrt : gPrimVrt.length = 12 * gNum)
    (hTri : gPrimTri.length = 20 * gNum) (hfit : 12 * gNum ≤ 2 ^ 31)
    (i t : Nat) (hi : i < gNum) (ht : t < 20) :
    ∃ V T c,
      computeGaussianEnclosingIcosahedron gNum gPos gRot gScl gDns kernelMinResponse opts
        degree gPrimVrt gPrimTri = some (V, T) ∧
      getIcosahedronTriangles[t]? = some c ∧
      T[20 * i + t]? = some ⟨c.x + 12 * i, c.y + 12 * i, c.z + 12 * i⟩ := by
  obtain ⟨V, T, hrun, -, -, -, -, -, hval⟩ :=
    computeGaussianEnclosingIcosahedron_spec gPos gRot gScl gDns kernelMinResponse opts degree
      gPrimVrt gPrimTri gNum hPos.ge hRot.ge hScl.ge hDns.ge
      (fun a ha b hb => by rw [hVrt]; unfold u32; omega)
      (fun a ha b hb => by rw [hTri]; unfold u32; omega)
  have hc : getIcosahedronTriangles[t]? = some getIcosahedronTriangles[t] :=
    List.getElem?_eq_getElem (by rw [length_getIcosahedronTriangles]; exact ht)
  obtain ⟨⟨hx0, hx1⟩, ⟨hy0, hy1⟩, ⟨hz0, hz1⟩⟩ :=
    getIcosahedronTriangles_range _ (List.getElem?_mem hc)
  refine ⟨V, T, _, hrun, hc, ?_⟩
  rw [hval (by omega) i hi t ht _ hc]
  have hoff : i32 ((12 * i : Nat) : Int) = 12 * (i : Int) := by
    rw [i32_of_lt (by omega) (by omega)]; push_cast; ring
  simp only [Int3.add, hoff]
  rw [i32_of_lt (by omega) (by omega), i32_of_lt (by omega) (by omega),
    i32_of_lt (by omega) (by omega)]

/-- C3 (amended): for every particle count `N` with `12 * N ≤ 2^31` and every global
triangle index `g < 20 * N` of the output of `computeGaussianEnclosingIcosahedron`, all
three vertex indices of triangle `g` lie in `[12 * i, 12 * i + 12)` for `i = g / 20`; the
index ranges of distinct particles are disjoint. -/
theorem computeGaussianEnclosingIcosahedron_triangle_owner (gNum : Nat)
    (gPos : List (Vec3 F)) (gRot : List (Vec4 F)) (gScl : List (Vec3 F)) (gDns : List F)
    (kernelMinResponse : F) (opts : Nat) (degree : F)
    (gPrimVrt : List (Vec3 F)) (gPrimTri : List Int3)
    (hPos : gPos.length = gNum) (hRot : gRot.length = gNum) (hScl : gScl.length = gNum)
    (hDns : gDns.length = gNum) (hVrt : gPrimVrt.length = 12 * gNum)
    (hTri : gPrimTri.length = 20 * gNum) (hfit : 12 * gNum ≤ 2 ^ 31) :
    ∃ V T,
      computeGaussianEnclosingIcosahedron gNum gPos gRot gScl gDns kernelMinResponse opts
        degree gPrimVrt gPrimTri = some (V, T) ∧
      (∀ g, g < 20 * gNum → ∃ tri, T[g]? = some tri ∧
        ∀ a, a = tri.x ∨ a = tri.y ∨ a = tri.z →
          12 * ((g / 20 : Nat) : Int) ≤ a ∧ a < 12 * ((g / 20 : Nat) : Int) + 12) ∧
      (∀ i j : Nat, i ≠ j → ∀ a : Int,
        ¬ ((12 * (i : Int) ≤ a ∧ a < 12 * (i : Int) + 12) ∧
           (12 * (j : Int) ≤ a ∧ a < 12 * (j : Int) + 12))) := by
  obtain ⟨V, T, hrun, -, -, -, -, -, hval⟩ :=
    computeGaussianEnclosingIcosahedron_spec gPos gRot gScl gDns kernelMinResponse opts degree
      gPrimVrt gPrimTri gNum hPos.ge hRot.ge hScl.ge hDns.ge
      (fun a ha b hb => by rw [hVrt]; unfold u32; omega)
      (fun a ha b hb => by rw [hTri]; unfold u32; omega)
  refine ⟨V, T, hrun, ?_, ?_⟩
  · intro g hg
    have ht : g % 20 < 20 := Nat.mod_lt _ (by norm_num)
    have hi : g / 20 < gNum := by omega
    have hc : getIcosahedronTriangles[g % 20]? = some getIcosahedronTriangles[g % 20] :=
      List.getElem?_eq_getElem (by rw [length_getIcosahedronTriangles]; exact ht)
    obtain ⟨⟨hx0, hx1⟩, ⟨hy0, hy1⟩, ⟨hz0, hz1⟩⟩ :=
      getIcosahedronTriangles_range _ (List.getElem?_mem hc)
    have h := hval (by omega) (g / 20) hi (g % 20) ht _ hc
    rw [Nat.div_add_mod g 20] at h
    refine ⟨_, h, ?_⟩
    have hoff : i32 ((12 * (g / 20) : Nat) : Int) = 12 * ((g / 20 : Nat) : Int) := by
      rw [i32_of_lt (by omega) (by omega)]; push_cast; ring
    simp only [Int3.add, hoff]
    rw [i32_of_lt (by omega) (by omega), i32_of_lt (by omega) (by omega),
      i32_of_lt (by omega) (by omega)]
    rintro a (rfl | rfl | rfl) <;> constructor <;> omega
  · intro i j hij a
    omega

end enclosure

/-! ## The canonical icosahedron and the unit ball -/

section icosahedron

end icosahedron

/-! ## The enclosure of the kernel support -/

section support

/-- For a unit quaternion the columns of the matrix built by
`quaternionWXYZToMatrixTranspose` are orthonormal. -/
theorem quaternion_transpose_mul_self (q : Vec4 ℝ)
    (h : q.x ^ 2 + q.y ^ 2 + q.z ^ 2 + q.w ^ 2 = 1) :
    Matrix.transpose (quaternionWXYZToMatrixTranspose q).toMatrix
        * (quaternionWXYZToMatrixTranspose q).toMatrix
      = 1 := by
  obtain ⟨r, x, y, z⟩ := q
  simp only at h
  ext i j
  fin_cases i <;> fin_cases j <;>
    simp [Matrix.mul_apply, Fin.sum_univ_three, Mat3.toMatrix, Vec3.toFun,
      quaternionWXYZToMatrixTranspose, Matrix.transpose_apply]
  · linear_combination (4 * (y ^ 2 + z ^ 2)) * h
  · linear_combination (-4 * x * y) * h
  · linear_combination (-4 * x * z) * h
  · linear_combination (-4 * x * y) * h
  · linear_combination (4 * (x ^ 2 + z ^ 2)) * h
  · linear_combination (-4 * y * z) * h
  · linear_combination (-4 * x * z) * h
  · linear_combination (-4 * y * z) * h
  · linear_combination (4 * (x ^ 2 + y ^ 2)) * h


end support

/-! ## The enclosure generator on concrete inputs -/

/-- Two particles, vertex 3 of particle 1: the hypotheses of the vertex theorem hold. -/
theorem computeGaussianEnclosingIcosahedron_vertex_witness :
    (12 * 2 ≤ 2 ^ 32 ∧ 1 < 2 ∧ 3 < 12) ∧
    ∃ (V : List (Vec3 ℝ)) (T : List Int3) (q : Vec4 ℝ) (scl trans : Vec3 ℝ) (dns : ℝ)
        (v w : Vec3 ℝ),
      computeGaussianEnclosingIcosahedron 2
        [(⟨0, 0, 0⟩ : Vec3 ℝ), ⟨5, 6, 7⟩] [(⟨1, 0, 0, 0⟩ : Vec4 ℝ), ⟨0, 1, 0, 0⟩]
        [(⟨1, 1, 1⟩ : Vec3 ℝ), ⟨1, 2, 3⟩] [(0.5 : ℝ), 0.25] (0.0113 : ℝ) 0 (4 : ℝ)
        (List.replicate 24 ⟨0, 0, 0⟩) (List.replicate 40 ⟨0, 0, 0⟩) = some (V, T) ∧
      [(⟨1, 0, 0, 0⟩ : Vec4 ℝ), ⟨0, 1, 0, 0⟩][1]? = some q ∧
      [(⟨1, 1, 1⟩ : Vec3 ℝ), ⟨1, 2, 3⟩][1]? = some scl ∧
      [(⟨0, 0, 0⟩ : Vec3 ℝ), ⟨5, 6, 7⟩][1]? = some trans ∧
      [(0.5 : ℝ), 0.25][1]? = some dns ∧
      (getIcosahedronVertices : List (Vec3 ℝ))[3]? = some v ∧
      V[12 * 1 + 3]? = some w ∧
      w.toFun = Matrix.vecMul
        (v.toFun * fun c => kernelScale dns (0.0113 : ℝ) 0 (4 : ℝ) * scl.toFun c * ICOSAHEDRON_VERT_SCALE)
        (quaternionWXYZToMatrixTranspose q).toMatrix + trans.toFun :=
  ⟨⟨by norm_num, by norm_num, by norm_num⟩,
   computeGaussianEnclosingIcosahedron_vertex 2 _ _ _ _ (0.0113 : ℝ) 0 (4 : ℝ) _ _ (by rfl) (by rfl) (by rfl) (by rfl) (by rfl) (by rfl)
     (by norm_num) 1 3 (by norm_num) (by norm_num)⟩

/-- Two particles, triangle 7 of particle 1: the hypotheses of the triangle theorem hold. -/
theorem computeGaussianEnclosingIcosahedron_triangle_witness :
    (12 * 2 ≤ 2 ^ 31 ∧ 1 < 2 ∧ 7 < 20) ∧
    ∃ V T c,
      computeGaussianEnclosingIcosahedron 2
        [(⟨0, 0, 0⟩ : Vec3 ℝ), ⟨5, 6, 7⟩] [(⟨1, 0, 0, 0⟩ : Vec4 ℝ), ⟨0, 1, 0, 0⟩]
        [(⟨1, 1, 1⟩ : Vec3 ℝ), ⟨1, 2, 3⟩] [(0.5 : ℝ), 0.25] (0.0113 : ℝ) 0 (4 : ℝ)
        (List.replicate 24 ⟨0, 0, 0⟩) (List.replicate 40 ⟨0, 0, 0⟩) = some (V, T) ∧
      getIcosahedronTriangles[7]? = some c ∧
      T[20 * 1 + 7]? = some ⟨c.x + 12 * (1 : Nat), c.y + 12 * (1 : Nat), c.z + 12 * (1 : Nat)⟩ :=
  ⟨⟨by norm_num, by norm_num, by norm_num⟩,
   computeGaussianEnclosingIcosahedron_triangle 2 _ _ _ _ (0.0113 : ℝ) 0 (4 : ℝ) _ _ (by rfl) (by rfl) (by rfl) (by rfl) (by rfl)
     (by rfl) (by norm_num) 1 7 (by norm_num) (by norm_num)⟩

/-- Two particles: the hypotheses of the ownership theorem hold. -/
theorem computeGaussianEnclosingIcosahedron_triangle_owner_witness :
    12 * 2 ≤ 2 ^ 31 ∧
    ∃ V T,
      computeGaussianEnclosingIcosahedron 2
        [(⟨0, 0, 0⟩ : Vec3 ℝ), ⟨5, 6, 7⟩] [(⟨1, 0, 0, 0⟩ : Vec4 ℝ), ⟨0, 1, 0, 0⟩]
        [(⟨1, 1, 1⟩ : Vec3 ℝ), ⟨1, 2, 3⟩] [(0.5 : ℝ), 0.25] (0.0113 : ℝ) 0 (4 : ℝ)
        (List.replicate 24 ⟨0, 0, 0⟩) (List.replicate 40 ⟨0, 0, 0⟩) = some (V, T) ∧
      (∀ g, g < 20 * 2 → ∃ tri, T[g]? = some tri ∧
        ∀ a, a = tri.x ∨ a = tri.y ∨ a = tri.z →
          12 * ((g / 20 : Nat) : Int) ≤ a ∧ a < 12 * ((g / 20 : Nat) : Int) + 12) ∧
      (∀ i j : Nat, i ≠ j → ∀ a : Int,
        ¬ ((12 * (i : Int) ≤ a ∧ a < 12 * (i : Int) + 12) ∧
           (12 * (j : Int) ≤ a ∧ a < 12 * (j : Int) + 12))) :=
  ⟨by norm_num,
   computeGaussianEnclosingIcosahedron_triangle_owner 2 _ _ _ _ (0.0113 : ℝ) 0 (4 : ℝ) _ _ (by rfl) (by rfl) (by rfl) (by rfl)
     (by rfl) (by rfl) (by norm_num)⟩


theorem u32_ne_of_le (n p : Nat) (hp : 2 ^ 32 ≤ p) : u32 n ≠ p :=
  fun h => absurd (h ▸ u32_lt n) (not_lt.mpr hp)

/-- C1 fails without the bound on the particle count: with 357913942 particles and
output buffers of `12 * N` and `20 * N` entries, vertex 4 of the last particle is stored
at offset 0 (`12 * 357913941 + 4` reduced modulo `2^32`), so the cell at offset
`12 * 357913941 + 4` keeps its initial zero vector, which is not the vertex value. -/
theorem computeGaussianEnclosingIcosahedron_vertex_counterexample :
    ∃ V T,
      computeGaussianEnclosingIcosahedron 357913942
        (List.replicate 357913942 (⟨0, 0, 0⟩ : Vec3 ℝ))
        (List.replicate 357913942 (⟨1, 0, 0, 0⟩ : Vec4 ℝ))
        (List.replicate 357913942 (⟨1, 1, 1⟩ : Vec3 ℝ))
        (List.replicate 357913942 (0.5 : ℝ)) 0.0113 0 4
        (List.replicate (12 * 357913942) (⟨0, 0, 0⟩ : Vec3 ℝ))
        (List.replicate (20 * 357913942) (⟨0, 0, 0⟩ : Int3)) = some (V, T) ∧
      V[12 * 357913941 + 4]? = some ⟨0, 0, 0⟩ ∧
      (getIcosahedronVertices : List (Vec3 ℝ))[4]? = some ⟨- GOLDEN_RATIO, 0, 1⟩ ∧
      (⟨0, 0, 0⟩ : Vec3 ℝ).toFun ≠ Matrix.vecMul
        ((⟨- GOLDEN_RATIO, 0, 1⟩ : Vec3 ℝ).toFun * fun c =>
          kernelScale (0.5 : ℝ) 0.0113 0 4 * (⟨1, 1, 1⟩ : Vec3 ℝ).toFun c
            * ICOSAHEDRON_VERT_SCALE)
        (quaternionWXYZToMatrixTranspose (⟨1, 0, 0, 0⟩ : Vec4 ℝ)).toMatrix
        + (⟨0, 0, 0⟩ : Vec3 ℝ).toFun := by
  obtain ⟨V, T, hrun, -, -, hframe, -, -, -⟩ :=
    computeGaussianEnclosingIcosahedron_spec
      (List.replicate 357913942 (⟨0, 0, 0⟩ : Vec3 ℝ))
      (List.replicate 357913942 (⟨1, 0, 0, 0⟩ : Vec4 ℝ))
      (List.replicate 357913942 (⟨1, 1, 1⟩ : Vec3 ℝ))
      (List.replicate 357913942 (0.5 : ℝ)) 0.0113 0 4
      (List.replicate (12 * 357913942) (⟨0, 0, 0⟩ : Vec3 ℝ))
      (List.replicate (20 * 357913942) (⟨0, 0, 0⟩ : Int3)) 357913942
      (by rw [List.length_replicate]) (by rw [List.length_replicate])
      (by rw [List.length_replicate]) (by rw [List.length_replicate])
      (fun i _ j _ => by
        rw [List.length_replicate]
        exact lt_of_lt_of_le (u32_lt _) (by norm_num))
      (fun i _ j _ => by
        rw [List.length_replicate]
        exact lt_of_lt_of_le (u32_lt _) (by norm_num))
  refine ⟨V, T, hrun, ?_, rfl, ?_⟩
  · rw [hframe _ (fun i _ j _ => u32_ne_of_le _ _ (by norm_num)), List.getElem?_replicate]
    norm_num
  · intro h
    have h2 := congrFun h 2
    have hks : 0 < kernelScale (0.5 : ℝ) 0.0113 0 4 :=
      kernelScale_pos 0.5 0.0113 0 4 (by norm_num) (by unfold effectiveThreshold; norm_num)
    simp [Vec3.toFun, Mat3.toMatrix, Matrix.vecMul, Matrix.dotProduct, Fin.sum_univ_three,
      quaternionWXYZToMatrixTranspose, ICOSAHEDRON_VERT_SCALE, ICOSAHEDRON_EDGE] at h2
    rcases h2 with h2 | h2 | h2
    · exact hks.ne' h2
    · norm_num at h2
    · norm_num at h2


/-- With 178956971 particles the last particle's vertex block starts at `2^31 - 8`, and
the first index of its canonical triangle 10 wraps to `-2^31`. -/
theorem computeGaussianEnclosingIcosahedron_wrapped_triangle :
    ∃ V T,
      computeGaussianEnclosingIcosahedron 178956971
        (List.replicate 178956971 (⟨0, 0, 0⟩ : Vec3 ℝ))
        (List.replicate 178956971 (⟨1, 0, 0, 0⟩ : Vec4 ℝ))
        (List.replicate 178956971 (⟨1, 1, 1⟩ : Vec3 ℝ))
        (List.replicate 178956971 (0.5 : ℝ)) 0.0113 0 4
        (List.replicate (12 * 178956971) (⟨0, 0, 0⟩ : Vec3 ℝ))
        (List.replicate (20 * 178956971) (⟨0, 0, 0⟩ : Int3)) = some (V, T) ∧
      T[20 * 178956970 + 10]? = some ⟨-2147483648, 2147483644, 2147483643⟩ := by
  obtain ⟨V, T, hrun, -, -, -, -, -, hval⟩ :=
    computeGaussianEnclosingIcosahedron_spec
      (List.replicate 178956971 (⟨0, 0, 0⟩ : Vec3 ℝ))
      (List.replicate 178956971 (⟨1, 0, 0, 0⟩ : Vec4 ℝ))
      (List.replicate 178956971 (⟨1, 1, 1⟩ : Vec3 ℝ))
      (List.replicate 178956971 (0.5 : ℝ)) 0.0113 0 4
      (List.replicate (12 * 178956971) (⟨0, 0, 0⟩ : Vec3 ℝ))
      (List.replicate (20 * 178956971) (⟨0, 0, 0⟩ : Int3)) 178956971
      (by rw [List.length_replicate]) (by rw [List.length_replicate])
      (by rw [List.length_replicate]) (by rw [List.length_replicate])
      (fun i hi j hj => by
        rw [List.length_replicate, u32_of_lt (by omega : 12 * i < 2 ^ 32),
          u32_of_lt (by omega)]
        omega)
      (fun i hi j hj => by
        rw [List.length_replicate, u32_of_lt (by omega : 20 * i < 2 ^ 32),
          u32_of_lt (by omega)]
        omega)
  refine ⟨V, T, hrun, ?_⟩
  rw [hval (by norm_num) 178956970 (by norm_num) 10 (by norm_num) ⟨8, 4, 3⟩ rfl]
  simp only [Int3.add, i32]
  norm_num

/-- C2 fails without the bound on the particle count: with 178956971 particles the
triple stored at triangle offset `20 * 178956970 + 10` is not canonical triple 10 with
`12 * 178956970` added to its indices. -/
theorem computeGaussianEnclosingIcosahedron_triangle_counterexample :
    ∃ V T c,
      computeGaussianEnclosingIcosahedron 178956971
        (List.replicate 178956971 (⟨0, 0, 0⟩ : Vec3 ℝ))
        (List.replicate 178956971 (⟨1, 0, 0, 0⟩ : Vec4 ℝ))
        (List.replicate 178956971 (⟨1, 1, 1⟩ : Vec3 ℝ))
        (List.replicate 178956971 (0.5 : ℝ)) 0.0113 0 4
        (List.replicate (12 * 178956971) (⟨0, 0, 0⟩ : Vec3 ℝ))
        (List.replicate (20 * 178956971) (⟨0, 0, 0⟩ : Int3)) = some (V, T) ∧
      getIcosahedronTriangles[10]? = some c ∧
      T[20 * 178956970 + 10]? ≠
        some ⟨c.x + 12 * 178956970, c.y + 12 * 178956970, c.z + 12 * 178956970⟩ := by
  obtain ⟨V, T, hrun, hT⟩ := computeGaussianEnclosingIcosahedron_wrapped_triangle
  refine ⟨V, T, ⟨8, 4, 3⟩, hrun, rfl, ?_⟩
  rw [hT]
  intro h
  have hx := congrArg Int3.x (Option.some.inj h)
  norm_num at hx

/-- C3 fails without the bound on the particle count: with 178956971 particles the
first vertex index of global triangle 3579139410 lies outside
`[12 * i, 12 * i + 12)` for `i = 3579139410 / 20`. -/
theorem computeGaussianEnclosingIcosahedron_triangle_owner_counterexample :
    ∃ V T tri,
      computeGaussianEnclosingIcosahedron 178956971
        (List.replicate 178956971 (⟨0, 0, 0⟩ : Vec3 ℝ))
        (List.replicate 178956971 (⟨1, 0, 0, 0⟩ : Vec4 ℝ))
        (List.replicate 178956971 (⟨1, 1, 1⟩ : Vec3 ℝ))
        (List.replicate 178956971 (0.5 : ℝ)) 0.0113 0 4
        (List.replicate (12 * 178956971) (⟨0, 0, 0⟩ : Vec3 ℝ))
        (List.replicate (20 * 178956971) (⟨0, 0, 0⟩ : Int3)) = some (V, T) ∧
      3579139410 < 20 * 178956971 ∧
      T[3579139410]? = some tri ∧
      ¬ (12 * ((3579139410 / 20 : Nat) : Int) ≤ tri.x ∧
         tri.x < 12 * ((3579139410 / 20 : Nat) : Int) + 12) := by
  obtain ⟨V, T, hrun, hT⟩ := computeGaussianEnclosingIcosahedron_wrapped_triangle
  refine ⟨V, T, _, hrun, by norm_num, hT, ?_⟩
  norm_num

/-! ## The activation pass and the early exits of the loader -/

section activationPass

variable {F : Type} [LinearOrderedField F] [FloatFns F]

/-- What `loadGeometry` changes: only the two geometry arrays. -/
theorem loadGeometry_frame (m out : GRTModel F) (h : loadGeometry m = some out) :
    out = { m with vertices := out.vertices, triangles := out.triangles } := by
  unfold loadGeometry at h
  obtain ⟨o, -, rfl⟩ := Option.map_eq_some'.mp h
  rfl

theorem IfStream.read_of_lt (content : List Nat) (n : Nat) (h : content.length < n) :
    ((⟨content, false⟩ : IfStream).read n).1.length ≠ n := by
  have h' : ¬ n ≤ content.length := Nat.not_le.mpr h
  simp [IfStream.read, h']
  omega

theorem IfStream.read_of_le (content : List Nat) (n : Nat) (h : n ≤ content.length) :
    (⟨content, false⟩ : IfStream).read n = (content.take n, ⟨content.drop n, false⟩) := by
  simp [IfStream.read, h]

/-- The loader on a file that holds the seven header integers. -/
theorem load_eq (decode : Nat → F) (uninit : Nat → Nat → List Nat) (content : List Nat)
    (h : 28 ≤ content.length) :
    _load decode uninit (some content)
      = (readAllTensors decode uninit (content.take 28) ⟨content.drop 28, false⟩).bind
          fun m => loadGeometry (applyActivations m) := by
  have e : (⟨content, false⟩ : IfStream).read (7 * 4)
      = (content.take 28, ⟨content.drop 28, false⟩) := IfStream.read_of_le content 28 h
  have hl : (content.take 28).length = 28 := by
    rw [List.length_take]
    exact Nat.min_eq_left h
  unfold _load
  dsimp only
  rw [e, if_neg (not_not.mpr hl)]

/-- C17: the activation pass of `GRTModel::_load` leaves every position, albedo and
specular entry unchanged (as it leaves the count, the header dimensions and the geometry
arrays), and the positions, albedos and speculars of a loaded model are exactly the
arrays read from the file. -/
theorem applyActivations_frame :
    (∀ m : GRTModel F, (applyActivations m).positions = m.positions ∧
      (applyActivations m).albedos = m.albedos ∧
      (applyActivations m).speculars = m.speculars) ∧
    (∀ (decode : Nat → F) (uninit : Nat → Nat → List Nat) (content : List Nat)
        (raw model : GRTModel F),
      28 ≤ content.length →
      readAllTensors decode uninit (content.take 28) ⟨content.drop 28, false⟩ = some raw →
      _load decode uninit (some content) = some model →
      model.positions = raw.positions ∧ model.albedos = raw.albedos ∧
        model.speculars = raw.speculars) := by
  refine ⟨fun m => ⟨rfl, rfl, rfl⟩, ?_⟩
  intro decode uninit content raw model hlen hraw hload
  rw [load_eq decode uninit content hlen, hraw] at hload
  have hfr := loadGeometry_frame _ _ (show loadGeometry (applyActivations raw) = some model
    from hload)
  refine ⟨?_, ?_, ?_⟩ <;> rw [hfr] <;> rfl

/-- C14: if the file cannot be opened, or holds fewer than 7 32-bit integers (fewer than
28 bytes, the zero-byte file included), `_load` returns normally and the object has
`N = 0`, all six attribute arrays empty, and empty `vertices` and `triangles`. -/
theorem load_unreadable (decode : Nat → F) (uninit : Nat → Nat → List Nat)
    (file : Option (List Nat))
    (h : file = none ∨ ∃ content, file = some content ∧ content.length < 7 * 4) :
    ∃ model, _load decode uninit file = some model ∧ model.N = 0 ∧
      model.positions = [] ∧ model.scales = [] ∧ model.rotations = [] ∧
      model.albedos = [] ∧ model.speculars = [] ∧ model.densities = [] ∧
      model.vertices = [] ∧ model.triangles = [] := by
  refine ⟨GRTModel.init, ?_, rfl, rfl, rfl, rfl, rfl, rfl, rfl, rfl, rfl⟩
  rcases h with rfl | ⟨content, rfl, hlen⟩
  · rfl
  · unfold _load
    dsimp only
    rw [if_pos (IfStream.read_of_lt content (7 * 4) hlen)]

end activationPass

/-- The zero-byte file: the hypotheses of the theorem on unreadable files hold. -/
theorem load_unreadable_witness :
    (([] : List Nat).length < 7 * 4) ∧
    ∃ model : GRTModel ℝ, _load (fun _ => (0 : ℝ)) (fun _ _ => []) (some []) = some model ∧
      model.N = 0 ∧
      model.positions = [] ∧ model.scales = [] ∧ model.rotations = [] ∧
      model.albedos = [] ∧ model.speculars = [] ∧ model.densities = [] ∧
      model.vertices = [] ∧ model.triangles = [] :=
  ⟨by decide, load_unreadable (fun _ => (0 : ℝ)) (fun _ _ => []) (some [])
    (Or.inr ⟨[], rfl, by decide⟩)⟩

/-! ## The read lambdas of the loader -/

section reads

variable {F : Type}

theorem readVec3_length (decode : Nat → F) (uninit : Nat → List Nat) :
    ∀ (n : Nat) (fin : IfStream), (readVec3 decode uninit n fin).1.length = n := by
  intro n
  induction n with
  | zero => intro fin; rfl
  | succ n ih => intro fin; simp [readVec3, ih]

theorem readVec4_length (decode : Nat → F) (uninit : Nat → List Nat) :
    ∀ (n : Nat) (fin : IfStream), (readVec4 decode uninit n fin).1.length = n := by
  intro n
  induction n with
  | zero => intro fin; rfl
  | succ n ih => intro fin; simp [readVec4, ih]

theorem readVec45_length (decode : Nat → F) :
    ∀ (n : Nat) (fin : IfStream), (readVec45 decode n fin).1.length = n := by
  intro n
  induction n with
  | zero => intro fin; rfl
  | succ n ih => intro fin; simp [readVec45, ih]

theorem readFloat_length (decode : Nat → F) (n : Nat) (fin : IfStream) :
    (readFloat decode n fin).1.length = n := by
  simp [readFloat]

theorem getD_drop_zero (l : List Nat) (a i : Nat) : (l.drop a).getD i 0 = l.getD (a + i) 0 := by
  simp [List.getD_eq_getElem?_getD, List.getElem?_drop]

theorem getD_stored_take (buf l : List Nat) (m i : Nat) (hm : m ≤ l.length) (hi : i < m) :
    (stored buf (l.take m)).getD i 0 = l.getD i 0 := by
  have hlen : (l.take m).length = m := by simp [List.length_take, hm]
  unfold stored
  rw [List.getD_eq_getElem?_getD, List.getD_eq_getElem?_getD,
    List.getElem?_append_left (by rw [hlen]; exact hi), List.getElem?_take_of_lt hi]

theorem float32At_drop (decode : Nat → F) (l : List Nat) (a b : Nat) :
    float32At decode (l.drop a) b = float32At decode l (a + b) := by
  simp only [float32At, getD_drop_zero, Nat.add_assoc]

/-- A word that a successful read of `m` bytes has stored in a buffer. -/
theorem word32_stored_take (decode : Nat → F) (buf l : List Nat) (m k : Nat)
    (hm : m ≤ l.length) (hk : 4 * k + 3 < m) :
    decode (word32 (stored buf (l.take m)) k) = float32At decode l (4 * k) := by
  simp only [float32At, word32]
  rw [getD_stored_take buf l m _ hm (by omega), getD_stored_take buf l m _ hm (by omega),
    getD_stored_take buf l m _ hm (by omega), getD_stored_take buf l m _ hm (by omega)]

theorem word32_take (l : List Nat) (m k : Nat) (hk : 4 * k + 3 < m) :
    word32 (l.take m) k = word32 l k := by
  simp only [word32, List.getD_eq_getElem?_getD]
  rw [List.getElem?_take_of_lt (by omega), List.getElem?_take_of_lt (by omega),
    List.getElem?_take_of_lt (by omega), List.getElem?_take_of_lt (by omega)]

theorem read_drop (content : List Nat) (off n : Nat) (h : off + n ≤ content.length) :
    (⟨content.drop off, false⟩ : IfStream).read n
      = ((content.drop off).take n, ⟨content.drop (off + n), false⟩) := by
  rw [IfStream.read_of_le _ _ (by rw [List.length_drop]; omega), List.drop_drop]

/-- On a stream that still holds `12 * n` bytes, `readVec3` returns the floats at their
byte offsets and consumes exactly those bytes. -/
theorem readVec3_good (decode : Nat → F) (uninit : Nat → List Nat) (content : List Nat)
    (n off off' : Nat) (ho : off' = off + 12 * n) (h : off' ≤ content.length) :
    readVec3 decode uninit n ⟨content.drop off, false⟩
      = ((List.range n).map fun i =>
          ⟨float32At decode content (off + 4 * (3 * i + 0)),
           float32At decode content (off + 4 * (3 * i + 1)),
           float32At decode content (off + 4 * (3 * i + 2))⟩,
         ⟨content.drop off', false⟩) := by
  subst ho
  induction n generalizing off with
  | zero => rfl
  | succ n ih =>
    have hd : 12 ≤ (content.drop off).length := by rw [List.length_drop]; omega
    unfold readVec3
    simp only [read_drop content off 12 (by omega)]
    rw [ih (off + 12) (by omega), List.range_succ_eq_map n, List.map_cons, List.map_map,
      word32_stored_take decode _ _ 12 0 hd (by omega),
      word32_stored_take decode _ _ 12 1 hd (by omega),
      word32_stored_take decode _ _ 12 2 hd (by omega)]
    simp only [float32At_drop, Function.comp_def]
    refine Prod.ext ?_ ?_
    · refine congrArg₂ List.cons rfl (List.map_congr_left fun i _ => ?_)
      rw [show off + 12 + 4 * (3 * i + 0) = off + 4 * (3 * (i + 1) + 0) by omega,
        show off + 12 + 4 * (3 * i + 1) = off + 4 * (3 * (i + 1) + 1) by omega,
        show off + 12 + 4 * (3 * i + 2) = off + 4 * (3 * (i + 1) + 2) by omega]
    · show (⟨content.drop (off + 12 + 12 * n), false⟩ : IfStream) = _
      rw [show off + 12 + 12 * n = off + 12 * (n + 1) by omega]

/-- On a stream that still holds `16 * n` bytes, `readVec4` returns the floats at their
byte offsets and consumes exactly those bytes. -/
theorem readVec4_good (decode : Nat → F) (uninit : Nat → List Nat) (content : List Nat)
    (n off off' : Nat) (ho : off' = off + 16 * n) (h : off' ≤ content.length) :
    readVec4 decode uninit n ⟨content.drop off, false⟩
      = ((List.range n).map fun i =>
          ⟨float32At decode content (off + 4 * (4 * i + 0)),
           float32At decode content (off + 4 * (4 * i + 1)),
           float32At decode content (off + 4 * (4 * i + 2)),
           float32At decode content (off + 4 * (4 * i + 3))⟩,
         ⟨content.drop off', false⟩) := by
  subst ho
  induction n generalizing off with
  | zero => rfl
  | succ n ih =>
    have hd : 16 ≤ (content.drop off).length := by rw [List.length_drop]; omega
    unfold readVec4
    simp only [read_drop content off 16 (by omega)]
    rw [ih (off + 16) (by omega), List.range_succ_eq_map n, List.map_cons, List.map_map,
      word32_stored_take decode _ _ 16 0 hd (by omega),
      word32_stored_take decode _ _ 16 1 hd (by omega),
      word32_stored_take decode _ _ 16 2 hd (by omega),
      word32_stored_take decode _ _ 16 3 hd (by omega)]
    simp only [float32At_drop, Function.comp_def]
    refine Prod.ext ?_ ?_
    · refine congrArg₂ List.cons rfl (List.map_congr_left fun i _ => ?_)
      rw [show off + 16 + 4 * (4 * i + 0) = off + 4 * (4 * (i + 1) + 0) by omega,
        show off + 16 + 4 * (4 * i + 1) = off + 4 * (4 * (i + 1) + 1) by omega,
        show off + 16 + 4 * (4 * i + 2) = off + 4 * (4 * (i + 1) + 2) by omega,
        show off + 16 + 4 * (4 * i + 3) = off + 4 * (4 * (i + 1) + 3) by omega]
    · show (⟨content.drop (off + 16 + 16 * n), false⟩ : IfStream) = _
      rw [show off + 16 + 16 * n = off + 16 * (n + 1) by omega]

/-- On a stream that still holds `180 * n` bytes, `readVec45` returns the floats at their
byte offsets and consumes exactly those bytes. -/
theorem readVec45_good (decode : Nat → F) (content : List Nat)
    (n off off' : Nat) (ho : off' = off + 180 * n) (h : off' ≤ content.length) :
    readVec45 decode n ⟨content.drop off, false⟩
      = ((List.range n).map fun i =>
          ⟨(List.range 45).map fun c => float32At decode content (off + 4 * (45 * i + c))⟩,
         ⟨content.drop off', false⟩) := by
  subst ho
  induction n generalizing off with
  | zero => rfl
  | succ n ih =>
    have hd : 180 ≤ (content.drop off).length := by rw [List.length_drop]; omega
    unfold readVec45
    simp only [read_drop content off 180 (by omega)]
    rw [ih (off + 180) (by omega), List.range_succ_eq_map n, List.map_cons, List.map_map]
    refine Prod.ext ?_ ?_
    · refine congrArg₂ List.cons ?_ (List.map_congr_left fun i _ => ?_)
      · refine congrArg Vec45.mk (List.map_congr_left fun c hc => ?_)
        rw [word32_stored_take decode _ _ 180 c hd (by have := List.mem_range.mp hc; omega),
          float32At_drop, show off + 4 * c = off + 4 * (45 * 0 + c) by omega]
      · refine congrArg Vec45.mk (List.map_congr_left fun c _ => ?_)
        show float32At decode content (off + 180 + 4 * (45 * i + c)) = _
        rw [show off + 180 + 4 * (45 * i + c) = off + 4 * (45 * (i + 1) + c) by omega]
    · show (⟨content.drop (off + 180 + 180 * n), false⟩ : IfStream) = _
      rw [show off + 180 + 180 * n = off + 180 * (n + 1) by omega]

/-- On a stream that still holds `4 * n` bytes, `readFloat` returns the floats at their
byte offsets and consumes exactly those bytes. -/
theorem readFloat_good (decode : Nat → F) (content : List Nat)
    (n off off' : Nat) (ho : off' = off + 4 * n) (h : off' ≤ content.length) :
    readFloat decode n ⟨content.drop off, false⟩
      = ((List.range n).map fun i => float32At decode content (off + 4 * i),
         ⟨content.drop off', false⟩) := by
  subst ho
  have hd : n * 4 ≤ (content.drop off).length := by rw [List.length_drop]; omega
  unfold readFloat
  simp only [read_drop content off (n * 4) (by omega)]
  refine Prod.ext ?_ ?_
  · refine List.map_congr_left fun i hi => ?_
    rw [word32_stored_take decode _ _ (n * 4) i hd (by have := List.mem_range.mp hi; omega),
      float32At_drop]
  · show (⟨content.drop (off + n * 4), false⟩ : IfStream) = _
    rw [show off + n * 4 = off + 4 * n by omega]

end reads

/-! ## The stages of the loader -/

section stages

variable {F : Type} [LinearOrderedField F] [FloatFns F]

omit [LinearOrderedField F] [FloatFns F] in
/-- For a nonnegative count `N`, `readAllTensors` returns and every array has `N` entries,
whatever the stream holds. -/
theorem readAllTensors_lengths (decode : Nat → F) (uninit : Nat → Nat → List Nat)
    (hdr : List Nat) (fin : IfStream) (N : Nat) (hN : i32 (word32 hdr 0) = N) :
    ∃ raw, readAllTensors decode uninit hdr fin = some raw ∧ raw.N = N ∧
      raw.positions.length = N ∧ raw.scales.length = N ∧ raw.rotations.length = N ∧
      raw.albedos.length = N ∧ raw.speculars.length = N ∧ raw.densities.length = N := by
  have hneg : ¬ ((N : Int) < 0) := by omega
  unfold readAllTensors
  dsimp only
  rw [hN, if_neg hneg, Int.toNat_ofNat]
  exact ⟨_, rfl, rfl, readVec3_length _ _ _ _, readVec3_length _ _ _ _,
    readVec4_length _ _ _ _, readVec3_length _ _ _ _, readVec45_length _ _ _,
    readFloat_length _ _ _⟩

omit [LinearOrderedField F] [FloatFns F] in
/-- For a negative count `readAllTensors` does not return. -/
theorem readAllTensors_neg (decode : Nat → F) (uninit : Nat → Nat → List Nat)
    (hdr : List Nat) (fin : IfStream) (hN : i32 (word32 hdr 0) < 0) :
    readAllTensors decode uninit hdr fin = none := by
  unfold readAllTensors
  dsimp only
  rw [if_pos hN]

omit [LinearOrderedField F] [FloatFns F] in
/-- On a file that holds the six blocks in full, `readAllTensors` returns the floats at
their byte offsets. -/
theorem readAllTensors_good (decode : Nat → F) (uninit : Nat → Nat → List Nat)
    (hdr content : List Nat) (N : Nat) (hN : i32 (word32 hdr 0) = N)
    (hlen : 28 + 236 * N ≤ content.length) :
    readAllTensors decode uninit hdr ⟨content.drop 28, false⟩ = some
      { N := N, pos_dim := i32 (word32 hdr 1), scales_dim := i32 (word32 hdr 2),
        rotations_dim := i32 (word32 hdr 3), albedo_dim := i32 (word32 hdr 4),
        specular_dim := i32 (word32 hdr 5), densities_dim := i32 (word32 hdr 6),
        positions := (List.range N).map fun i =>
          ⟨float32At decode content (28 + 4 * (3 * i + 0)),
           float32At decode content (28 + 4 * (3 * i + 1)),
           float32At decode content (28 + 4 * (3 * i + 2))⟩,
        scales := (List.range N).map fun i =>
          ⟨float32At decode content (28 + 12 * N + 4 * (3 * i + 0)),
           float32At decode content (28 + 12 * N + 4 * (3 * i + 1)),
           float32At decode content (28 + 12 * N + 4 * (3 * i + 2))⟩,
        rotations := (List.range N).map fun i =>
          ⟨float32At decode content (28 + 24 * N + 4 * (4 * i + 0)),
           float32At decode content (28 + 24 * N + 4 * (4 * i + 1)),
           float32At decode content (28 + 24 * N + 4 * (4 * i + 2)),
           float32At decode content (28 + 24 * N + 4 * (4 * i + 3))⟩,
        albedos := (List.range N).map fun i =>
          ⟨float32At decode content (28 + 40 * N + 4 * (3 * i + 0)),
           float32At decode content (28 + 40 * N + 4 * (3 * i + 1)),
           float32At decode content (28 + 40 * N + 4 * (3 * i + 2))⟩,
        speculars := (List.range N).map fun i =>
          ⟨(List.range 45).map fun c =>
            float32At decode content (28 + 52 * N + 4 * (45 * i + c))⟩,
        densities := (List.range N).map fun i =>
          float32At decode content (28 + 232 * N + 4 * i),
        vertices := [], triangles := [] } := by
  have hneg : ¬ ((N : Int) < 0) := by omega
  unfold readAllTensors
  dsimp only
  rw [hN, if_neg hneg, Int.toNat_ofNat,
    readVec3_good decode (uninit 0) content N 28 (28 + 12 * N) (by omega) (by omega)]
  dsimp only
  rw [readVec3_good decode (uninit 1) content N (28 + 12 * N) (28 + 24 * N) (by omega)
    (by omega)]
  dsimp only
  rw [readVec4_good decode (uninit 2) content N (28 + 24 * N) (28 + 40 * N) (by omega)
    (by omega)]
  dsimp only
  rw [readVec3_good decode (uninit 3) content N (28 + 40 * N) (28 + 52 * N) (by omega)
    (by omega)]
  dsimp only
  rw [readVec45_good decode content N (28 + 52 * N) (28 + 232 * N) (by omega) (by omega)]
  dsimp only
  rw [readFloat_good decode content N (28 + 232 * N) (28 + 236 * N) (by omega) (by omega)]

theorem toU32_natCast (N : Nat) (h : N < 2 ^ 32) : toU32 (N : Int) = N := by
  have e : ((N : Int) % 2 ^ 32) = N := Int.emod_eq_of_lt (by omega) (by omega)
  unfold toU32
  rw [e, Int.toNat_ofNat]

/-- The geometry stage in terms of the enclosure generator, for a count `N` with
`20 * N ≤ 2^32`: the buffers hold `12 * N` and `20 * N` entries. -/
theorem loadGeometry_eq (m : GRTModel F) (N : Nat) (hN : m.N = N) (hfit : 20 * N ≤ 2 ^ 32) :
    loadGeometry m
      = (computeGaussianEnclosingIcosahedron N m.positions m.rotations m.scales m.densities
          0.0113000004 0 4 (List.replicate (12 * N) ⟨0, 0, 0⟩)
          (List.replicate (20 * N) ⟨0, 0, 0⟩)).map
        fun out => { m with vertices := out.1, triangles := out.2 } := by
  have e0 : toU32 m.N = N := by rw [hN]; exact toU32_natCast N (by omega)
  have e1 : u32 (N * ICOSAHEDRON_NUM_VERT) = 12 * N := by
    unfold u32 ICOSAHEDRON_NUM_VERT; omega
  have e2 : u32 (N * ICOSAHEDRON_NUM_TRI) = 20 * N := by
    unfold u32 ICOSAHEDRON_NUM_TRI; omega
  unfold loadGeometry
  dsimp only
  rw [e0, e1, e2]

/-- The geometry stage returns when `20 * N ≤ 2^32` and the four arrays it reads hold `N`
entries: the buffers it leaves hold `12 * N` and `20 * N` entries. -/
theorem loadGeometry_run (m : GRTModel F) (N : Nat) (hN : m.N = N) (hfit : 20 * N ≤ 2 ^ 32)
    (hPos : N ≤ m.positions.length) (hRot : N ≤ m.rotations.length)
    (hScl : N ≤ m.scales.length) (hDns : N ≤ m.densities.length) :
    ∃ V T, computeGaussianEnclosingIcosahedron N m.positions m.rotations m.scales m.densities
        0.0113000004 0 4 (List.replicate (12 * N) ⟨0, 0, 0⟩)
        (List.replicate (20 * N) ⟨0, 0, 0⟩) = some (V, T) ∧
      loadGeometry m = some { m with vertices := V, triangles := T } ∧
      V.length = 12 * N ∧ T.length = 20 * N := by
  obtain ⟨V, T, hrun, hV, hT, -⟩ :=
    computeGaussianEnclosingIcosahedron_spec m.positions m.rotations m.scales m.densities
      (0.0113000004 : F) 0 4 (List.replicate (12 * N) ⟨0, 0, 0⟩)
      (List.replicate (20 * N) ⟨0, 0, 0⟩) N hPos hRot hScl hDns
      (fun a ha b hb => by rw [List.length_replicate]; unfold u32; omega)
      (fun a ha b hb => by rw [List.length_replicate]; unfold u32; omega)
  refine ⟨V, T, hrun, ?_, by rw [hV, List.length_replicate],
    by rw [hT, List.length_replicate]⟩
  rw [loadGeometry_eq m N hN hfit, hrun]
  rfl

/-- The loader on a file with a complete header whose count `N` satisfies `20 * N ≤ 2^32`,
whatever follows the header: it returns, the object is the one that `readAllTensors`
leaves after the activation pass and the enclosure generator, and every attribute array
holds `N` entries. -/
theorem load_complete_header (decode : Nat → F) (uninit : Nat → Nat → List Nat)
    (content : List Nat) (N : Nat) (hhdr : 28 ≤ content.length)
    (hN : i32 (word32 content 0) = N) (hfit : 20 * N ≤ 2 ^ 32) :
    ∃ raw V T,
      readAllTensors decode uninit (content.take 28) ⟨content.drop 28, false⟩ = some raw ∧
      computeGaussianEnclosingIcosahedron N raw.positions
        (normalize raw.rotations normalizeEpsilon) (exp raw.scales)
        (sigmoidVec raw.densities) 0.0113000004 0 4 (List.replicate (12 * N) ⟨0, 0, 0⟩)
        (List.replicate (20 * N) ⟨0, 0, 0⟩) = some (V, T) ∧
      _load decode uninit (some content)
        = some { applyActivations raw with vertices := V, triangles := T } ∧
      raw.N = N ∧ raw.positions.length = N ∧ raw.scales.length = N ∧
      raw.rotations.length = N ∧ raw.albedos.length = N ∧ raw.speculars.length = N ∧
      raw.densities.length = N ∧ V.length = 12 * N ∧ T.length = 20 * N := by
  obtain ⟨raw, hraw, hrN, hp, hs, hr, ha, hsp, hd⟩ :=
    readAllTensors_lengths decode uninit (content.take 28) ⟨content.drop 28, false⟩ N
      (by rw [word32_take content 28 0 (by omega)]; exact hN)
  obtain ⟨V, T, hrun, hgeo, hV, hT⟩ := loadGeometry_run (applyActivations raw) N hrN hfit
    (by show N ≤ raw.positions.length; omega)
    (by show N ≤ (normalize raw.rotations normalizeEpsilon).length
        simp only [normalize, List.length_map]; omega)
    (by show N ≤ (exp raw.scales).length
        simp only [exp, List.length_map]; omega)
    (by show N ≤ (sigmoidVec raw.densities).length
        simp only [sigmoidVec, List.length_map]; omega)
  refine ⟨raw, V, T, hraw, hrun, ?_, hrN, hp, hs, hr, ha, hsp, hd, hV, hT⟩
  rw [load_eq decode uninit content hhdr, hraw, Option.some_bind, hgeo]

end stages

/-! ## The loader on files with a complete header -/

section loops2

variable {α β : Type}

theorem forLoop_none_of_first {σ : Type} (body : Nat → σ → Option σ) (s : σ)
    (h : body 0 s = none) : ∀ n, forLoop (n + 1) body s = none := by
  intro n
  induction n with
  | zero => rw [forLoop_succ]; exact h
  | succ n ih => rw [forLoop_succ, ih]; rfl

theorem forLoop_store_length (src : List β) (f : β → α) (idx : Nat → Nat) :
    ∀ (n : Nat) (buf out : List α),
    forLoop n (fun i b => src[i]?.bind fun v => writeAt b (idx i) (f v)) buf = some out →
    out.length = buf.length := by
  intro n
  induction n with
  | zero =>
    intro buf out h
    cases h
    rfl
  | succ n ih =>
    intro buf out h
    rw [forLoop_succ] at h
    obtain ⟨mid, hmid, hbody⟩ := Option.bind_eq_some.mp h
    obtain ⟨v, -, hw⟩ := Option.bind_eq_some.mp hbody
    unfold writeAt at hw
    split at hw
    · cases hw
      rw [List.length_set]
      exact ih buf mid hmid
    · exact absurd hw (by simp)

/-- A storing loop with an index outside the buffer does not return. -/
theorem forLoop_store_none (src : List β) (f : β → α) (idx : Nat → Nat) (buf : List α) :
    ∀ (n : Nat), (∃ i, i < n ∧ buf.length ≤ idx i) →
    forLoop n (fun i b => src[i]?.bind fun v => writeAt b (idx i) (f v)) buf = none := by
  intro n
  induction n with
  | zero =>
    rintro ⟨i, hi, -⟩
    exact absurd hi (Nat.not_lt_zero i)
  | succ n ih =>
    rintro ⟨i, hi, hout⟩
    rw [forLoop_succ]
    rcases Nat.lt_succ_iff_lt_or_eq.mp hi with hlt | rfl
    · rw [ih ⟨i, hlt, hout⟩]
      rfl
    · cases hmid : forLoop i (fun i b => src[i]?.bind fun v => writeAt b (idx i) (f v)) buf with
      | none => rfl
      | some mid =>
        have hl := forLoop_store_length src f idx i buf mid hmid
        rw [Option.some_bind]
        cases src[i]? with
        | none => rfl
        | some v =>
          rw [Option.some_bind]
          unfold writeAt
          rw [if_neg (by omega)]

end loops2

section shortBuffer

variable {F : Type} [LinearOrderedField F] [FloatFns F]

/-- The enclosure generator stores outside a triangle buffer of fewer than 20 entries as
soon as there is one particle. -/
theorem computeGaussianEnclosingIcosahedron_short_triangles (gNum : Nat)
    (gPos : List (Vec3 F)) (gRot : List (Vec4 F)) (gScl : List (Vec3 F)) (gDns : List F)
    (m : F) (opts : Nat) (degree : F) (V0 : List (Vec3 F)) (T0 : List Int3)
    (hN : 0 < gNum) (hPos : 0 < gPos.length) (hRot : 0 < gRot.length)
    (hScl : 0 < gScl.length) (hDns : 0 < gDns.length) (hV : 12 ≤ V0.length)
    (hT : T0.length < 20) :
    computeGaussianEnclosingIcosahedron gNum gPos gRot gScl gDns m opts degree V0 T0
      = none := by
  obtain ⟨k, rfl⟩ : ∃ k, gNum = k + 1 := ⟨gNum - 1, by omega⟩
  have hq : gRot[0]? = some gRot[0] := List.getElem?_eq_getElem hRot
  have hs : gScl[0]? = some gScl[0] := List.getElem?_eq_getElem hScl
  have hp : gPos[0]? = some gPos[0] := List.getElem?_eq_getElem hPos
  have hd : gDns[0]? = some gDns[0] := List.getElem?_eq_getElem hDns
  obtain ⟨V1, hV1, -⟩ := forLoop_store (getIcosahedronVertices : List (Vec3 F))
    (fun v => Vec3.add (Vec3.mulMat (Vec3.mul v
        (Vec3.smulR (Vec3.smulL (kernelScale gDns[0] m opts degree) gScl[0])
          ICOSAHEDRON_VERT_SCALE))
        (quaternionWXYZToMatrixTranspose gRot[0])) gPos[0])
    (fun j => u32 (u32 (12 * 0) + j)) 12 V0 (Nat.le_refl 12)
    (fun j hj => by show u32 (u32 (12 * 0) + j) < V0.length; unfold u32; omega)
  have hT1 := forLoop_store_none getIcosahedronTriangles
    (fun c => Int3.add c ⟨i32 (u32 (12 * 0) : Nat), i32 (u32 (12 * 0) : Nat),
      i32 (u32 (12 * 0) : Nat)⟩)
    (fun t => u32 (u32 (20 * 0) + t)) T0 20 ⟨19, by omega,
      by show T0.length ≤ u32 (u32 (20 * 0) + 19); unfold u32; omega⟩
  unfold computeGaussianEnclosingIcosahedron
  refine forLoop_none_of_first _ _ ?_ k
  simp only [Option.some_bind, hq, hs, hp, hd, Option.bind_eq_bind, Option.pure_def,
    ICOSAHEDRON_NUM_VERT, ICOSAHEDRON_NUM_TRI]
  rw [hV1, Option.some_bind, hT1, Option.none_bind]

end shortBuffer

section completeHeader

variable {F : Type} [LinearOrderedField F] [FloatFns F]

/-- C12: for every file with a complete 28-byte header whose count `N` is nonnegative and
that holds at least `28 + 236 * N` bytes, whatever the six dimension entries of the header
are, the loader reads the blocks at the fixed widths 3, 3, 4, 3, 45, 1 in that order: in
the object `raw` that the read stage leaves (on which the loader then runs the activation
pass and the geometry stage), `positions[i][c]` is the float32 at byte offset
`28 + 4 * (3 * i + c)`, `scales[i][c]` at `28 + 12 * N + 4 * (3 * i + c)`,
`rotations[i][c]` at `28 + 24 * N + 4 * (4 * i + c)`, `albedos[i][c]` at
`28 + 40 * N + 4 * (3 * i + c)`, `speculars[i][c]` at `28 + 52 * N + 4 * (45 * i + c)`
and `densities[i]` at `28 + 232 * N + 4 * i`. -/
theorem readAllTensors_offsets (decode : Nat → F) (uninit : Nat → Nat → List Nat)
    (content : List Nat) (N : Nat) (hN : i32 (word32 content 0) = N)
    (hlen : 28 + 236 * N ≤ content.length) :
    ∃ raw,
      readAllTensors decode uninit (content.take 28) ⟨content.drop 28, false⟩ = some raw ∧
      _load decode uninit (some content) = loadGeometry (applyActivations raw) ∧
      ∀ i, i < N →
        raw.positions[i]? = some
          ⟨float32At decode content (28 + 4 * (3 * i + 0)),
           float32At decode content (28 + 4 * (3 * i + 1)),
           float32At decode content (28 + 4 * (3 * i + 2))⟩ ∧
        raw.scales[i]? = some
          ⟨float32At decode content (28 + 12 * N + 4 * (3 * i + 0)),
           float32At decode content (28 + 12 * N + 4 * (3 * i + 1)),
           float32At decode content (28 + 12 * N + 4 * (3 * i + 2))⟩ ∧
        raw.rotations[i]? = some
          ⟨float32At decode content (28 + 24 * N + 4 * (4 * i + 0)),
           float32At decode content (28 + 24 * N + 4 * (4 * i + 1)),
           float32At decode content (28 + 24 * N + 4 * (4 * i + 2)),
           float32At decode content (28 + 24 * N + 4 * (4 * i + 3))⟩ ∧
        raw.albedos[i]? = some
          ⟨float32At decode content (28 + 40 * N + 4 * (3 * i + 0)),
           float32At decode content (28 + 40 * N + 4 * (3 * i + 1)),
           float32At decode content (28 + 40 * N + 4 * (3 * i + 2))⟩ ∧
        (∃ sp, raw.speculars[i]? = some sp ∧ ∀ c, c < 45 →
          sp.r[c]? = some (float32At decode content (28 + 52 * N + 4 * (45 * i + c)))) ∧
        raw.densities[i]? = some (float32At decode content (28 + 232 * N + 4 * i)) := by
  have hN' : i32 (word32 (content.take 28) 0) = N := by
    rw [word32_take content 28 0 (by omega)]
    exact hN
  have hraw := readAllTensors_good decode uninit (content.take 28) content N hN' hlen
  refine ⟨_, hraw, ?_, ?_⟩
  · rw [load_eq decode uninit content (by omega), hraw, Option.some_bind]
  · intro i hi
    have hr : (List.range N)[i]? = some i := List.getElem?_range hi
    refine ⟨?_, ?_, ?_, ?_,
      ⟨⟨(List.range 45).map fun c =>
        float32At decode content (28 + 52 * N + 4 * (45 * i + c))⟩, ?_, fun c hc => ?_⟩, ?_⟩
    · simp only [List.getElem?_map, hr, Option.map_some']
    · simp only [List.getElem?_map, hr, Option.map_some']
    · simp only [List.getElem?_map, hr, Option.map_some']
    · simp only [List.getElem?_map, hr, Option.map_some']
    · simp only [List.getElem?_map, hr, Option.map_some']
    · simp only [List.getElem?_map, List.getElem?_range hc, Option.map_some']
    · simp only [List.getElem?_map, hr, Option.map_some']

/-- C13 (amended): for every valid file (complete header with count `N ≥ 0` and all six
blocks fully present) with `20 * N ≤ 2^32`, `_load` returns and in the object the six
attribute arrays each have exactly `N` entries, `vertices` has `12 * N` and `triangles`
has `20 * N` entries. -/
theorem load_lengths (decode : Nat → F) (uninit : Nat → Nat → List Nat)
    (content : List Nat) (N : Nat) (hN : i32 (word32 content 0) = N)
    (hlen : 28 + 236 * N ≤ content.length) (hfit : 20 * N ≤ 2 ^ 32) :
    ∃ model, _load decode uninit (some content) = some model ∧ model.N = N ∧
      model.positions.length = N ∧ model.scales.length = N ∧ model.rotations.length = N ∧
      model.albedos.length = N ∧ model.speculars.length = N ∧ model.densities.length = N ∧
      model.vertices.length = 12 * N ∧ model.triangles.length = 20 * N := by
  obtain ⟨raw, V, T, -, -, hload, hrN, hp, hs, hr, ha, hsp, hd, hV, hT⟩ :=
    load_complete_header decode uninit content N (by omega) hN hfit
  refine ⟨_, hload, hrN, hp, ?_, ?_, ha, hsp, ?_, hV, hT⟩
  · show (exp raw.scales).length = N
    simp only [exp, List.length_map]
    exact hs
  · show (normalize raw.rotations normalizeEpsilon).length = N
    simp only [normalize, List.length_map]
    exact hr
  · show (sigmoidVec raw.densities).length = N
    simp only [sigmoidVec, List.length_map]
    exact hd

end completeHeader

theorem sampleFile_count : i32 (word32 sampleFile 0) = (1 : Nat) := by decide

theorem sampleFile_length : sampleFile.length = 264 := by
  simp only [sampleFile, sampleDims, List.length_append, List.length_replicate,
    List.length_cons, List.length_nil]

theorem truncatedFile_count : i32 (word32 truncatedFile 0) = (1 : Nat) := by decide

theorem truncatedFile_length : truncatedFile.length = 260 := by
  simp only [truncatedFile, sampleDims, List.length_append, List.length_replicate,
    List.length_cons, List.length_nil]

theorem largeFile_length : largeFile.length = 28 + 236 * 214748365 := by
  simp only [largeFile, sampleDims, List.length_append, List.length_replicate,
    List.length_cons, List.length_nil]

theorem largeFile_take : largeFile.take 28 = [205, 204, 204, 12] ++ sampleDims :=
  List.take_left' rfl

theorem largeFile_count : i32 (word32 largeFile 0) = (214748365 : Nat) := by
  rw [← word32_take largeFile 28 0 (by omega), largeFile_take]
  decide

/-- A count that `readAllTensors` has stored is nonnegative. -/
theorem readAllTensors_nonneg {F : Type} (decode : Nat → F) (uninit : Nat → Nat → List Nat)
    (hdr : List Nat) (fin : IfStream) (raw : GRTModel F)
    (h : readAllTensors decode uninit hdr fin = some raw) : 0 ≤ raw.N := by
  by_cases hneg : i32 (word32 hdr 0) < 0
  · rw [readAllTensors_neg decode uninit hdr fin hneg] at h
    exact absurd h (by simp)
  · obtain ⟨raw', hraw', hrN', -⟩ := readAllTensors_lengths decode uninit hdr fin
      (i32 (word32 hdr 0)).toNat (Int.toNat_of_nonneg (not_lt.mp hneg)).symm
    rw [hraw'] at h
    cases h
    rw [hrN']
    exact Int.natCast_nonneg _

/-- The sample file with one particle: the hypotheses of the offsets theorem hold. -/
theorem readAllTensors_offsets_witness :
    (i32 (word32 sampleFile 0) = (1 : Nat) ∧ 28 + 236 * 1 ≤ sampleFile.length) ∧
    ∃ raw : GRTModel ℝ,
      readAllTensors (fun w => (w : ℝ)) (fun _ _ => []) (sampleFile.take 28)
        ⟨sampleFile.drop 28, false⟩ = some raw ∧
      raw.rotations[0]? = some
        ⟨float32At (fun w => (w : ℝ)) sampleFile (28 + 24 * 1 + 4 * (4 * 0 + 0)),
         float32At (fun w => (w : ℝ)) sampleFile (28 + 24 * 1 + 4 * (4 * 0 + 1)),
         float32At (fun w => (w : ℝ)) sampleFile (28 + 24 * 1 + 4 * (4 * 0 + 2)),
         float32At (fun w => (w : ℝ)) sampleFile (28 + 24 * 1 + 4 * (4 * 0 + 3))⟩ ∧
      raw.densities[0]? = some (float32At (fun w => (w : ℝ)) sampleFile (28 + 232 * 1 + 4 * 0)) :=
  ⟨⟨sampleFile_count, by rw [sampleFile_length]⟩,
    (readAllTensors_offsets (fun w => (w : ℝ)) (fun _ _ => []) sampleFile 1 sampleFile_count
      (by rw [sampleFile_length])).elim
      fun raw h => ⟨raw, h.1, (h.2.2 0 (by norm_num)).2.2.1, (h.2.2 0 (by norm_num)).2.2.2.2.2⟩⟩

/-- The sample file with one particle: the hypotheses of the lengths theorem hold. -/
theorem load_lengths_witness :
    (i32 (word32 sampleFile 0) = (1 : Nat) ∧ 28 + 236 * 1 ≤ sampleFile.length ∧
      20 * 1 ≤ 2 ^ 32) ∧
    ∃ model : GRTModel ℝ,
      _load (fun w => (w : ℝ)) (fun _ _ => []) (some sampleFile) = some model ∧
      model.N = (1 : Nat) ∧
      model.positions.length = 1 ∧ model.scales.length = 1 ∧ model.rotations.length = 1 ∧
      model.albedos.length = 1 ∧ model.speculars.length = 1 ∧ model.densities.length = 1 ∧
      model.vertices.length = 12 * 1 ∧ model.triangles.length = 20 * 1 :=
  ⟨⟨sampleFile_count, by rw [sampleFile_length], by norm_num⟩,
    load_lengths (fun w => (w : ℝ)) (fun _ _ => []) sampleFile 1 sampleFile_count
      (by rw [sampleFile_length]) (by norm_num)⟩

/-- C13 fails without the bound on the count: the file with 214748365 particles is valid
(it holds all `28 + 236 * N` bytes), but the loader allocates only
`20 * 214748365 mod 2^32 = 4` triangles, the enclosure generator stores outside that
buffer, and `_load` does not return an object with `20 * N` triangles. -/
theorem load_lengths_counterexample :
    i32 (word32 largeFile 0) = (214748365 : Nat) ∧
    28 + 236 * 214748365 ≤ largeFile.length ∧
    u32 (toU32 (214748365 : Nat) * ICOSAHEDRON_NUM_TRI) = 4 ∧
    _load (fun w => (w : ℝ)) (fun _ _ => []) (some largeFile) = none := by
  have e0 : toU32 ((214748365 : Nat) : Int) = 214748365 := toU32_natCast _ (by norm_num)
  have eT : u32 (214748365 * ICOSAHEDRON_NUM_TRI) = 4 := by
    norm_num [u32, ICOSAHEDRON_NUM_TRI]
  have eV : u32 (214748365 * ICOSAHEDRON_NUM_VERT) = 2576980380 := by
    norm_num [u32, ICOSAHEDRON_NUM_VERT]
  refine ⟨largeFile_count, by rw [largeFile_length], by rw [e0, eT], ?_⟩
  obtain ⟨raw, hraw, hrN, hp, hs, hr, -, -, hd⟩ :=
    readAllTensors_lengths (fun w => (w : ℝ)) (fun _ _ => []) (largeFile.take 28)
      ⟨largeFile.drop 28, false⟩ 214748365
      (by rw [word32_take largeFile 28 0 (by omega)]; exact largeFile_count)
  have eN : toU32 (applyActivations raw).N = 214748365 := by
    show toU32 raw.N = 214748365
    rw [hrN, e0]
  rw [load_eq _ _ largeFile (by rw [largeFile_length]; norm_num), hraw, Option.some_bind]
  unfold loadGeometry
  dsimp only
  rw [eN, eT, eV, computeGaussianEnclosingIcosahedron_short_triangles 214748365 _ _ _ _ _ _ _
    _ _ (by norm_num)
    (by show 0 < raw.positions.length; omega)
    (by show 0 < (normalize raw.rotations normalizeEpsilon).length
        simp only [normalize, List.length_map]; omega)
    (by show 0 < (exp raw.scales).length
        simp only [exp, List.length_map]; omega)
    (by show 0 < (sigmoidVec raw.densities).length
        simp only [sigmoidVec, List.length_map]; omega)
    (by rw [List.length_replicate]; norm_num)
    (by rw [List.length_replicate]; norm_num)]
  rfl

/-- C15, the loader on a truncated file: for the 260-byte file with count 1 whose density
block is missing, `_load` returns an object in which every attribute array has one entry
and the geometry of one particle has been generated; no array is left empty. -/
theorem load_truncated :
    truncatedFile.length = 260 ∧ truncatedFile.length < 28 + 236 * 1 ∧
    ∃ model : GRTModel ℝ,
      _load (fun w => (w : ℝ)) (fun _ _ => []) (some truncatedFile) = some model ∧
      model.N = 1 ∧
      model.positions.length = 1 ∧ model.scales.length = 1 ∧ model.rotations.length = 1 ∧
      model.albedos.length = 1 ∧ model.speculars.length = 1 ∧ model.densities.length = 1 ∧
      model.vertices.length = 12 ∧ model.triangles.length = 20 := by
  obtain ⟨raw, V, T, -, -, hload, hrN, hp, hs, hr, ha, hsp, hd, hV, hT⟩ :=
    load_complete_header (fun w => (w : ℝ)) (fun _ _ => []) truncatedFile 1
      (by rw [truncatedFile_length]; norm_num) truncatedFile_count (by norm_num)
  refine ⟨truncatedFile_length, by rw [truncatedFile_length]; norm_num,
    _, hload, hrN, hp, ?_, ?_, ha, hsp, ?_, hV, hT⟩
  · show (exp raw.scales).length = 1
    simp only [exp, List.length_map]
    exact hs
  · show (normalize raw.rotations normalizeEpsilon).length = 1
    simp only [normalize, List.length_map]
    exact hr
  · show (sigmoidVec raw.densities).length = 1
    simp only [sigmoidVec, List.length_map]
    exact hd

/-- C16, the loader on a negative count: for the 28-byte file whose first header integer
is `-1`, `_load` does not return (the first `vec.resize(N)` throws); it returns neither
the object with count 0 that other malformed files give nor any other object.  Every
object that `_load` does return has a nonnegative count. -/
theorem load_negative_count :
    i32 (word32 negativeCountFile 0) = -1 ∧
    _load (fun w => (w : ℝ)) (fun _ _ => []) (some negativeCountFile) = none ∧
    ∀ (decode : Nat → ℝ) (uninit : Nat → Nat → List Nat) (file : Option (List Nat))
      (model : GRTModel ℝ), _load decode uninit file = some model → 0 ≤ model.N := by
  have hlen : negativeCountFile.length = 28 := by
    simp only [negativeCountFile, sampleDims, List.length_append, List.length_cons,
      List.length_nil]
  have hcount : i32 (word32 negativeCountFile 0) = -1 := by decide
  refine ⟨hcount, ?_, ?_⟩
  · rw [load_eq _ _ negativeCountFile (by rw [hlen]),
      readAllTensors_neg _ _ _ _ (by
        rw [word32_take negativeCountFile 28 0 (by omega), hcount]
        norm_num)]
    rfl
  · intro decode uninit file model hload
    cases file with
    | none =>
      cases hload
      exact le_refl _
    | some content =>
      by_cases hlen : 28 ≤ content.length
      · rw [load_eq decode uninit content hlen] at hload
        obtain ⟨raw, hraw, hgeo⟩ := Option.bind_eq_some.mp hload
        have hfr := loadGeometry_frame _ _ hgeo
        have : model.N = raw.N := by rw [hfr]; rfl
        rw [this]
        exact readAllTensors_nonneg _ _ _ _ _ hraw
      · have hne := IfStream.read_of_lt content 28 (Nat.not_le.mp hlen)
        unfold _load at hload
        dsimp only at hload
        rw [if_pos hne] at hload
        cases hload
        exact le_refl _

/-! ## One particle -/

section single

variable {F : Type} [LinearOrderedField F] [FloatFns F]

theorem getIcosahedronTriangles_add_zero (c : Int3) (hc : c ∈ getIcosahedronTriangles) :
    Int3.add c ⟨i32 ((12 * 0 : Nat) : Int), i32 ((12 * 0 : Nat) : Int),
      i32 ((12 * 0 : Nat) : Int)⟩ = c := by
  revert c
  decide

/-- The enclosure generator on one particle with buffers of 12 and 20 entries: the vertex
buffer holds the twelve transformed canonical vertices and the triangle buffer the
canonical index table. -/
theorem enclosure_single (q : Vec4 F) (s p : Vec3 F) (d m : F) (opts : Nat) (degree : F) :
    computeGaussianEnclosingIcosahedron 1 [p] [q] [s] [d] m opts degree
        (List.replicate 12 ⟨0, 0, 0⟩) (List.replicate 20 ⟨0, 0, 0⟩)
      = some ((getIcosahedronVertices : List (Vec3 F)).map (fun v =>
          Vec3.add (Vec3.mulMat (Vec3.mul v
            (Vec3.smulR (Vec3.smulL (kernelScale d m opts degree) s) ICOSAHEDRON_VERT_SCALE))
            (quaternionWXYZToMatrixTranspose q)) p),
        getIcosahedronTriangles) := by
  obtain ⟨V, T, hrun, hVl, hTl, -, -, hVv, hTv⟩ :=
    computeGaussianEnclosingIcosahedron_spec [p] [q] [s] [d] m opts degree
      (List.replicate 12 ⟨0, 0, 0⟩) (List.replicate 20 ⟨0, 0, 0⟩) 1
      (Nat.le_refl 1) (Nat.le_refl 1) (Nat.le_refl 1) (Nat.le_refl 1)
      (fun a ha b hb => by rw [List.length_replicate]; unfold u32; omega)
      (fun a ha b hb => by rw [List.length_replicate]; unfold u32; omega)
  rw [List.length_replicate] at hVl hTl
  have eV : V = (getIcosahedronVertices : List (Vec3 F)).map (fun v =>
      Vec3.add (Vec3.mulMat (Vec3.mul v
        (Vec3.smulR (Vec3.smulL (kernelScale d m opts degree) s) ICOSAHEDRON_VERT_SCALE))
        (quaternionWXYZToMatrixTranspose q)) p) := by
    refine List.ext_getElem? fun j => ?_
    by_cases hj : j < 12
    · have hv : (getIcosahedronVertices : List (Vec3 F))[j]?
          = some ((getIcosahedronVertices : List (Vec3 F))[j]) :=
        List.getElem?_eq_getElem (by rw [length_getIcosahedronVertices]; exact hj)
      have h := hVv (by norm_num) 0 (by norm_num) j hj q s p d _ rfl rfl rfl rfl hv
      rw [show 12 * 0 + j = j by omega] at h
      rw [h, List.getElem?_map, hv, Option.map_some']
    · rw [List.getElem?_eq_none (by omega), List.getElem?_eq_none (by
        rw [List.length_map, length_getIcosahedronVertices]; omega)]
  have eT : T = getIcosahedronTriangles := by
    refine List.ext_getElem? fun t => ?_
    by_cases ht : t < 20
    · have hc : getIcosahedronTriangles[t]? = some (getIcosahedronTriangles[t]) :=
        List.getElem?_eq_getElem (by rw [length_getIcosahedronTriangles]; exact ht)
      have h := hTv (by norm_num) 0 (by norm_num) t ht _ hc
      rw [show 20 * 0 + t = t by omega,
        getIcosahedronTriangles_add_zero _ (List.getElem?_mem hc)] at h
      rw [h, hc]
    · rw [List.getElem?_eq_none (by omega), List.getElem?_eq_none (by
        rw [length_getIcosahedronTriangles]; omega)]
  rw [hrun, eV, eT]

end single

section scenario

theorem sigmoid_zero : sigmoid (0 : ℝ) = 0.5 := by
  unfold sigmoid
  rw [exp_real]
  norm_num

theorem normalize_identity :
    normalize [(⟨1, 0, 0, 0⟩ : Vec4 ℝ)] normalizeEpsilon = [⟨1, 0, 0, 0⟩] := by
  have h : Real.sqrt (Vec4.dot (⟨1, 0, 0, 0⟩ : Vec4 ℝ) ⟨1, 0, 0, 0⟩) = 1 := by
    simp [Vec4.dot]
  have hgt : (1 : ℝ) > normalizeEpsilon := by unfold normalizeEpsilon; norm_num
  simp only [normalize, List.map_cons, List.map_nil, sqrt_real, h, if_pos hgt, Vec4.divS,
    div_one]

theorem exp_zero_vec : exp [(⟨0, 0, 0⟩ : Vec3 ℝ)] = [⟨1, 1, 1⟩] := by
  simp only [exp, List.map_cons, List.map_nil, exp_real, Real.exp_zero]

/-- A canonical vertex scaled by `ks * s * ICOSAHEDRON_VERT_SCALE` on every axis, rotated
by the matrix of the quaternion `(1, 0, 0, 0)` and moved to the origin. -/
theorem enclosure_vertex_identity (v : Vec3 ℝ) (ks s : ℝ) :
    Vec3.add (Vec3.mulMat (Vec3.mul v
        (Vec3.smulR (Vec3.smulL ks ⟨s, s, s⟩) ICOSAHEDRON_VERT_SCALE))
        (quaternionWXYZToMatrixTranspose ⟨1, 0, 0, 0⟩)) ⟨0, 0, 0⟩
      = Vec3.smulR v (ks * s * ICOSAHEDRON_VERT_SCALE) := by
  simp only [Vec3.add, Vec3.mulMat, Vec3.mul, Vec3.smulR, Vec3.smulL,
    quaternionWXYZToMatrixTranspose, Vec3.mk.injEq]
  refine ⟨?_, ?_, ?_⟩ <;> ring

/-- C18: for a file with `N = 1` that stores position `(0, 0, 0)`, scale `(0, 0, 0)`,
rotation `(1, 0, 0, 0)` and density `0` (any albedo and specular), `_load`, with its
built-in settings (`kernelMinResponse` the literal `0.0113000004f`, which is the float
nearest to 0.0113, `opts = 0`, `degree = 4`), returns an object whose 12 vertices are the
canonical icosahedron vertices multiplied by the single scalar
`kernelScale(0.5, kernelMinResponse, 0, 4) × 1 × ICOSAHEDRON_VERT_SCALE` (unrotated,
centred at the origin) and whose 20 triangles are the canonical index table (real
arithmetic). -/
theorem load_single_particle (decode : Nat → ℝ) (uninit : Nat → Nat → List Nat)
    (content : List Nat) (hN : i32 (word32 content 0) = (1 : Nat))
    (hlen : 28 + 236 * 1 ≤ content.length)
    (hpos : float32At decode content 28 = 0 ∧ float32At decode content 32 = 0 ∧
      float32At decode content 36 = 0)
    (hscl : float32At decode content 40 = 0 ∧ float32At decode content 44 = 0 ∧
      float32At decode content 48 = 0)
    (hrot : float32At decode content 52 = 1 ∧ float32At decode content 56 = 0 ∧
      float32At decode content 60 = 0 ∧ float32At decode content 64 = 0)
    (hdns : float32At decode content 260 = 0) :
    ∃ model, _load decode uninit (some content) = some model ∧
      model.vertices = (getIcosahedronVertices : List (Vec3 ℝ)).map (fun v =>
        Vec3.smulR v (kernelScale 0.5 0.0113000004 0 4 * 1 * ICOSAHEDRON_VERT_SCALE)) ∧
      model.triangles = getIcosahedronTriangles := by
  have hN' : i32 (word32 (content.take 28) 0) = (1 : Nat) := by
    rw [word32_take content 28 0 (by omega)]
    exact hN
  have hraw := readAllTensors_good decode uninit (content.take 28) content 1 hN' hlen
  have e1 : List.range 1 = [0] := rfl
  simp only [e1, List.map_cons, List.map_nil, Nat.mul_zero, Nat.add_zero, Nat.zero_add,
    Nat.mul_one, Nat.reduceAdd, Nat.reduceMul, hpos.1, hpos.2.1, hpos.2.2, hscl.1, hscl.2.1,
    hscl.2.2, hrot.1, hrot.2.1, hrot.2.2.1, hrot.2.2.2, hdns] at hraw
  rw [load_eq decode uninit content (by omega), hraw, Option.some_bind,
    loadGeometry_eq _ 1 rfl (by norm_num)]
  simp only [applyActivations, normalize_identity, exp_zero_vec, sigmoidVec, List.map_cons,
    List.map_nil, sigmoid_zero, Nat.mul_one, enclosure_single, Option.map_some']
  refine ⟨_, rfl, ?_, rfl⟩
  exact List.map_congr_left fun v _ => enclosure_vertex_identity v _ 1

/-- The floats of the sample file under a decoder that knows the bit pattern of 1. -/
theorem float32At_sampleFile (b w : Nat)
    (h : sampleFile.getD b 0 + 256 * sampleFile.getD (b + 1) 0
      + 65536 * sampleFile.getD (b + 2) 0 + 16777216 * sampleFile.getD (b + 3) 0 = w) :
    float32At (fun n => if n = 1065353216 then (1 : ℝ) else 0) sampleFile b
      = if w = 1065353216 then 1 else 0 := by
  subst h
  rfl

set_option maxRecDepth 8000 in
/-- The sample file with one particle, read with a decoder that knows the bit pattern of
the float 1: the hypotheses of the scenario theorem hold. -/
theorem load_single_particle_witness :
    (i32 (word32 sampleFile 0) = (1 : Nat) ∧ 28 + 236 * 1 ≤ sampleFile.length) ∧
    ∃ model : GRTModel ℝ,
      _load (fun n => if n = 1065353216 then (1 : ℝ) else 0) (fun _ _ => [])
        (some sampleFile) = some model ∧
      model.vertices = (getIcosahedronVertices : List (Vec3 ℝ)).map (fun v =>
        Vec3.smulR v (kernelScale 0.5 0.0113000004 0 4 * 1 * ICOSAHEDRON_VERT_SCALE)) ∧
      model.triangles = getIcosahedronTriangles :=
  ⟨⟨sampleFile_count, by rw [sampleFile_length]⟩,
    load_single_particle (fun n => if n = 1065353216 then (1 : ℝ) else 0) (fun _ _ => [])
      sampleFile sampleFile_count (by rw [sampleFile_length])
      ⟨(float32At_sampleFile 28 0 (by decide)).trans (by norm_num),
        (float32At_sampleFile 32 0 (by decide)).trans (by norm_num),
        (float32At_sampleFile 36 0 (by decide)).trans (by norm_num)⟩
      ⟨(float32At_sampleFile 40 0 (by decide)).trans (by norm_num),
        (float32At_sampleFile 44 0 (by decide)).trans (by norm_num),
        (float32At_sampleFile 48 0 (by decide)).trans (by norm_num)⟩
      ⟨(float32At_sampleFile 52 1065353216 (by decide)).trans (by norm_num),
        (float32At_sampleFile 56 0 (by decide)).trans (by norm_num),
        (float32At_sampleFile 60 0 (by decide)).trans (by norm_num),
        (float32At_sampleFile 64 0 (by decide)).trans (by norm_num)⟩
      ((float32At_sampleFile 260 0 (by decide)).trans (by norm_num))⟩

end scenario

/-! ## The size of the canonical icosahedron and degenerate rotations -/

section canonical

theorem getIcosahedronVertices_sq (v : Vec3 ℝ)
    (hv : v ∈ (getIcosahedronVertices : List (Vec3 ℝ))) :
    v.x ^ 2 + v.y ^ 2 + v.z ^ 2 = 1 + GOLDEN_RATIO ^ 2 := by
  simp only [getIcosahedronVertices, List.mem_cons, List.mem_singleton, List.not_mem_nil,
    or_false] at hv
  rcases hv with rfl | rfl | rfl | rfl | rfl | rfl | rfl | rfl | rfl | rfl | rfl | rfl <;>
    ring

theorem kernelScale_builtin_pos : 0 < kernelScale (0.5 : ℝ) 0.0113 0 4 :=
  kernelScale_pos 0.5 0.0113 0 4 (by norm_num) (by rw [effectiveThreshold_builtin]; norm_num)

theorem ICOSAHEDRON_VERT_SCALE_pos : 0 < (ICOSAHEDRON_VERT_SCALE : ℝ) := by
  unfold ICOSAHEDRON_VERT_SCALE ICOSAHEDRON_EDGE
  norm_num

theorem normalize_zero :
    normalize [(⟨0, 0, 0, 0⟩ : Vec4 ℝ)] normalizeEpsilon = [⟨0, 0, 0, 0⟩] := by
  have h : Real.sqrt (Vec4.dot (⟨0, 0, 0, 0⟩ : Vec4 ℝ) ⟨0, 0, 0, 0⟩) = 0 := by
    simp [Vec4.dot]
  have hgt : ¬ ((0 : ℝ) > normalizeEpsilon) := by unfold normalizeEpsilon; norm_num
  simp only [normalize, List.map_cons, List.map_nil, sqrt_real, h, if_neg hgt]

/-- C19 (amended): each of the 12 canonical icosahedron vertices has Euclidean norm
`sqrt(1 + GOLDEN_RATIO²)` (about 1.902) and is not on the unit sphere; scaled by
`ICOSAHEDRON_VERT_SCALE` it lies at a distance between 1.2584 and 1.2585 from the origin;
and in the `N = 1` scenario with unit scale (rotation `(1, 0, 0, 0)`, density 0.5,
threshold 0.0113, `opts = 0`, degree 4, any centre `p`) every output vertex lies at
distance `kernelScale(0.5, 0.0113, 0, 4) × ICOSAHEDRON_VERT_SCALE × sqrt(1 + GOLDEN_RATIO²)`
from the particle centre (real arithmetic). -/
theorem getIcosahedronVertices_norm :
    (∀ v ∈ (getIcosahedronVertices : List (Vec3 ℝ)),
      Real.sqrt (v.x ^ 2 + v.y ^ 2 + v.z ^ 2) = Real.sqrt (1 + GOLDEN_RATIO ^ 2)) ∧
    (1.2584 < ICOSAHEDRON_VERT_SCALE * Real.sqrt (1 + GOLDEN_RATIO ^ 2) ∧
      ICOSAHEDRON_VERT_SCALE * Real.sqrt (1 + GOLDEN_RATIO ^ 2) < 1.2585) ∧
    ∀ p : Vec3 ℝ, ∃ V T,
      computeGaussianEnclosingIcosahedron 1 [p] [⟨1, 0, 0, 0⟩] [⟨1, 1, 1⟩] [0.5] 0.0113 0 4
        (List.replicate 12 ⟨0, 0, 0⟩) (List.replicate 20 ⟨0, 0, 0⟩) = some (V, T) ∧
      V.length = 12 ∧
      ∀ w ∈ V, Real.sqrt ((w.x - p.x) ^ 2 + (w.y - p.y) ^ 2 + (w.z - p.z) ^ 2)
        = kernelScale 0.5 0.0113 0 4 * ICOSAHEDRON_VERT_SCALE
            * Real.sqrt (1 + GOLDEN_RATIO ^ 2) := by
  refine ⟨fun v hv => by rw [getIcosahedronVertices_sq v hv], ⟨?_, ?_⟩, fun p => ?_⟩
  · have h : (1.2584 / ICOSAHEDRON_VERT_SCALE : ℝ) < Real.sqrt (1 + GOLDEN_RATIO ^ 2) := by
      rw [Real.lt_sqrt (by unfold ICOSAHEDRON_VERT_SCALE ICOSAHEDRON_EDGE; norm_num)]
      unfold ICOSAHEDRON_VERT_SCALE ICOSAHEDRON_EDGE GOLDEN_RATIO
      norm_num
    have := (div_lt_iff₀ ICOSAHEDRON_VERT_SCALE_pos).mp h
    linarith
  · have h : Real.sqrt (1 + GOLDEN_RATIO ^ 2) < (1.2585 / ICOSAHEDRON_VERT_SCALE : ℝ) := by
      rw [Real.sqrt_lt' (by unfold ICOSAHEDRON_VERT_SCALE ICOSAHEDRON_EDGE; norm_num)]
      unfold ICOSAHEDRON_VERT_SCALE ICOSAHEDRON_EDGE GOLDEN_RATIO
      norm_num
    have := (lt_div_iff₀ ICOSAHEDRON_VERT_SCALE_pos).mp h
    linarith
  · refine ⟨_, _, enclosure_single _ _ _ _ _ _ _, by
      rw [List.length_map, length_getIcosahedronVertices], fun w hw => ?_⟩
    obtain ⟨v, hv, rfl⟩ := List.mem_map.mp hw
    have hk : 0 ≤ kernelScale (0.5 : ℝ) 0.0113 0 4 * ICOSAHEDRON_VERT_SCALE :=
      (mul_pos kernelScale_builtin_pos ICOSAHEDRON_VERT_SCALE_pos).le
    have hsq : (((Vec3.add (Vec3.mulMat (Vec3.mul v (Vec3.smulR
          (Vec3.smulL (kernelScale (0.5 : ℝ) 0.0113 0 4) ⟨1, 1, 1⟩) ICOSAHEDRON_VERT_SCALE))
          (quaternionWXYZToMatrixTranspose ⟨1, 0, 0, 0⟩)) p).x - p.x) ^ 2
        + ((Vec3.add (Vec3.mulMat (Vec3.mul v (Vec3.smulR
          (Vec3.smulL (kernelScale (0.5 : ℝ) 0.0113 0 4) ⟨1, 1, 1⟩) ICOSAHEDRON_VERT_SCALE))
          (quaternionWXYZToMatrixTranspose ⟨1, 0, 0, 0⟩)) p).y - p.y) ^ 2
        + ((Vec3.add (Vec3.mulMat (Vec3.mul v (Vec3.smulR
          (Vec3.smulL (kernelScale (0.5 : ℝ) 0.0113 0 4) ⟨1, 1, 1⟩) ICOSAHEDRON_VERT_SCALE))
          (quaternionWXYZToMatrixTranspose ⟨1, 0, 0, 0⟩)) p).z - p.z) ^ 2)
        = (kernelScale (0.5 : ℝ) 0.0113 0 4 * ICOSAHEDRON_VERT_SCALE) ^ 2
            * (1 + GOLDEN_RATIO ^ 2) := by
      rw [← getIcosahedronVertices_sq v hv]
      simp only [Vec3.add, Vec3.mulMat, Vec3.mul, Vec3.smulR, Vec3.smulL,
        quaternionWXYZToMatrixTranspose]
      ring
    rw [hsq, Real.sqrt_mul (sq_nonneg _), Real.sqrt_sq hk]

/-- C19 fails as stated: canonical vertex 0 is `(-1, GOLDEN_RATIO, 0)`, whose Euclidean
norm is greater than 1.9, not 1. -/
theorem getIcosahedronVertices_norm_counterexample :
    (getIcosahedronVertices : List (Vec3 ℝ))[0]? = some ⟨-1, GOLDEN_RATIO, 0⟩ ∧
    1.9 < Real.sqrt ((-1 : ℝ) ^ 2 + GOLDEN_RATIO ^ 2 + 0 ^ 2) ∧
    Real.sqrt ((-1 : ℝ) ^ 2 + GOLDEN_RATIO ^ 2 + 0 ^ 2) ≠ 1 := by
  have h : (1.9 : ℝ) < Real.sqrt ((-1 : ℝ) ^ 2 + GOLDEN_RATIO ^ 2 + 0 ^ 2) := by
    rw [Real.lt_sqrt (by norm_num)]
    unfold GOLDEN_RATIO
    norm_num
  exact ⟨rfl, h, fun h1 => by rw [h1] at h; norm_num at h⟩

end canonical

section degenerate

variable {F : Type} [LinearOrderedField F] [FloatFns F]

omit [FloatFns F] in
/-- A vertex of the enclosure of a particle whose quaternion is zero. -/
theorem enclosure_vertex_zero_rotation (v s p : Vec3 F) (ks : F) :
    Vec3.add (Vec3.mulMat (Vec3.mul v (Vec3.smulR (Vec3.smulL ks s) ICOSAHEDRON_VERT_SCALE))
        (quaternionWXYZToMatrixTranspose ⟨0, 0, 0, 0⟩)) p
      = ⟨v.x * (ks * s.x * ICOSAHEDRON_VERT_SCALE) + p.x,
         v.y * (ks * s.y * ICOSAHEDRON_VERT_SCALE) + p.y,
         v.z * (ks * s.z * ICOSAHEDRON_VERT_SCALE) + p.z⟩ := by
  simp only [Vec3.add, Vec3.mulMat, Vec3.mul, Vec3.smulR, Vec3.smulL,
    quaternionWXYZToMatrixTranspose, Vec3.mk.injEq]
  refine ⟨?_, ?_, ?_⟩ <;> ring

/-- C20 (amended): for a particle whose rotation normalizes to the all-zero quaternion,
rotation-matrix construction succeeds and yields the identity matrix, so the enclosure is
not collapsed: for every count `N` with `12 * N ≤ 2^32`, the 12 vertices that
`computeGaussianEnclosingIcosahedron` writes for that particle are the canonical vertices
scaled component-wise by `kernelScale(density, kernelMinResponse, opts, degree) × scale ×
ICOSAHEDRON_VERT_SCALE` and translated by the position, without any rotation. -/
theorem computeGaussianEnclosingIcosahedron_zero_rotation (gNum : Nat)
    (gPos : List (Vec3 F)) (rot : List (Vec4 F)) (gScl : List (Vec3 F)) (gDns : List F)
    (kernelMinResponse : F) (opts : Nat) (degree : F)
    (gPrimVrt : List (Vec3 F)) (gPrimTri : List Int3)
    (hPos : gPos.length = gNum) (hRot : rot.length = gNum) (hScl : gScl.length = gNum)
    (hDns : gDns.length = gNum) (hVrt : gPrimVrt.length = 12 * gNum)
    (hTri : gPrimTri.length = 20 * gNum) (hfit : 12 * gNum ≤ 2 ^ 32)
    (i : Nat) (hi : i < gNum)
    (hzero : (normalize rot normalizeEpsilon)[i]? = some ⟨0, 0, 0, 0⟩) :
    quaternionWXYZToMatrixTranspose (⟨0, 0, 0, 0⟩ : Vec4 F)
      = ⟨⟨1, 0, 0⟩, ⟨0, 1, 0⟩, ⟨0, 0, 1⟩⟩ ∧
    ∃ V T scl trans dns,
      computeGaussianEnclosingIcosahedron gNum gPos (normalize rot normalizeEpsilon) gScl gDns
        kernelMinResponse opts degree gPrimVrt gPrimTri = some (V, T) ∧
      gScl[i]? = some scl ∧ gPos[i]? = some trans ∧ gDns[i]? = some dns ∧
      ∀ j, j < 12 → ∃ v, (getIcosahedronVertices : List (Vec3 F))[j]? = some v ∧
        V[12 * i + j]? = some
          ⟨v.x * (kernelScale dns kernelMinResponse opts degree * scl.x
              * ICOSAHEDRON_VERT_SCALE) + trans.x,
           v.y * (kernelScale dns kernelMinResponse opts degree * scl.y
              * ICOSAHEDRON_VERT_SCALE) + trans.y,
           v.z * (kernelScale dns kernelMinResponse opts degree * scl.z
              * ICOSAHEDRON_VERT_SCALE) + trans.z⟩ := by
  have hRot' : (normalize rot normalizeEpsilon).length = gNum := by
    simp only [normalize, List.length_map]
    exact hRot
  obtain ⟨V, T, hrun, -, -, -, -, hval, -⟩ :=
    computeGaussianEnclosingIcosahedron_spec gPos (normalize rot normalizeEpsilon) gScl gDns
      kernelMinResponse opts degree gPrimVrt gPrimTri gNum hPos.ge hRot'.ge hScl.ge hDns.ge
      (fun a ha b hb => by rw [hVrt]; unfold u32; omega)
      (fun a ha b hb => by rw [hTri]; unfold u32; omega)
  have hs : gScl[i]? = some gScl[i] := List.getElem?_eq_getElem (by omega)
  have hp : gPos[i]? = some gPos[i] := List.getElem?_eq_getElem (by omega)
  have hd : gDns[i]? = some gDns[i] := List.getElem?_eq_getElem (by omega)
  refine ⟨?_, V, T, _, _, _, hrun, hs, hp, hd, fun j hj => ?_⟩
  · simp only [quaternionWXYZToMatrixTranspose, Mat3.mk.injEq, Vec3.mk.injEq]
    norm_num
  · have hv : (getIcosahedronVertices : List (Vec3 F))[j]?
        = some ((getIcosahedronVertices : List (Vec3 F))[j]) :=
      List.getElem?_eq_getElem (by rw [length_getIcosahedronVertices]; exact hj)
    refine ⟨_, hv, ?_⟩
    rw [hval hfit i hi j hj _ _ _ _ _ hzero hs hp hd hv, enclosure_vertex_zero_rotation]

end degenerate

/-- One particle whose stored rotation is the zero quaternion: the hypotheses of the
theorem on degenerate rotations hold. -/
theorem computeGaussianEnclosingIcosahedron_zero_rotation_witness :
    (12 * 1 ≤ 2 ^ 32 ∧ 0 < 1 ∧
      (normalize [(⟨0, 0, 0, 0⟩ : Vec4 ℝ)] normalizeEpsilon)[0]? = some ⟨0, 0, 0, 0⟩) ∧
    quaternionWXYZToMatrixTranspose (⟨0, 0, 0, 0⟩ : Vec4 ℝ)
      = ⟨⟨1, 0, 0⟩, ⟨0, 1, 0⟩, ⟨0, 0, 1⟩⟩ ∧
    ∃ (V : List (Vec3 ℝ)) (T : List Int3) (scl trans : Vec3 ℝ) (dns : ℝ),
      computeGaussianEnclosingIcosahedron 1 [(⟨5, 6, 7⟩ : Vec3 ℝ)]
        (normalize [(⟨0, 0, 0, 0⟩ : Vec4 ℝ)] normalizeEpsilon) [(⟨1, 2, 3⟩ : Vec3 ℝ)]
        [(0.5 : ℝ)] (0.0113 : ℝ) 0 (4 : ℝ)
        (List.replicate 12 ⟨0, 0, 0⟩) (List.replicate 20 ⟨0, 0, 0⟩) = some (V, T) ∧
      [(⟨1, 2, 3⟩ : Vec3 ℝ)][0]? = some scl ∧ [(⟨5, 6, 7⟩ : Vec3 ℝ)][0]? = some trans ∧
      [(0.5 : ℝ)][0]? = some dns ∧
      ∀ j, j < 12 → ∃ v, (getIcosahedronVertices : List (Vec3 ℝ))[j]? = some v ∧
        V[12 * 0 + j]? = some
          ⟨v.x * (kernelScale dns (0.0113 : ℝ) 0 (4 : ℝ) * scl.x * ICOSAHEDRON_VERT_SCALE)
              + trans.x,
           v.y * (kernelScale dns (0.0113 : ℝ) 0 (4 : ℝ) * scl.y * ICOSAHEDRON_VERT_SCALE)
              + trans.y,
           v.z * (kernelScale dns (0.0113 : ℝ) 0 (4 : ℝ) * scl.z * ICOSAHEDRON_VERT_SCALE)
              + trans.z⟩ :=
  ⟨⟨by norm_num, by norm_num, by rw [normalize_zero]; rfl⟩,
    computeGaussianEnclosingIcosahedron_zero_rotation 1 [(⟨5, 6, 7⟩ : Vec3 ℝ)]
      [(⟨0, 0, 0, 0⟩ : Vec4 ℝ)] [(⟨1, 2, 3⟩ : Vec3 ℝ)] [(0.5 : ℝ)] (0.0113 : ℝ) 0 (4 : ℝ)
      (List.replicate 12 ⟨0, 0, 0⟩) (List.replicate 20 ⟨0, 0, 0⟩)
      (by rfl) (by rfl) (by rfl) (by rfl) (by rfl) (by rfl) (by norm_num) 0 (by norm_num)
      (by rw [normalize_zero]; rfl)⟩

/-- C20 fails as stated: for one particle at `(5, 6, 7)` with unit scale whose stored
rotation is the zero quaternion (which `normalize` leaves zero), the first vertex that
`computeGaussianEnclosingIcosahedron` writes is not the position `(5, 6, 7)`: its first
coordinate is smaller than 5. -/
theorem computeGaussianEnclosingIcosahedron_zero_rotation_counterexample :
    normalize [(⟨0, 0, 0, 0⟩ : Vec4 ℝ)] normalizeEpsilon = [⟨0, 0, 0, 0⟩] ∧
    ∃ (V : List (Vec3 ℝ)) (T : List Int3) (w : Vec3 ℝ),
      computeGaussianEnclosingIcosahedron 1 [(⟨5, 6, 7⟩ : Vec3 ℝ)]
        (normalize [(⟨0, 0, 0, 0⟩ : Vec4 ℝ)] normalizeEpsilon) [(⟨1, 1, 1⟩ : Vec3 ℝ)]
        [(0.5 : ℝ)] (0.0113 : ℝ) 0 (4 : ℝ)
        (List.replicate 12 ⟨0, 0, 0⟩) (List.replicate 20 ⟨0, 0, 0⟩) = some (V, T) ∧
      V[0]? = some w ∧ w.x < 5 ∧ w ≠ ⟨5, 6, 7⟩ := by
  have hk : 0 < kernelScale (0.5 : ℝ) 0.0113 0 4 * 1 * ICOSAHEDRON_VERT_SCALE :=
    mul_pos (mul_pos kernelScale_builtin_pos one_pos) ICOSAHEDRON_VERT_SCALE_pos
  have hx : (-1 : ℝ) * (kernelScale (0.5 : ℝ) 0.0113 0 4 * 1 * ICOSAHEDRON_VERT_SCALE) + 5
      < 5 := by linarith
  refine ⟨normalize_zero, ?_⟩
  rw [normalize_zero]
  refine ⟨_, _,
    ⟨(-1 : ℝ) * (kernelScale (0.5 : ℝ) 0.0113 0 4 * 1 * ICOSAHEDRON_VERT_SCALE) + 5,
      GOLDEN_RATIO * (kernelScale (0.5 : ℝ) 0.0113 0 4 * 1 * ICOSAHEDRON_VERT_SCALE) + 6,
      0 * (kernelScale (0.5 : ℝ) 0.0113 0 4 * 1 * ICOSAHEDRON_VERT_SCALE) + 7⟩,
    enclosure_single _ _ _ _ _ _ _, ?_, hx, fun h => ?_⟩
  · simp only [List.getElem?_map]
    rw [show (getIcosahedronVertices : List (Vec3 ℝ))[0]? = some ⟨-1, GOLDEN_RATIO, 0⟩
      from rfl, Option.map_some', enclosure_vertex_zero_rotation]
  · have h5 := congrArg Vec3.x h
    simp only at h5
    linarith

/-! ## The rotation matrix and the triangle table -/

section rotation

/-- The matrix built by `quaternionWXYZToMatrixTranspose` is the transpose of the standard
rotation matrix. -/
theorem toMatrix_eq_transpose_standardRotation {F : Type} [LinearOrderedField F]
    (q : Vec4 F) :
    (quaternionWXYZToMatrixTranspose q).toMatrix = Matrix.transpose (standardRotation q) := by
  ext i j
  fin_cases i <;> fin_cases j <;>
    simp [Mat3.toMatrix, Vec3.toFun, quaternionWXYZToMatrixTranspose, standardRotation,
      Matrix.transpose_apply] <;> ring

/-- The row-vector product of glm in matrix form. -/
theorem mulMat_toFun {F : Type} [LinearOrderedField F] (v : Vec3 F) (m : Mat3 F) :
    (Vec3.mulMat v m).toFun = Matrix.vecMul v.toFun m.toMatrix := by
  funext c
  fin_cases c <;>
    simp [Vec3.toFun, Mat3.toMatrix, Matrix.vecMul, Matrix.dotProduct, Fin.sum_univ_three,
      Vec3.mulMat] <;> ring

/-- C21: for every quaternion `q` given in `(w, x, y, z)` order,
`quaternionWXYZToMatrixTranspose` produces the transpose of the standard
quaternion-to-rotation matrix `R(q)` (its column `c` is row `c` of `R(q)`), so the
row-vector product `v * M` of enclosure generation equals `R(q) · v` for every vector
`v`; and for a unit quaternion `R(q) · v` is the conjugation `q v q*` of the pure
quaternion `v` by `q` (real arithmetic). -/
theorem quaternionWXYZToMatrixTranspose_standard (q : Vec4 ℝ) :
    (quaternionWXYZToMatrixTranspose q).toMatrix = Matrix.transpose (standardRotation q) ∧
    (∀ c r : Fin 3, (![(quaternionWXYZToMatrixTranspose q).c0,
        (quaternionWXYZToMatrixTranspose q).c1,
        (quaternionWXYZToMatrixTranspose q).c2] c).toFun r = standardRotation q c r) ∧
    (∀ v : Vec3 ℝ, (Vec3.mulMat v (quaternionWXYZToMatrixTranspose q)).toFun
      = Matrix.mulVec (standardRotation q) v.toFun) ∧
    (q.x ^ 2 + q.y ^ 2 + q.z ^ 2 + q.w ^ 2 = 1 → ∀ v : Vec3 ℝ,
      (⟨q.x, q.y, q.z, q.w⟩ : Quaternion ℝ) * ⟨0, v.x, v.y, v.z⟩
          * star (⟨q.x, q.y, q.z, q.w⟩ : Quaternion ℝ)
        = ⟨0, Matrix.mulVec (standardRotation q) v.toFun 0,
            Matrix.mulVec (standardRotation q) v.toFun 1,
            Matrix.mulVec (standardRotation q) v.toFun 2⟩) := by
  have hM := toMatrix_eq_transpose_standardRotation q
  refine ⟨hM, fun c r => ?_, fun v => ?_, fun h v => ?_⟩
  · have := congrFun (congrFun hM r) c
    simpa [Mat3.toMatrix, Matrix.transpose_apply] using this
  · rw [mulMat_toFun, hM, Matrix.vecMul_transpose]
  · obtain ⟨w, x, y, z⟩ := q
    obtain ⟨a, b, c⟩ := v
    simp only at h
    ext
    · simp [standardRotation]
      ring
    · simp [standardRotation, Matrix.mulVec, Matrix.dotProduct, Fin.sum_univ_three,
        Vec3.toFun]
      linear_combination a * h
    · simp [standardRotation, Matrix.mulVec, Matrix.dotProduct, Fin.sum_univ_three,
        Vec3.toFun]
      linear_combination b * h
    · simp [standardRotation, Matrix.mulVec, Matrix.dotProduct, Fin.sum_univ_three,
        Vec3.toFun]
      linear_combination c * h

end rotation

section properRotation

/-- For a unit quaternion the entries of the matrix built by
`quaternionWXYZToMatrixTranspose` are the homogeneous quadratic forms. -/
theorem quaternion_matrix_homogeneous (q : Vec4 ℝ)
    (h : q.x ^ 2 + q.y ^ 2 + q.z ^ 2 + q.w ^ 2 = 1) :
    quaternionWXYZToMatrixTranspose q
      = ⟨⟨q.x ^ 2 + q.y ^ 2 - q.z ^ 2 - q.w ^ 2, 2 * (q.y * q.z - q.x * q.w),
            2 * (q.y * q.w + q.x * q.z)⟩,
         ⟨2 * (q.y * q.z + q.x * q.w), q.x ^ 2 - q.y ^ 2 + q.z ^ 2 - q.w ^ 2,
            2 * (q.z * q.w - q.x * q.y)⟩,
         ⟨2 * (q.y * q.w - q.x * q.z), 2 * (q.z * q.w + q.x * q.y),
            q.x ^ 2 - q.y ^ 2 - q.z ^ 2 + q.w ^ 2⟩⟩ := by
  simp only [quaternionWXYZToMatrixTranspose, Mat3.mk.injEq, Vec3.mk.injEq, and_true,
    true_and]
  refine ⟨?_, ?_, ?_⟩ <;> linear_combination (-1 : ℝ) * h

/-- C23: for every unit quaternion `q` (`w² + x² + y² + z² = 1`) the matrix `M` produced
by `quaternionWXYZToMatrixTranspose` is a proper rotation: `M · Mᵀ = I` and `det M = 1`,
and the rotate step `v * M` of enclosure generation keeps the squared length of every
vector `v` (real arithmetic). -/
theorem quaternionWXYZToMatrixTranspose_proper_rotation (q : Vec4 ℝ)
    (h : q.x ^ 2 + q.y ^ 2 + q.z ^ 2 + q.w ^ 2 = 1) :
    (quaternionWXYZToMatrixTranspose q).toMatrix
        * Matrix.transpose (quaternionWXYZToMatrixTranspose q).toMatrix = 1 ∧
    Matrix.det (quaternionWXYZToMatrixTranspose q).toMatrix = 1 ∧
    ∀ v : Vec3 ℝ,
      (Vec3.mulMat v (quaternionWXYZToMatrixTranspose q)).x ^ 2
        + (Vec3.mulMat v (quaternionWXYZToMatrixTranspose q)).y ^ 2
        + (Vec3.mulMat v (quaternionWXYZToMatrixTranspose q)).z ^ 2
      = v.x ^ 2 + v.y ^ 2 + v.z ^ 2 := by
  refine ⟨?_, ?_, fun v => ?_⟩
  · exact (Matrix.mul_eq_one_comm).mp (quaternion_transpose_mul_self q h)
  · rw [quaternion_matrix_homogeneous q h, Matrix.det_fin_three]
    simp only [Mat3.toMatrix, Vec3.toFun, Matrix.of_apply, Matrix.cons_val_zero,
      Matrix.cons_val_one, Matrix.head_cons, Matrix.cons_val_two, Matrix.tail_cons]
    have h3 : (q.x ^ 2 + q.y ^ 2 + q.z ^ 2 + q.w ^ 2) ^ 3 = 1 := by rw [h]; norm_num
    linear_combination h3
  · rw [quaternion_matrix_homogeneous q h]
    simp only [Vec3.mulMat]
    have h2 : (q.x ^ 2 + q.y ^ 2 + q.z ^ 2 + q.w ^ 2) ^ 2 = 1 := by rw [h]; norm_num
    linear_combination (v.x ^ 2 + v.y ^ 2 + v.z ^ 2) * h2

/-- The quaternion `(1/2, 1/2, 1/2, 1/2)` is a unit quaternion: the hypothesis of the
theorem on proper rotations holds. -/
theorem quaternionWXYZToMatrixTranspose_proper_rotation_witness :
    ((0.5 : ℝ) ^ 2 + 0.5 ^ 2 + 0.5 ^ 2 + 0.5 ^ 2 = 1) ∧
    (quaternionWXYZToMatrixTranspose (⟨0.5, 0.5, 0.5, 0.5⟩ : Vec4 ℝ)).toMatrix
        * Matrix.transpose
          (quaternionWXYZToMatrixTranspose (⟨0.5, 0.5, 0.5, 0.5⟩ : Vec4 ℝ)).toMatrix = 1 ∧
    Matrix.det (quaternionWXYZToMatrixTranspose (⟨0.5, 0.5, 0.5, 0.5⟩ : Vec4 ℝ)).toMatrix
      = 1 ∧
    ∀ v : Vec3 ℝ,
      (Vec3.mulMat v (quaternionWXYZToMatrixTranspose ⟨0.5, 0.5, 0.5, 0.5⟩)).x ^ 2
        + (Vec3.mulMat v (quaternionWXYZToMatrixTranspose ⟨0.5, 0.5, 0.5, 0.5⟩)).y ^ 2
        + (Vec3.mulMat v (quaternionWXYZToMatrixTranspose ⟨0.5, 0.5, 0.5, 0.5⟩)).z ^ 2
      = v.x ^ 2 + v.y ^ 2 + v.z ^ 2 :=
  ⟨by norm_num,
    quaternionWXYZToMatrixTranspose_proper_rotation ⟨0.5, 0.5, 0.5, 0.5⟩ (by norm_num)⟩

end properRotation

section triangleTable

set_option maxRecDepth 100000 in
/-- C24: the canonical triangle table is a closed, consistently oriented triangulation of
the 12 vertices: every triple has three distinct indices in `[0, 12)`; every directed edge
of a triangle occurs in exactly one triangle of the table and its reverse occurs in
exactly one triangle too; there are 60 directed edges, hence 30 undirected edges, each
shared by exactly two triangles with opposite direction. -/
theorem getIcosahedronTriangles_closed_oriented :
    (∀ t ∈ getIcosahedronTriangles,
      t.x ≠ t.y ∧ t.y ≠ t.z ∧ t.z ≠ t.x ∧
      (0 ≤ t.x ∧ t.x < 12) ∧ (0 ≤ t.y ∧ t.y < 12) ∧ (0 ≤ t.z ∧ t.z < 12)) ∧
    (∀ t ∈ getIcosahedronTriangles, ∀ e ∈ t.edges,
      (getIcosahedronTriangles.countP fun s => decide (e ∈ s.edges)) = 1 ∧
      (getIcosahedronTriangles.countP fun s => decide ((e.2, e.1) ∈ s.edges)) = 1) ∧
    (getIcosahedronTriangles.flatMap Int3.edges).length = 60 ∧
    ((getIcosahedronTriangles.flatMap Int3.edges).filter fun e => decide (e.1 < e.2)).length
      = 30 := by
  decide

end triangleTable

/-! ## The linear kernel and the role of the density -/

section linearKernel

/-- The linear branch of `kernelScale` is negative: at most `-(0.03 / 3) / 0.329630334487`. -/
theorem kernelScale_linear_le (density m : ℝ) (opts : Nat) :
    kernelScale density m opts 0 ≤ (0.03 / 3) / (-0.329630334487) := by
  have hle := effectiveThreshold_le density m opts
  rw [kernelScale_eq, if_neg (lt_irrefl 0), if_pos rfl]
  exact div_le_div_of_nonpos_of_le (by norm_num) (by linarith)

/-- C26: for `kernelDegree = 0` (linear kernel) `kernelScale` returns a strictly negative
scale for every real input (the effective threshold is at most 0.97 < 1), so every vertex
that `computeGaussianEnclosingIcosahedron` writes for a particle is the point reflection,
through the particle centre, of the vertex that the positive scale `|kernelScale|` gives:
it is `centre − (v ⊙ (|ks| × scale × ICOSAHEDRON_VERT_SCALE)) · M` (real arithmetic; particle
counts with `12 * N ≤ 2^32`). -/
theorem kernelScale_linear_negative :
    (∀ (density m : ℝ) (opts : Nat), kernelScale density m opts 0 < 0) ∧
    ∀ (gNum : Nat) (gPos : List (Vec3 ℝ)) (gRot : List (Vec4 ℝ)) (gScl : List (Vec3 ℝ))
      (gDns : List ℝ) (kernelMinResponse : ℝ) (opts : Nat)
      (gPrimVrt : List (Vec3 ℝ)) (gPrimTri : List Int3),
      gPos.length = gNum → gRot.length = gNum → gScl.length = gNum → gDns.length = gNum →
      gPrimVrt.length = 12 * gNum → gPrimTri.length = 20 * gNum → 12 * gNum ≤ 2 ^ 32 →
      ∀ i j, i < gNum → j < 12 →
      ∃ V T q scl trans dns v w,
        computeGaussianEnclosingIcosahedron gNum gPos gRot gScl gDns kernelMinResponse opts 0
          gPrimVrt gPrimTri = some (V, T) ∧
        gRot[i]? = some q ∧ gScl[i]? = some scl ∧ gPos[i]? = some trans ∧
        gDns[i]? = some dns ∧
        (getIcosahedronVertices : List (Vec3 ℝ))[j]? = some v ∧
        V[12 * i + j]? = some w ∧
        w.toFun = trans.toFun - Matrix.vecMul
          (v.toFun * fun c =>
            |kernelScale dns kernelMinResponse opts 0| * scl.toFun c * ICOSAHEDRON_VERT_SCALE)
          (quaternionWXYZToMatrixTranspose q).toMatrix := by
  have hneg : ∀ (density m : ℝ) (opts : Nat), kernelScale density m opts 0 < 0 :=
    fun density m opts => lt_of_le_of_lt (kernelScale_linear_le density m opts) (by norm_num)
  refine ⟨hneg, ?_⟩
  intro gNum gPos gRot gScl gDns kernelMinResponse opts gPrimVrt gPrimTri hPos hRot hScl hDns
    hVrt hTri hfit i j hi hj
  obtain ⟨V, T, hrun, -, -, -, -, hval, -⟩ :=
    computeGaussianEnclosingIcosahedron_spec gPos gRot gScl gDns kernelMinResponse opts 0
      gPrimVrt gPrimTri gNum hPos.ge hRot.ge hScl.ge hDns.ge
      (fun a ha b hb => by rw [hVrt]; unfold u32; omega)
      (fun a ha b hb => by rw [hTri]; unfold u32; omega)
  have hq : gRot[i]? = some gRot[i] := List.getElem?_eq_getElem (by omega)
  have hs : gScl[i]? = some gScl[i] := List.getElem?_eq_getElem (by omega)
  have hp : gPos[i]? = some gPos[i] := List.getElem?_eq_getElem (by omega)
  have hd : gDns[i]? = some gDns[i] := List.getElem?_eq_getElem (by omega)
  have hv : (getIcosahedronVertices : List (Vec3 ℝ))[j]?
      = some ((getIcosahedronVertices : List (Vec3 ℝ))[j]) :=
    List.getElem?_eq_getElem (by rw [length_getIcosahedronVertices]; exact hj)
  refine ⟨V, T, _, _, _, _, _, _, hrun, hq, hs, hp, hd, hv,
    hval hfit i hi j hj _ _ _ _ _ hq hs hp hd hv, ?_⟩
  rw [enclosure_vertex_toFun, abs_of_neg (hneg _ _ _)]
  have e : ((getIcosahedronVertices : List (Vec3 ℝ))[j].toFun * fun c =>
        -kernelScale gDns[i] kernelMinResponse opts 0 * gScl[i].toFun c
          * ICOSAHEDRON_VERT_SCALE)
      = -((getIcosahedronVertices : List (Vec3 ℝ))[j].toFun * fun c =>
        kernelScale gDns[i] kernelMinResponse opts 0 * gScl[i].toFun c
          * ICOSAHEDRON_VERT_SCALE) := by
    funext c
    simp only [Pi.mul_apply, Pi.neg_apply]
    ring
  rw [e, Matrix.neg_vecMul]
  abel

/-- One particle with the linear kernel: the hypotheses of the reflection part hold. -/
theorem kernelScale_linear_negative_witness :
    (12 * 1 ≤ 2 ^ 32 ∧ 0 < 1 ∧ 3 < 12) ∧
    ∃ (V : List (Vec3 ℝ)) (T : List Int3) (q : Vec4 ℝ) (scl trans : Vec3 ℝ) (dns : ℝ)
        (v w : Vec3 ℝ),
      computeGaussianEnclosingIcosahedron 1 [(⟨5, 6, 7⟩ : Vec3 ℝ)]
        [(⟨1, 0, 0, 0⟩ : Vec4 ℝ)] [(⟨1, 2, 3⟩ : Vec3 ℝ)] [(0.5 : ℝ)] (0.0113 : ℝ) 0 (0 : ℝ)
        (List.replicate 12 ⟨0, 0, 0⟩) (List.replicate 20 ⟨0, 0, 0⟩) = some (V, T) ∧
      [(⟨1, 0, 0, 0⟩ : Vec4 ℝ)][0]? = some q ∧ [(⟨1, 2, 3⟩ : Vec3 ℝ)][0]? = some scl ∧
      [(⟨5, 6, 7⟩ : Vec3 ℝ)][0]? = some trans ∧ [(0.5 : ℝ)][0]? = some dns ∧
      (getIcosahedronVertices : List (Vec3 ℝ))[3]? = some v ∧
      V[12 * 0 + 3]? = some w ∧
      w.toFun = trans.toFun - Matrix.vecMul
        (v.toFun * fun c =>
          |kernelScale dns (0.0113 : ℝ) 0 0| * scl.toFun c * ICOSAHEDRON_VERT_SCALE)
        (quaternionWXYZToMatrixTranspose q).toMatrix :=
  ⟨⟨by norm_num, by norm_num, by norm_num⟩,
    kernelScale_linear_negative.2 1 [(⟨5, 6, 7⟩ : Vec3 ℝ)] [(⟨1, 0, 0, 0⟩ : Vec4 ℝ)]
      [(⟨1, 2, 3⟩ : Vec3 ℝ)] [(0.5 : ℝ)] (0.0113 : ℝ) 0
      (List.replicate 12 ⟨0, 0, 0⟩) (List.replicate 20 ⟨0, 0, 0⟩)
      (by rfl) (by rfl) (by rfl) (by rfl) (by rfl) (by rfl) (by norm_num)
      0 3 (by norm_num) (by norm_num)⟩

end linearKernel

section densityRole

variable {F : Type} [LinearOrderedField F] [FloatFns F]

omit [FloatFns F] in
theorem effectiveThreshold_opts_zero (density m : F) :
    effectiveThreshold density m 0 = min m 0.97 := by
  simp [effectiveThreshold]

/-- With `opts = 0` the value of `kernelScale` does not depend on the density. -/
theorem kernelScale_opts_zero (density density' m kernelDegree : F) :
    kernelScale density m 0 kernelDegree = kernelScale density' m 0 kernelDegree := by
  rw [kernelScale_eq, kernelScale_eq, effectiveThreshold_opts_zero,
    effectiveThreshold_opts_zero]

/-- With `opts = 0` the output of the enclosure generator depends on the density array
only through its length. -/
theorem computeGaussianEnclosingIcosahedron_opts_zero (gNum : Nat)
    (gPos : List (Vec3 F)) (gRot : List (Vec4 F)) (gScl : List (Vec3 F))
    (gDns gDns' : List F) (m degree : F) (V0 : List (Vec3 F)) (T0 : List Int3)
    (hlen : gDns.length = gDns'.length) :
    computeGaussianEnclosingIcosahedron gNum gPos gRot gScl gDns m 0 degree V0 T0
      = computeGaussianEnclosingIcosahedron gNum gPos gRot gScl gDns' m 0 degree V0 T0 := by
  unfold computeGaussianEnclosingIcosahedron
  refine congrArg (fun body => forLoop gNum body (V0, T0)) ?_
  funext idx out
  by_cases h : idx < gDns.length
  · have h' : idx < gDns'.length := hlen ▸ h
    simp only [List.getElem?_eq_getElem h, List.getElem?_eq_getElem h', Option.bind_eq_bind,
      Option.some_bind, kernelScale_opts_zero gDns[idx] gDns'[idx]]
  · have h' : ¬ idx < gDns'.length := hlen ▸ h
    simp only [List.getElem?_eq_none (not_lt.mp h), List.getElem?_eq_none (not_lt.mp h'),
      Option.bind_eq_bind, Option.none_bind]

omit [LinearOrderedField F] [FloatFns F] in
theorem float32At_take (decode : Nat → F) (l : List Nat) (m b : Nat) (hb : b + 3 < m) :
    float32At decode (l.take m) b = float32At decode l b := by
  simp only [float32At, List.getD_eq_getElem?_getD]
  rw [List.getElem?_take_of_lt (by omega), List.getElem?_take_of_lt (by omega),
    List.getElem?_take_of_lt (by omega), List.getElem?_take_of_lt (by omega)]

/-- The geometry that the geometry stage generates depends on the object only through its
count, its positions, rotations and scales, and the length of its density array. -/
theorem loadGeometry_density (m₁ m₂ : GRTModel F) (hN : m₁.N = m₂.N)
    (hP : m₁.positions = m₂.positions) (hR : m₁.rotations = m₂.rotations)
    (hS : m₁.scales = m₂.scales) (hD : m₁.densities.length = m₂.densities.length) :
    (loadGeometry m₁).map (fun m => (m.vertices, m.triangles))
      = (loadGeometry m₂).map (fun m => (m.vertices, m.triangles)) := by
  unfold loadGeometry
  dsimp only
  rw [hN, hP, hR, hS, computeGaussianEnclosingIcosahedron_opts_zero _ _ _ _ m₁.densities
    m₂.densities _ _ _ _ hD, Option.map_map, Option.map_map]
  rfl

omit [LinearOrderedField F] [FloatFns F] in
/-- On a file that holds the first five blocks in full, `readAllTensors` returns the floats
of these blocks at their byte offsets, and the densities that `readFloat` finds in what is
left of the file. -/
theorem readAllTensors_five_blocks (decode : Nat → F) (uninit : Nat → Nat → List Nat)
    (hdr content : List Nat) (N : Nat) (hN : i32 (word32 hdr 0) = N)
    (hlen : 28 + 232 * N ≤ content.length) :
    readAllTensors decode uninit hdr ⟨content.drop 28, false⟩ = some
      { N := N, pos_dim := i32 (word32 hdr 1), scales_dim := i32 (word32 hdr 2),
        rotations_dim := i32 (word32 hdr 3), albedo_dim := i32 (word32 hdr 4),
        specular_dim := i32 (word32 hdr 5), densities_dim := i32 (word32 hdr 6),
        positions := (List.range N).map fun i =>
          ⟨float32At decode content (28 + 4 * (3 * i + 0)),
           float32At decode content (28 + 4 * (3 * i + 1)),
           float32At decode content (28 + 4 * (3 * i + 2))⟩,
        scales := (List.range N).map fun i =>
          ⟨float32At decode content (28 + 12 * N + 4 * (3 * i + 0)),
           float32At decode content (28 + 12 * N + 4 * (3 * i + 1)),
           float32At decode content (28 + 12 * N + 4 * (3 * i + 2))⟩,
        rotations := (List.range N).map fun i =>
          ⟨float32At decode content (28 + 24 * N + 4 * (4 * i + 0)),
           float32At decode content (28 + 24 * N + 4 * (4 * i + 1)),
           float32At decode content (28 + 24 * N + 4 * (4 * i + 2)),
           float32At decode content (28 + 24 * N + 4 * (4 * i + 3))⟩,
        albedos := (List.range N).map fun i =>
          ⟨float32At decode content (28 + 40 * N + 4 * (3 * i + 0)),
           float32At decode content (28 + 40 * N + 4 * (3 * i + 1)),
           float32At decode content (28 + 40 * N + 4 * (3 * i + 2))⟩,
        speculars := (List.range N).map fun i =>
          ⟨(List.range 45).map fun c =>
            float32At decode content (28 + 52 * N + 4 * (45 * i + c))⟩,
        densities := (readFloat decode N ⟨content.drop (28 + 232 * N), false⟩).1,
        vertices := [], triangles := [] } := by
  have hneg : ¬ ((N : Int) < 0) := by omega
  unfold readAllTensors
  dsimp only
  rw [hN, if_neg hneg, Int.toNat_ofNat,
    readVec3_good decode (uninit 0) content N 28 (28 + 12 * N) (by omega) (by omega)]
  dsimp only
  rw [readVec3_good decode (uninit 1) content N (28 + 12 * N) (28 + 24 * N) (by omega)
    (by omega)]
  dsimp only
  rw [readVec4_good decode (uninit 2) content N (28 + 24 * N) (28 + 40 * N) (by omega)
    (by omega)]
  dsimp only
  rw [readVec3_good decode (uninit 3) content N (28 + 40 * N) (28 + 52 * N) (by omega)
    (by omega)]
  dsimp only
  rw [readVec45_good decode content N (28 + 52 * N) (28 + 232 * N) (by omega) (by omega)]

/-- C25: as `GRTModel::_load` is configured (`opts = 0`, adaptive kernel clamping off) the
generated geometry does not depend on the particle density: two files with the same
header count `N`, both holding the five blocks before the density block in full, that
agree on every byte before the density block (offset `28 + 232 * N`) produce identical
`vertices` and `triangles` arrays, whatever each holds from there on; for `20 * N ≤ 2^32`
both loads return. -/
theorem load_density_independent (decode : Nat → F) (uninit uninit' : Nat → Nat → List Nat)
    (c₁ c₂ : List Nat) (N : Nat) (hN : i32 (word32 c₁ 0) = N)
    (h₁ : 28 + 232 * N ≤ c₁.length) (h₂ : 28 + 232 * N ≤ c₂.length)
    (hsame : c₁.take (28 + 232 * N) = c₂.take (28 + 232 * N)) :
    (_load decode uninit (some c₁)).map (fun m => (m.vertices, m.triangles))
      = (_load decode uninit' (some c₂)).map (fun m => (m.vertices, m.triangles)) ∧
    (20 * N ≤ 2 ^ 32 → ∃ m₁ m₂, _load decode uninit (some c₁) = some m₁ ∧
      _load decode uninit' (some c₂) = some m₂ ∧ m₁.vertices = m₂.vertices ∧
      m₁.triangles = m₂.triangles) := by
  have hhdr : c₁.take 28 = c₂.take 28 := by
    have := congrArg (List.take 28) hsame
    rwa [List.take_take, List.take_take, Nat.min_eq_left (by omega)] at this
  have hN₁ : i32 (word32 (c₁.take 28) 0) = N := by
    rw [word32_take c₁ 28 0 (by omega)]
    exact hN
  have hN₂ : i32 (word32 (c₂.take 28) 0) = N := by
    rw [← hhdr]
    exact hN₁
  have hf : ∀ b, b + 3 < 28 + 232 * N → float32At decode c₂ b = float32At decode c₁ b := by
    intro b hb
    rw [← float32At_take decode c₂ _ b hb, ← hsame, float32At_take decode c₁ _ b hb]
  have hraw₁ := readAllTensors_five_blocks decode uninit (c₁.take 28) c₁ N hN₁ h₁
  have hraw₂ := readAllTensors_five_blocks decode uninit' (c₂.take 28) c₂ N hN₂ h₂
  have key : (_load decode uninit (some c₁)).map (fun m => (m.vertices, m.triangles))
      = (_load decode uninit' (some c₂)).map (fun m => (m.vertices, m.triangles)) := by
    rw [load_eq decode uninit c₁ (by omega), load_eq decode uninit' c₂ (by omega), hraw₁,
      hraw₂, Option.some_bind, Option.some_bind]
    refine loadGeometry_density _ _ ?_ ?_ ?_ ?_ ?_
    · show ((N : Nat) : Int) = (N : Nat)
      rfl
    · show List.map _ _ = List.map _ _
      refine List.map_congr_left fun i hi => ?_
      have := List.mem_range.mp hi
      rw [hf _ (by omega), hf _ (by omega), hf _ (by omega)]
    · show normalize (List.map _ _) _ = normalize (List.map _ _) _
      refine congrArg (fun l => normalize l normalizeEpsilon)
        (List.map_congr_left fun i hi => ?_)
      have := List.mem_range.mp hi
      rw [hf _ (by omega), hf _ (by omega), hf _ (by omega), hf _ (by omega)]
    · show exp (List.map _ _) = exp (List.map _ _)
      refine congrArg exp (List.map_congr_left fun i hi => ?_)
      have := List.mem_range.mp hi
      rw [hf _ (by omega), hf _ (by omega), hf _ (by omega)]
    · show (sigmoidVec (readFloat _ _ _).1).length = (sigmoidVec (readFloat _ _ _).1).length
      simp only [sigmoidVec, readFloat, List.length_map, List.length_range]
  refine ⟨key, fun hfit => ?_⟩
  obtain ⟨raw₁, V₁, T₁, -, -, hl₁, -⟩ :=
    load_complete_header decode uninit c₁ N (by omega) hN hfit
  obtain ⟨raw₂, V₂, T₂, -, -, hl₂, -⟩ :=
    load_complete_header decode uninit' c₂ N (by omega)
      (by rw [← word32_take c₂ 28 0 (by omega)]; exact hN₂) hfit
  rw [hl₁, hl₂, Option.map_some', Option.map_some'] at key
  have hv := congrArg Prod.fst (Option.some.inj key)
  have ht := congrArg Prod.snd (Option.some.inj key)
  exact ⟨_, _, hl₁, hl₂, hv, ht⟩

end densityRole

theorem sampleFileDense_length : sampleFileDense.length = 264 := by
  simp only [sampleFileDense, sampleDims, List.length_append, List.length_replicate,
    List.length_cons, List.length_nil]

set_option maxRecDepth 8000 in
theorem sampleFile_take_dense :
    sampleFile.take (28 + 232 * 1) = sampleFileDense.take (28 + 232 * 1) := by
  decide

set_option maxRecDepth 8000 in
theorem sampleFileDense_density :
    sampleFileDense.getD 260 0 + 256 * sampleFileDense.getD (260 + 1) 0
      + 65536 * sampleFileDense.getD (260 + 2) 0
      + 16777216 * sampleFileDense.getD (260 + 3) 0 = 1065353216 := by
  decide

set_option maxRecDepth 8000 in
/-- The sample file and the same file with density 1 instead of 0: the hypotheses of the
theorem on the role of the density hold, the stored densities differ, and both loads
return the same geometry. -/
theorem load_density_independent_witness :
    (i32 (word32 sampleFile 0) = (1 : Nat) ∧ 28 + 232 * 1 ≤ sampleFile.length ∧
      28 + 232 * 1 ≤ sampleFileDense.length ∧
      sampleFile.take (28 + 232 * 1) = sampleFileDense.take (28 + 232 * 1)) ∧
    float32At (fun n => if n = 1065353216 then (1 : ℝ) else 0) sampleFile 260 = 0 ∧
    float32At (fun n => if n = 1065353216 then (1 : ℝ) else 0) sampleFileDense 260 = 1 ∧
    ((_load (fun n => if n = 1065353216 then (1 : ℝ) else 0) (fun _ _ => [])
          (some sampleFile)).map (fun m => (m.vertices, m.triangles))
      = (_load (fun n => if n = 1065353216 then (1 : ℝ) else 0) (fun _ _ => [])
          (some sampleFileDense)).map (fun m => (m.vertices, m.triangles)) ∧
    (20 * 1 ≤ 2 ^ 32 → ∃ m₁ m₂ : GRTModel ℝ,
      _load (fun n => if n = 1065353216 then (1 : ℝ) else 0) (fun _ _ => [])
        (some sampleFile) = some m₁ ∧
      _load (fun n => if n = 1065353216 then (1 : ℝ) else 0) (fun _ _ => [])
        (some sampleFileDense) = some m₂ ∧
      m₁.vertices = m₂.vertices ∧ m₁.triangles = m₂.triangles)) :=
  ⟨⟨sampleFile_count, by rw [sampleFile_length]; norm_num, by rw [sampleFileDense_length]; norm_num,
      sampleFile_take_dense⟩,
    (float32At_sampleFile 260 0 (by decide)).trans (by norm_num),
    by
      unfold float32At
      rw [sampleFileDense_density]
      norm_num,
    load_density_independent (fun n => if n = 1065353216 then (1 : ℝ) else 0)
      (fun _ _ => []) (fun _ _ => []) sampleFile sampleFileDense 1 sampleFile_count
      (by rw [sampleFile_length]; norm_num) (by rw [sampleFileDense_length]; norm_num) sampleFile_take_dense⟩

/-! ## The legacy loader -/

section legacyLoader

variable {F : Type}

theorem i32_range (z : Int) : -2 ^ 31 ≤ i32 z ∧ i32 z < 2 ^ 31 := by
  unfold i32
  omega

theorem i32_natCast_lt (z : Int) (n : Nat) (h : i32 z = n) : n < 2 ^ 64 := by
  have := i32_range z
  omega

theorem legacy_toSize_natCast (n : Nat) (h : n < 2 ^ 64) : Legacy.toSize (n : Int) = n := by
  have e : ((n : Int) % 2 ^ 64) = n := Int.emod_eq_of_lt (by omega) (by omega)
  unfold Legacy.toSize
  rw [e, Int.toNat_ofNat]

/-- The element count of `readTensor` for a count and a dimension that are not negative
and whose product a vector can hold. -/
theorem legacy_readTensor_eq (decode : Nat → F) (rows cols : Nat) (fin : IfStream)
    (hr : rows < 2 ^ 64) (hc : cols < 2 ^ 64) (hfit : rows * cols < 2 ^ 61) :
    Legacy.readTensor decode rows cols fin
      = if (fin.read (rows * cols * 4)).1.length ≠ rows * cols * 4
        then some ([], (fin.read (rows * cols * 4)).2)
        else some ((List.range (rows * cols)).map fun k =>
            decode (word32 (stored (List.replicate (rows * cols * 4) 0)
              (fin.read (rows * cols * 4)).1) k),
          (fin.read (rows * cols * 4)).2) := by
  have e : (Legacy.toSize (rows : Int) * Legacy.toSize (cols : Int)) % 2 ^ 64
      = rows * cols := by
    rw [legacy_toSize_natCast rows hr, legacy_toSize_natCast cols hc]
    exact Nat.mod_eq_of_lt (by omega)
  unfold Legacy.readTensor
  dsimp only
  rw [e, if_neg (by omega)]

/-- One call of `readTensor` on a stream that stands at byte `off` of the file (or has
failed, when `off` is past the end of the file): the field keeps its values when the whole
block lies in the file and is empty otherwise, and the stream stands at the end of the
block (or has failed). -/
theorem legacy_readTensor_step (decode : Nat → F) (content : List Nat) (rows cols : Nat)
    (off off' : Nat) (s : IfStream)
    (hr : rows < 2 ^ 64) (hc : cols < 2 ^ 64) (hfit : rows * cols < 2 ^ 61)
    (ho : off' = off + 4 * (rows * cols))
    (hs : (off ≤ content.length ∧ s = ⟨content.drop off, false⟩) ∨
      (content.length < off ∧ s.failed = true)) :
    ∃ r : List F × IfStream, Legacy.readTensor decode rows cols s = some r ∧
      (off' ≤ content.length →
        r.1 = (List.range (rows * cols)).map fun i => float32At decode content (off + 4 * i)) ∧
      (content.length < off' → r.1 = []) ∧
      ((off' ≤ content.length ∧ r.2 = ⟨content.drop off', false⟩) ∨
        (content.length < off' ∧ r.2.failed = true)) := by
  subst ho
  rw [legacy_readTensor_eq decode rows cols s hr hc hfit]
  rcases hs with ⟨hoff, rfl⟩ | ⟨hoff, hfail⟩
  · by_cases hin : off + 4 * (rows * cols) ≤ content.length
    · have hd : rows * cols * 4 ≤ (content.drop off).length := by
        rw [List.length_drop]; omega
      have hl : ((content.drop off).take (rows * cols * 4)).length = rows * cols * 4 := by
        rw [List.length_take]
        exact Nat.min_eq_left hd
      rw [read_drop content off (rows * cols * 4) (by omega)]
      dsimp only
      rw [if_neg (not_not.mpr hl)]
      refine ⟨_, rfl, fun _ => ?_, fun h => absurd hin (Nat.not_le.mpr h), Or.inl ⟨hin, ?_⟩⟩
      · refine List.map_congr_left fun i hi => ?_
        rw [word32_stored_take decode _ _ (rows * cols * 4) i hd
          (by have := List.mem_range.mp hi; omega), float32At_drop]
      · show (⟨content.drop (off + rows * cols * 4), false⟩ : IfStream) = _
        rw [show off + rows * cols * 4 = off + 4 * (rows * cols) by omega]
    · have hlt : (content.drop off).length < rows * cols * 4 := by
        rw [List.length_drop]; omega
      have hne := IfStream.read_of_lt (content.drop off) (rows * cols * 4) hlt
      rw [if_pos hne]
      refine ⟨_, rfl, fun h => absurd h hin, fun _ => rfl, Or.inr ⟨by omega, ?_⟩⟩
      show ((⟨content.drop off, false⟩ : IfStream).read (rows * cols * 4)).2.failed = true
      unfold IfStream.read
      rw [if_neg (by simp), if_neg (Nat.not_le.mpr hlt)]
  · have hread : s.read (rows * cols * 4) = ([], s) := by
      simp [IfStream.read, hfail]
    rw [hread]
    dsimp only
    by_cases hz : rows * cols = 0
    · rw [if_neg (by rw [hz, List.length_nil]; omega)]
      refine ⟨_, rfl, fun h => ?_, fun _ => ?_, Or.inr ⟨by omega, hfail⟩⟩
      · omega
      · show List.map _ (List.range (rows * cols)) = []
        rw [hz]
        rfl
    · rw [if_pos (by rw [List.length_nil]; omega)]
      exact ⟨_, rfl, fun h => by omega, fun _ => rfl, Or.inr ⟨by omega, hfail⟩⟩

/-- The legacy loader on a file that holds the seven header integers. -/
theorem legacy_load_eq (decode : Nat → F) (content : List Nat) (h : 28 ≤ content.length) :
    Legacy.load decode (some content)
      = (Legacy.readTensor decode (i32 (word32 content 0)) (i32 (word32 content 1))
          ⟨content.drop 28, false⟩).bind fun position =>
        (Legacy.readTensor decode (i32 (word32 content 0)) (i32 (word32 content 2))
          position.2).bind fun scale =>
        (Legacy.readTensor decode (i32 (word32 content 0)) (i32 (word32 content 3))
          scale.2).bind fun rotate =>
        (Legacy.readTensor decode (i32 (word32 content 0)) (i32 (word32 content 4))
          rotate.2).bind fun features_albedo =>
        (Legacy.readTensor decode (i32 (word32 content 0)) (i32 (word32 content 5))
          features_albedo.2).bind fun features_specular =>
        (Legacy.readTensor decode (i32 (word32 content 0)) (i32 (word32 content 6))
          features_specular.2).bind fun density =>
        some
          { N := i32 (word32 content 0), pos_dim := i32 (word32 content 1),
            scale_dim := i32 (word32 content 2), rotate_dim := i32 (word32 content 3),
            albedo_dim := i32 (word32 content 4), specular_dim := i32 (word32 content 5),
            density_dim := i32 (word32 content 6), position := position.1,
            scale := scale.1, rotate := rotate.1, features_albedo := features_albedo.1,
            features_specular := features_specular.1, density := density.1 } := by
  have e : (⟨content, false⟩ : IfStream).read (7 * 4)
      = (content.take 28, ⟨content.drop 28, false⟩) := IfStream.read_of_le content 28 h
  have hl : (content.take 28).length = 28 := by
    rw [List.length_take]
    exact Nat.min_eq_left h
  unfold Legacy.load
  dsimp only
  rw [e, if_neg (not_not.mpr hl)]
  dsimp only
  rw [word32_take content 28 0 (by omega), word32_take content 28 1 (by omega),
    word32_take content 28 2 (by omega), word32_take content 28 3 (by omega),
    word32_take content 28 4 (by omega), word32_take content 28 5 (by omega),
    word32_take content 28 6 (by omega)]

/-- C22: in the legacy loader (`grt_model.h`, `GRTModel::load` with its lambda
`readTensor`) a truncation clears just the fields it affects.  For a file with a complete
header whose count `N` and dimensions `d₁ … d₆` are not negative (and `N × dₖ < 2^61`, so
every `resize` succeeds), with `o₀ = 28` and `oₖ = oₖ₋₁ + 4 × N × dₖ` the end of block `k`:
the load returns, and field `k` holds the `N × dₖ` floats stored from byte `oₖ₋₁` on when
block `k` lies wholly in the file (`oₖ ≤ length`), and is empty when it does not. -/
theorem legacy_load_truncation (decode : Nat → F) (content : List Nat)
    (N d₁ d₂ d₃ d₄ d₅ d₆ o₁ o₂ o₃ o₄ o₅ o₆ : Nat)
    (hlen : 28 ≤ content.length)
    (hN : i32 (word32 content 0) = N)
    (h₁ : i32 (word32 content 1) = d₁) (h₂ : i32 (word32 content 2) = d₂)
    (h₃ : i32 (word32 content 3) = d₃) (h₄ : i32 (word32 content 4) = d₄)
    (h₅ : i32 (word32 content 5) = d₅) (h₆ : i32 (word32 content 6) = d₆)
    (f₁ : N * d₁ < 2 ^ 61) (f₂ : N * d₂ < 2 ^ 61) (f₃ : N * d₃ < 2 ^ 61)
    (f₄ : N * d₄ < 2 ^ 61) (f₅ : N * d₅ < 2 ^ 61) (f₆ : N * d₆ < 2 ^ 61)
    (e₁ : o₁ = 28 + 4 * (N * d₁)) (e₂ : o₂ = o₁ + 4 * (N * d₂))
    (e₃ : o₃ = o₂ + 4 * (N * d₃)) (e₄ : o₄ = o₃ + 4 * (N * d₄))
    (e₅ : o₅ = o₄ + 4 * (N * d₅)) (e₆ : o₆ = o₅ + 4 * (N * d₆)) :
    ∃ model : Legacy.GRTModel F, Legacy.load decode (some content) = some model ∧
      ((o₁ ≤ content.length → model.position
          = (List.range (N * d₁)).map fun i => float32At decode content (28 + 4 * i)) ∧
        (content.length < o₁ → model.position = [])) ∧
      ((o₂ ≤ content.length → model.scale
          = (List.range (N * d₂)).map fun i => float32At decode content (o₁ + 4 * i)) ∧
        (content.length < o₂ → model.scale = [])) ∧
      ((o₃ ≤ content.length → model.rotate
          = (List.range (N * d₃)).map fun i => float32At decode content (o₂ + 4 * i)) ∧
        (content.length < o₃ → model.rotate = [])) ∧
      ((o₄ ≤ content.length → model.features_albedo
          = (List.range (N * d₄)).map fun i => float32At decode content (o₃ + 4 * i)) ∧
        (content.length < o₄ → model.features_albedo = [])) ∧
      ((o₅ ≤ content.length → model.features_specular
          = (List.range (N * d₅)).map fun i => float32At decode content (o₄ + 4 * i)) ∧
        (content.length < o₅ → model.features_specular = [])) ∧
      ((o₆ ≤ content.length → model.density
          = (List.range (N * d₆)).map fun i => float32At decode content (o₅ + 4 * i)) ∧
        (content.length < o₆ → model.density = [])) := by
  have rN : N < 2 ^ 64 := i32_natCast_lt _ N hN
  have c₁ : d₁ < 2 ^ 64 := i32_natCast_lt _ d₁ h₁
  have c₂ : d₂ < 2 ^ 64 := i32_natCast_lt _ d₂ h₂
  have c₃ : d₃ < 2 ^ 64 := i32_natCast_lt _ d₃ h₃
  have c₄ : d₄ < 2 ^ 64 := i32_natCast_lt _ d₄ h₄
  have c₅ : d₅ < 2 ^ 64 := i32_natCast_lt _ d₅ h₅
  have c₆ : d₆ < 2 ^ 64 := i32_natCast_lt _ d₆ h₆
  obtain ⟨r₁, q₁, a₁, b₁, t₁⟩ := legacy_readTensor_step decode content N d₁ 28 o₁
    ⟨content.drop 28, false⟩ rN c₁ f₁ e₁ (Or.inl ⟨hlen, rfl⟩)
  obtain ⟨r₂, q₂, a₂, b₂, t₂⟩ :=
    legacy_readTensor_step decode content N d₂ o₁ o₂ r₁.2 rN c₂ f₂ e₂ t₁
  obtain ⟨r₃, q₃, a₃, b₃, t₃⟩ :=
    legacy_readTensor_step decode content N d₃ o₂ o₃ r₂.2 rN c₃ f₃ e₃ t₂
  obtain ⟨r₄, q₄, a₄, b₄, t₄⟩ :=
    legacy_readTensor_step decode content N d₄ o₃ o₄ r₃.2 rN c₄ f₄ e₄ t₃
  obtain ⟨r₅, q₅, a₅, b₅, t₅⟩ :=
    legacy_readTensor_step decode content N d₅ o₄ o₅ r₄.2 rN c₅ f₅ e₅ t₄
  obtain ⟨r₆, q₆, a₆, b₆, -⟩ :=
    legacy_readTensor_step decode content N d₆ o₅ o₆ r₅.2 rN c₆ f₆ e₆ t₅
  rw [legacy_load_eq decode content hlen, hN, h₁, h₂, h₃, h₄, h₅, h₆, q₁, Option.some_bind,
    q₂, Option.some_bind, q₃, Option.some_bind, q₄, Option.some_bind, q₅, Option.some_bind,
    q₆, Option.some_bind]
  exact ⟨_, rfl, ⟨a₁, b₁⟩, ⟨a₂, b₂⟩, ⟨a₃, b₃⟩, ⟨a₄, b₄⟩, ⟨a₅, b₅⟩, ⟨a₆, b₆⟩⟩

/-- The header of the truncated sample file: one particle with dimensions 3, 3, 4, 3, 45
and 1. -/
theorem truncatedFile_header :
    i32 (word32 truncatedFile 1) = (3 : Nat) ∧ i32 (word32 truncatedFile 2) = (3 : Nat) ∧
    i32 (word32 truncatedFile 3) = (4 : Nat) ∧ i32 (word32 truncatedFile 4) = (3 : Nat) ∧
    i32 (word32 truncatedFile 5) = (45 : Nat) ∧ i32 (word32 truncatedFile 6) = (1 : Nat) := by
  decide

/-- The sample file that ends four bytes early (260 bytes; the blocks end at bytes 40, 52,
68, 80, 260 and 264): the hypotheses of the theorem on the legacy loader hold. -/
theorem legacy_load_truncation_witness :
    (28 ≤ truncatedFile.length ∧ i32 (word32 truncatedFile 0) = (1 : Nat) ∧
      (i32 (word32 truncatedFile 1) = (3 : Nat) ∧ i32 (word32 truncatedFile 2) = (3 : Nat) ∧
        i32 (word32 truncatedFile 3) = (4 : Nat) ∧ i32 (word32 truncatedFile 4) = (3 : Nat) ∧
        i32 (word32 truncatedFile 5) = (45 : Nat) ∧
        i32 (word32 truncatedFile 6) = (1 : Nat)) ∧
      (1 * 3 < 2 ^ 61 ∧ 1 * 4 < 2 ^ 61 ∧ 1 * 45 < 2 ^ 61 ∧ 1 * 1 < 2 ^ 61) ∧
      (40 = 28 + 4 * (1 * 3) ∧ 52 = 40 + 4 * (1 * 3) ∧ 68 = 52 + 4 * (1 * 4) ∧
        80 = 68 + 4 * (1 * 3) ∧ 260 = 80 + 4 * (1 * 45) ∧ 264 = 260 + 4 * (1 * 1))) ∧
    truncatedFile.length = 260 ∧
    ∃ model : Legacy.GRTModel ℝ,
      Legacy.load (fun w => (w : ℝ)) (some truncatedFile) = some model ∧
      ((40 ≤ truncatedFile.length → model.position
          = (List.range (1 * 3)).map fun i =>
              float32At (fun w => (w : ℝ)) truncatedFile (28 + 4 * i)) ∧
        (truncatedFile.length < 40 → model.position = [])) ∧
      ((52 ≤ truncatedFile.length → model.scale
          = (List.range (1 * 3)).map fun i =>
              float32At (fun w => (w : ℝ)) truncatedFile (40 + 4 * i)) ∧
        (truncatedFile.length < 52 → model.scale = [])) ∧
      ((68 ≤ truncatedFile.length → model.rotate
          = (List.range (1 * 4)).map fun i =>
              float32At (fun w => (w : ℝ)) truncatedFile (52 + 4 * i)) ∧
        (truncatedFile.length < 68 → model.rotate = [])) ∧
      ((80 ≤ truncatedFile.length → model.features_albedo
          = (List.range (1 * 3)).map fun i =>
              float32At (fun w => (w : ℝ)) truncatedFile (68 + 4 * i)) ∧
        (truncatedFile.length < 80 → model.features_albedo = [])) ∧
      ((260 ≤ truncatedFile.length → model.features_specular
          = (List.range (1 * 45)).map fun i =>
              float32At (fun w => (w : ℝ)) truncatedFile (80 + 4 * i)) ∧
        (truncatedFile.length < 260 → model.features_specular = [])) ∧
      ((264 ≤ truncatedFile.length → model.density
          = (List.range (1 * 1)).map fun i =>
              float32At (fun w => (w : ℝ)) truncatedFile (260 + 4 * i)) ∧
        (truncatedFile.length < 264 → model.density = [])) :=
  ⟨⟨by rw [truncatedFile_length]; norm_num, truncatedFile_count, truncatedFile_header,
      by norm_num, by norm_num⟩,
    truncatedFile_length,
    legacy_load_truncation (fun w => (w : ℝ)) truncatedFile 1 3 3 4 3 45 1 40 52 68 80 260 264
      (by rw [truncatedFile_length]; norm_num) truncatedFile_count
      truncatedFile_header.1 truncatedFile_header.2.1 truncatedFile_header.2.2.1
      truncatedFile_header.2.2.2.1 truncatedFile_header.2.2.2.2.1
      truncatedFile_header.2.2.2.2.2
      (by norm_num) (by norm_num) (by norm_num) (by norm_num) (by norm_num) (by norm_num)
      (by norm_num) (by norm_num) (by norm_num) (by norm_num) (by norm_num) (by norm_num)⟩

end legacyLoader

/-! ## The attribute normalizer in single precision -/

section single

/-- A rounded value lies within the error bound of the exact one, in terms of a bound on
the size of the exact value. -/
theorem rnd_bounds (rnd : ℝ → ℝ)
    (hrnd : ∀ x : ℝ, |rnd x - x| ≤ |x| / 2 ^ 24 + 1 / 2 ^ 126) (x B : ℝ) (hB : |x| ≤ B) :
    x - (B / 2 ^ 24 + 1 / 2 ^ 126) ≤ rnd x ∧ rnd x ≤ x + (B / 2 ^ 24 + 1 / 2 ^ 126) := by
  have h := abs_le.mp (hrnd x)
  have hB' : |x| / 2 ^ 24 ≤ B / 2 ^ 24 := div_le_div_of_nonneg_right hB (by positivity)
  constructor <;> linarith [h.1, h.2]

/-- The rounded sum of squares as `glm::dot` forms it, against the exact sum. -/
theorem dot_error (rnd : ℝ → ℝ)
    (hrnd : ∀ x : ℝ, |rnd x - x| ≤ |x| / 2 ^ 24 + 1 / 2 ^ 126) (X Y Z W : ℝ)
    (hX : 0 ≤ X) (hY : 0 ≤ Y) (hZ : 0 ≤ Z) (hW : 0 ≤ W) :
    (-(1 / 2 ^ 126) ≤ rnd X ∧ rnd X ≤ (1 + 1 / 2 ^ 24) * X + 1 / 2 ^ 126) ∧
    (-(1 / 2 ^ 126) ≤ rnd Y ∧ rnd Y ≤ (1 + 1 / 2 ^ 24) * Y + 1 / 2 ^ 126) ∧
    (-(1 / 2 ^ 126) ≤ rnd Z ∧ rnd Z ≤ (1 + 1 / 2 ^ 24) * Z + 1 / 2 ^ 126) ∧
    (-(1 / 2 ^ 126) ≤ rnd W ∧ rnd W ≤ (1 + 1 / 2 ^ 24) * W + 1 / 2 ^ 126) ∧
    (|rnd (rnd X + rnd Y) - (X + Y)| ≤ (X + Y) / 2 ^ 22 + 4 / 2 ^ 126) ∧
    (|rnd (rnd Z + rnd W) - (Z + W)| ≤ (Z + W) / 2 ^ 22 + 4 / 2 ^ 126) ∧
    |rnd (rnd (rnd X + rnd Y) + rnd (rnd Z + rnd W)) - (X + Y + Z + W)|
      ≤ (X + Y + Z + W) / 2 ^ 21 + 10 / 2 ^ 126 := by
  have sq : ∀ T : ℝ, 0 ≤ T →
      (1 - 1 / 2 ^ 24) * T - 1 / 2 ^ 126 ≤ rnd T ∧ rnd T ≤ (1 + 1 / 2 ^ 24) * T + 1 / 2 ^ 126 := by
    intro T hT
    have := rnd_bounds rnd hrnd T T (le_of_eq (abs_of_nonneg hT))
    constructor <;> linarith [this.1, this.2]
  have pair : ∀ A B : ℝ, 0 ≤ A → 0 ≤ B →
      |rnd (rnd A + rnd B) - (A + B)| ≤ (A + B) / 2 ^ 22 + 4 / 2 ^ 126 := by
    intro A B hA hB
    have a := sq A hA
    have b := sq B hB
    have hab : |rnd A + rnd B| ≤ (1 + 1 / 2 ^ 24) * (A + B) + 2 / 2 ^ 126 :=
      abs_le.mpr ⟨by linarith [a.1, b.1], by linarith [a.2, b.2]⟩
    have := rnd_bounds rnd hrnd _ _ hab
    exact abs_le.mpr ⟨by linarith [this.1, a.1, b.1], by linarith [this.2, a.2, b.2]⟩
  have hx := sq X hX
  have hy := sq Y hY
  have hz := sq Z hZ
  have hw := sq W hW
  have p1 := pair X Y hX hY
  have p2 := pair Z W hZ hW
  refine ⟨⟨by linarith [hx.1], hx.2⟩, ⟨by linarith [hy.1], hy.2⟩, ⟨by linarith [hz.1], hz.2⟩,
    ⟨by linarith [hw.1], hw.2⟩, p1, p2, ?_⟩
  have q1 := abs_le.mp p1
  have q2 := abs_le.mp p2
  have hab : |rnd (rnd X + rnd Y) + rnd (rnd Z + rnd W)|
      ≤ (1 + 1 / 2 ^ 22) * (X + Y + Z + W) + 8 / 2 ^ 126 :=
    abs_le.mpr ⟨by linarith [q1.1, q2.1], by linarith [q1.2, q2.2]⟩
  have := rnd_bounds rnd hrnd _ _ hab
  exact abs_le.mpr ⟨by linarith [this.1, q1.1, q2.1], by linarith [this.2, q1.2, q2.2]⟩

theorem single_round_fin (rnd : ℝ → ℝ) (x : ℝ)
    (h1 : rnd x ≤ 340282346638528859811704183484516925440)
    (h2 : -340282346638528859811704183484516925440 ≤ rnd x) :
    Single.round rnd x = Single.fin (rnd x) := by
  unfold Single.round Single.FLT_MAX
  rw [if_neg (not_lt.mpr h1), if_neg (not_lt.mpr h2)]

/-- A rounded result that is not below `-FLT_MAX` is `+inf` or the rounded number. -/
theorem single_round_cases (rnd : ℝ → ℝ) (x : ℝ)
    (h2 : -340282346638528859811704183484516925440 ≤ rnd x) :
    Single.round rnd x = Single.pinf ∨
      (Single.round rnd x = Single.fin (rnd x) ∧
        rnd x ≤ 340282346638528859811704183484516925440) := by
  by_cases h : (340282346638528859811704183484516925440 : ℝ) < rnd x
  · left
    unfold Single.round Single.FLT_MAX
    rw [if_pos h]
  · right
    exact ⟨single_round_fin rnd x (not_lt.mp h) h2, not_lt.mp h⟩

theorem single_dot_self (rnd : ℝ → ℝ) (x y z w : ℝ) :
    Single.dot rnd ⟨Single.fin x, Single.fin y, Single.fin z, Single.fin w⟩
        ⟨Single.fin x, Single.fin y, Single.fin z, Single.fin w⟩
      = Single.add rnd (Single.add rnd (Single.round rnd (x * x)) (Single.round rnd (y * y)))
          (Single.add rnd (Single.round rnd (z * z)) (Single.round rnd (w * w))) := rfl

/-- Without overflow the `float` dot product of a finite quaternion with itself is the
rounded sum of the rounded squares. -/
theorem single_dot_self_fin (rnd : ℝ → ℝ)
    (hrnd : ∀ x : ℝ, |rnd x - x| ≤ |x| / 2 ^ 24 + 1 / 2 ^ 126) (x y z w : ℝ)
    (hS : x * x + y * y + z * z + w * w ≤ 3.4e38) :
    Single.dot rnd ⟨Single.fin x, Single.fin y, Single.fin z, Single.fin w⟩
        ⟨Single.fin x, Single.fin y, Single.fin z, Single.fin w⟩
      = Single.fin (rnd (rnd (rnd (x * x) + rnd (y * y)) + rnd (rnd (z * z) + rnd (w * w)))) := by
  have hX := mul_self_nonneg x
  have hY := mul_self_nonneg y
  have hZ := mul_self_nonneg z
  have hW := mul_self_nonneg w
  obtain ⟨ex, ey, ez, ew, e1, e2, e3⟩ :=
    dot_error rnd hrnd (x * x) (y * y) (z * z) (w * w) hX hY hZ hW
  have a1 := abs_le.mp e1
  have a2 := abs_le.mp e2
  have a3 := abs_le.mp e3
  rw [single_dot_self,
    single_round_fin rnd (x * x) (by linarith [ex.2]) (by linarith [ex.1]),
    single_round_fin rnd (y * y) (by linarith [ey.2]) (by linarith [ey.1]),
    single_round_fin rnd (z * z) (by linarith [ez.2]) (by linarith [ez.1]),
    single_round_fin rnd (w * w) (by linarith [ew.2]) (by linarith [ew.1])]
  show Single.add rnd (Single.round rnd (rnd (x * x) + rnd (y * y)))
      (Single.round rnd (rnd (z * z) + rnd (w * w))) = _
  rw [single_round_fin rnd _ (by linarith [a1.2]) (by linarith [a1.1]),
    single_round_fin rnd _ (by linarith [a2.2]) (by linarith [a2.1])]
  show Single.round rnd (rnd (rnd (x * x) + rnd (y * y)) + rnd (rnd (z * z) + rnd (w * w)))
    = _
  rw [single_round_fin rnd _ (by linarith [a3.2]) (by linarith [a3.1])]

/-- The `float` sum of two rounded non-negative numbers is `+inf` or the rounded sum. -/
theorem single_add_round_cases (rnd : ℝ → ℝ)
    (hrnd : ∀ x : ℝ, |rnd x - x| ≤ |x| / 2 ^ 24 + 1 / 2 ^ 126) (A B : ℝ)
    (hA : 0 ≤ A) (hB : 0 ≤ B) :
    Single.add rnd (Single.round rnd A) (Single.round rnd B) = Single.pinf ∨
      Single.add rnd (Single.round rnd A) (Single.round rnd B)
        = Single.fin (rnd (rnd A + rnd B)) := by
  obtain ⟨ea, eb, -, -, e1, -, -⟩ := dot_error rnd hrnd A B 0 0 hA hB le_rfl le_rfl
  have a1 := abs_le.mp e1
  rcases single_round_cases rnd A (by linarith [ea.1]) with ha | ⟨ha, -⟩ <;>
    rcases single_round_cases rnd B (by linarith [eb.1]) with hb | ⟨hb, -⟩ <;>
    rw [ha, hb]
  · exact Or.inl rfl
  · exact Or.inl rfl
  · exact Or.inl rfl
  · show Single.round rnd (rnd A + rnd B) = _ ∨ Single.round rnd (rnd A + rnd B) = _
    rcases single_round_cases rnd (rnd A + rnd B) (by linarith [a1.1]) with h | ⟨h, -⟩
    · exact Or.inl h
    · exact Or.inr h

/-- When the exact squared norm is beyond the range of `float`, the `float` dot product
of a finite quaternion with itself is `+inf`. -/
theorem single_dot_self_overflow (rnd : ℝ → ℝ)
    (hrnd : ∀ x : ℝ, |rnd x - x| ≤ |x| / 2 ^ 24 + 1 / 2 ^ 126) (x y z w : ℝ)
    (hS : 3.41e38 ≤ x * x + y * y + z * z + w * w) :
    Single.dot rnd ⟨Single.fin x, Single.fin y, Single.fin z, Single.fin w⟩
        ⟨Single.fin x, Single.fin y, Single.fin z, Single.fin w⟩ = Single.pinf := by
  have hX := mul_self_nonneg x
  have hY := mul_self_nonneg y
  have hZ := mul_self_nonneg z
  have hW := mul_self_nonneg w
  obtain ⟨-, -, -, -, -, -, e3⟩ :=
    dot_error rnd hrnd (x * x) (y * y) (z * z) (w * w) hX hY hZ hW
  have a3 := abs_le.mp e3
  rw [single_dot_self]
  rcases single_add_round_cases rnd hrnd (x * x) (y * y) hX hY with h1 | h1 <;>
    rcases single_add_round_cases rnd hrnd (z * z) (w * w) hZ hW with h2 | h2 <;>
    rw [h1, h2]
  · rfl
  · rfl
  · rfl
  · show Single.round rnd
      (rnd (rnd (x * x) + rnd (y * y)) + rnd (rnd (z * z) + rnd (w * w))) = _
    unfold Single.round Single.FLT_MAX
    rw [if_pos (by linarith [a3.1])]

/-- The rounded square root of the rounded squared norm against the exact norm, for a
norm above the threshold of `normalize`. -/
theorem computed_norm_close (rnd : ℝ → ℝ)
    (hrnd : ∀ x : ℝ, |rnd x - x| ≤ |x| / 2 ^ 24 + 1 / 2 ^ 126) (S s : ℝ)
    (hN : 1.00001e-12 ≤ Real.sqrt S)
    (hs : |s - S| ≤ S / 2 ^ 21 + 10 / 2 ^ 126) :
    0 < s ∧ |rnd (Real.sqrt s) - Real.sqrt S| ≤ 5.5e-7 * Real.sqrt S := by
  have hNpos : (0 : ℝ) < Real.sqrt S := lt_of_lt_of_le (by norm_num) hN
  have hSpos : 0 < S := Real.sqrt_pos.mp hNpos
  have hNN : Real.sqrt S * Real.sqrt S = S := Real.mul_self_sqrt hSpos.le
  have hS24 : (1.00001e-12 : ℝ) * 1.00001e-12 ≤ S := by
    rw [← hNN]
    exact mul_le_mul hN hN (by norm_num) hNpos.le
  have a := abs_le.mp hs
  have hspos : 0 < s := by linarith [a.1]
  have hlo : (1 - 4.8e-7) * Real.sqrt S ≤ Real.sqrt s := by
    refine Real.le_sqrt_of_sq_le ?_
    have : ((1 - 4.8e-7) * Real.sqrt S) ^ 2 = (1 - 4.8e-7) ^ 2 * S := by
      rw [mul_pow, Real.sq_sqrt hSpos.le]
    rw [this]
    linarith [a.1]
  have hhi : Real.sqrt s ≤ (1 + 4.8e-7) * Real.sqrt S := by
    rw [Real.sqrt_le_iff]
    refine ⟨by positivity, ?_⟩
    have : ((1 + 4.8e-7) * Real.sqrt S) ^ 2 = (1 + 4.8e-7) ^ 2 * S := by
      rw [mul_pow, Real.sq_sqrt hSpos.le]
    rw [this]
    linarith [a.2]
  have ht : |Real.sqrt s| ≤ (1 + 4.8e-7) * Real.sqrt S := by
    rw [abs_of_nonneg (Real.sqrt_nonneg s)]
    exact hhi
  have r := rnd_bounds rnd hrnd _ _ ht
  exact ⟨hspos, abs_le.mpr ⟨by linarith [r.1], by linarith [r.2]⟩⟩

/-- A component divided by the computed norm and rounded, against the component divided
by the exact norm. -/
theorem quotient_close (rnd : ℝ → ℝ)
    (hrnd : ∀ x : ℝ, |rnd x - x| ≤ |x| / 2 ^ 24 + 1 / 2 ^ 126) (N ν x : ℝ) (hN : 0 < N)
    (hν : |ν - N| ≤ 5.5e-7 * N) (hx : |x| ≤ N) :
    |rnd (x / ν) - x / N| ≤ 7e-7 := by
  have a := abs_le.mp hν
  have hνpos : 0 < ν := by linarith [a.1]
  have he : |x / N| ≤ 1 := by
    rw [abs_div, abs_of_pos hN]
    exact (div_le_one hN).mpr hx
  have hρ : |N / ν - 1| ≤ 5.6e-7 := by
    rw [abs_le]
    constructor
    · rw [le_sub_iff_add_le, le_div_iff₀ hνpos]
      linarith [a.2]
    · rw [sub_le_iff_le_add, div_le_iff₀ hνpos]
      linarith [a.1]
  have hy : x / ν - x / N = x / N * (N / ν - 1) := by
    field_simp
    ring
  have hyabs : |x / ν - x / N| ≤ 5.6e-7 := by
    rw [hy, abs_mul]
    calc |x / N| * |N / ν - 1| ≤ 1 * 5.6e-7 :=
          mul_le_mul he hρ (abs_nonneg _) (by norm_num)
      _ = 5.6e-7 := one_mul _
  have b := abs_le.mp hyabs
  have e := abs_le.mp he
  have hB : |x / ν| ≤ 1.000001 := abs_le.mpr ⟨by linarith [b.1, e.1], by linarith [b.2, e.2]⟩
  have r := rnd_bounds rnd hrnd _ _ hB
  exact abs_le.mpr ⟨by linarith [r.1, b.1], by linarith [r.2, b.2]⟩

/-- A vector within `7e-7` in each component of a unit vector has Euclidean norm within
`1e-5` of 1. -/
theorem unit_norm_close (e₁ e₂ e₃ e₄ r₁ r₂ r₃ r₄ : ℝ)
    (he : e₁ ^ 2 + e₂ ^ 2 + e₃ ^ 2 + e₄ ^ 2 = 1)
    (h₁ : |r₁ - e₁| ≤ 7e-7) (h₂ : |r₂ - e₂| ≤ 7e-7) (h₃ : |r₃ - e₃| ≤ 7e-7)
    (h₄ : |r₄ - e₄| ≤ 7e-7) :
    |Real.sqrt (r₁ ^ 2 + r₂ ^ 2 + r₃ ^ 2 + r₄ ^ 2) - 1| ≤ 1e-5 := by
  have comp : ∀ e r : ℝ, e ^ 2 ≤ 1 → |r - e| ≤ 7e-7 → |r ^ 2 - e ^ 2| ≤ 1.5e-6 := by
    intro e r h1 hr
    have he1 : |e| ≤ 1 := abs_le_one_iff_mul_self_le_one.mpr (by nlinarith [h1])
    have a := abs_le.mp hr
    have b := abs_le.mp he1
    have hsum : |r + e| ≤ 2.000001 := abs_le.mpr ⟨by linarith [a.1, b.1], by linarith [a.2, b.2]⟩
    have : r ^ 2 - e ^ 2 = (r - e) * (r + e) := by ring
    rw [this, abs_mul]
    calc |r - e| * |r + e| ≤ 7e-7 * 2.000001 :=
          mul_le_mul hr hsum (abs_nonneg _) (by norm_num)
      _ ≤ 1.5e-6 := by norm_num
  have c₁ := abs_le.mp (comp e₁ r₁ (by nlinarith [sq_nonneg e₂, sq_nonneg e₃, sq_nonneg e₄]) h₁)
  have c₂ := abs_le.mp (comp e₂ r₂ (by nlinarith [sq_nonneg e₁, sq_nonneg e₃, sq_nonneg e₄]) h₂)
  have c₃ := abs_le.mp (comp e₃ r₃ (by nlinarith [sq_nonneg e₁, sq_nonneg e₂, sq_nonneg e₄]) h₃)
  have c₄ := abs_le.mp (comp e₄ r₄ (by nlinarith [sq_nonneg e₁, sq_nonneg e₂, sq_nonneg e₃]) h₄)
  have hlo : (1 - 1e-5 : ℝ) ≤ Real.sqrt (r₁ ^ 2 + r₂ ^ 2 + r₃ ^ 2 + r₄ ^ 2) := by
    refine Real.le_sqrt_of_sq_le ?_
    have : ((1 - 1e-5 : ℝ)) ^ 2 ≤ 1 - 6e-6 := by norm_num
    linarith [c₁.1, c₂.1, c₃.1, c₄.1]
  have hhi : Real.sqrt (r₁ ^ 2 + r₂ ^ 2 + r₃ ^ 2 + r₄ ^ 2) ≤ 1 + 1e-5 := by
    rw [Real.sqrt_le_iff]
    refine ⟨by norm_num, ?_⟩
    have : (1 + 6e-6 : ℝ) ≤ (1 + 1e-5) ^ 2 := by norm_num
    linarith [c₁.2, c₂.2, c₃.2, c₄.2]
  exact abs_le.mpr ⟨by linarith, by linarith⟩

theorem single_sqrt_fin (rnd : ℝ → ℝ) (s : ℝ) (hs : 0 ≤ s) :
    Single.sqrt rnd (Single.fin s) = Single.round rnd (Real.sqrt s) := by
  show (if s < 0 then Single.nan else Single.round rnd (Real.sqrt s)) = _
  rw [if_neg (not_lt.mpr hs)]

theorem single_div_fin (rnd : ℝ → ℝ) (x ν : ℝ) (hν : ν ≠ 0) :
    Single.div rnd (Single.fin x) (Single.fin ν) = Single.round rnd (x / ν) := by
  show (if ν = 0 then (if 0 < x then Single.pinf else if x < 0 then Single.ninf
    else Single.nan) else Single.round rnd (x / ν)) = _
  rw [if_neg hν]

theorem single_normalize_getElem (rnd : ℝ → ℝ) (vecs : List (Vec4 (Single ℝ)))
    (epsilon : Single ℝ) (i : Nat) (q : Vec4 (Single ℝ)) (hq : vecs[i]? = some q) :
    (Single.normalize rnd vecs epsilon)[i]?
      = some (if Single.gt (Single.sqrt rnd (Single.dot rnd q q)) epsilon = true
          then Single.divS rnd q (Single.sqrt rnd (Single.dot rnd q q))
          else ⟨Single.fin 0, Single.fin 0, Single.fin 0, Single.fin 0⟩) := by
  simp only [Single.normalize, List.getElem?_map, hq, Option.map_some']

/-- On a finite quaternion whose squared norm is beyond the range of `float` the test of
`normalize` succeeds and every component is divided by `+inf`. -/
theorem single_normalize_overflow (rnd : ℝ → ℝ)
    (hrnd : ∀ x : ℝ, |rnd x - x| ≤ |x| / 2 ^ 24 + 1 / 2 ^ 126) (x y z w : ℝ)
    (hS : 3.41e38 ≤ x * x + y * y + z * z + w * w) :
    (if Single.gt (Single.sqrt rnd (Single.dot rnd
          ⟨Single.fin x, Single.fin y, Single.fin z, Single.fin w⟩
          ⟨Single.fin x, Single.fin y, Single.fin z, Single.fin w⟩))
          Single.normalizeEpsilon = true
      then Single.divS rnd ⟨Single.fin x, Single.fin y, Single.fin z, Single.fin w⟩
        (Single.sqrt rnd (Single.dot rnd
          ⟨Single.fin x, Single.fin y, Single.fin z, Single.fin w⟩
          ⟨Single.fin x, Single.fin y, Single.fin z, Single.fin w⟩))
      else ⟨Single.fin 0, Single.fin 0, Single.fin 0, Single.fin 0⟩)
      = (⟨Single.fin 0, Single.fin 0, Single.fin 0, Single.fin 0⟩ : Vec4 (Single ℝ)) := by
  rw [single_dot_self_overflow rnd hrnd x y z w hS]
  rfl

/-- On a finite quaternion of norm at most `0.99999e-12` the test of `normalize` fails. -/
theorem single_normalize_small (rnd : ℝ → ℝ)
    (hrnd : ∀ x : ℝ, |rnd x - x| ≤ |x| / 2 ^ 24 + 1 / 2 ^ 126) (x y z w : ℝ)
    (hN : Real.sqrt (x * x + y * y + z * z + w * w) ≤ 0.99999e-12) :
    Single.gt (Single.sqrt rnd (Single.dot rnd
        ⟨Single.fin x, Single.fin y, Single.fin z, Single.fin w⟩
        ⟨Single.fin x, Single.fin y, Single.fin z, Single.fin w⟩))
      Single.normalizeEpsilon = false := by
  have hX := mul_self_nonneg x
  have hY := mul_self_nonneg y
  have hZ := mul_self_nonneg z
  have hW := mul_self_nonneg w
  have hS : x * x + y * y + z * z + w * w ≤ (0.99999e-12 : ℝ) ^ 2 :=
    (Real.sqrt_le_left (by norm_num)).mp hN
  have hc : ((0.99999e-12 : ℝ)) ^ 2 = 0.9999800001e-24 := by norm_num
  rw [hc] at hS
  obtain ⟨-, -, -, -, -, -, e3⟩ :=
    dot_error rnd hrnd (x * x) (y * y) (z * z) (w * w) hX hY hZ hW
  have a3 := abs_le.mp e3
  rw [single_dot_self_fin rnd hrnd x y z w (by linarith)]
  by_cases hs : rnd (rnd (rnd (x * x) + rnd (y * y)) + rnd (rnd (z * z) + rnd (w * w))) < 0
  · show Single.gt (if _ < 0 then Single.nan else Single.round rnd (Real.sqrt _))
      Single.normalizeEpsilon = false
    rw [if_pos hs]
    rfl
  · have hs0 := not_lt.mp hs
    have ht : Real.sqrt
        (rnd (rnd (rnd (x * x) + rnd (y * y)) + rnd (rnd (z * z) + rnd (w * w))))
        ≤ 0.999995e-12 := by
      rw [Real.sqrt_le_iff]
      refine ⟨by norm_num, ?_⟩
      have : ((0.999995e-12 : ℝ)) ^ 2 = 0.999990000025e-24 := by norm_num
      rw [this]
      linarith [a3.2]
    have habs : |Real.sqrt
        (rnd (rnd (rnd (x * x) + rnd (y * y)) + rnd (rnd (z * z) + rnd (w * w))))|
        ≤ 0.999995e-12 := by
      rw [abs_of_nonneg (Real.sqrt_nonneg _)]
      exact ht
    have r := rnd_bounds rnd hrnd _ _ habs
    have t0 := Real.sqrt_nonneg
      (rnd (rnd (rnd (x * x) + rnd (y * y)) + rnd (rnd (z * z) + rnd (w * w))))
    rw [single_sqrt_fin rnd _ hs0,
      single_round_fin rnd _ (by linarith [r.2]) (by linarith [r.1])]
    show decide ((9223372 / 2 ^ 63 : ℝ) < _) = false
    rw [decide_eq_false_iff_not, not_lt]
    linarith [r.2]

/-- The `float` quotient of a component by the computed norm is finite and within `7e-7`
of the quotient by the exact norm. -/
theorem single_div_close (rnd : ℝ → ℝ)
    (hrnd : ∀ x : ℝ, |rnd x - x| ≤ |x| / 2 ^ 24 + 1 / 2 ^ 126) (N ν t : ℝ) (hN : 0 < N)
    (hν : |ν - N| ≤ 5.5e-7 * N) (ht : |t| ≤ N) :
    Single.div rnd (Single.fin t) (Single.fin ν) = Single.fin (rnd (t / ν)) ∧
      |rnd (t / ν) - t / N| ≤ 7e-7 := by
  have a := abs_le.mp hν
  have hνpos : 0 < ν := by linarith [a.1]
  have q := quotient_close rnd hrnd N ν t hN hν ht
  have b := abs_le.mp q
  have hu : |t / N| ≤ 1 := by
    rw [abs_div, abs_of_pos hN]
    exact (div_le_one hN).mpr ht
  have u := abs_le.mp hu
  refine ⟨?_, q⟩
  rw [single_div_fin rnd t ν hνpos.ne',
    single_round_fin rnd (t / ν) (by linarith [b.2, u.2]) (by linarith [b.1, u.1])]

/-- On a finite quaternion of norm at least `1.00001e-12` whose squared norm is at most
`3.4e38` the test of `normalize` succeeds, and the quotient has finite components, each
within `7e-7` of the exact quotient, and a norm within `1e-5` of 1. -/
theorem single_normalize_good (rnd : ℝ → ℝ)
    (hrnd : ∀ x : ℝ, |rnd x - x| ≤ |x| / 2 ^ 24 + 1 / 2 ^ 126) (x y z w : ℝ)
    (hN : 1.00001e-12 ≤ Real.sqrt (x * x + y * y + z * z + w * w))
    (hS : x * x + y * y + z * z + w * w ≤ 3.4e38) :
    ∃ a b c d : ℝ,
      (if Single.gt (Single.sqrt rnd (Single.dot rnd
            ⟨Single.fin x, Single.fin y, Single.fin z, Single.fin w⟩
            ⟨Single.fin x, Single.fin y, Single.fin z, Single.fin w⟩))
            Single.normalizeEpsilon = true
        then Single.divS rnd ⟨Single.fin x, Single.fin y, Single.fin z, Single.fin w⟩
          (Single.sqrt rnd (Single.dot rnd
            ⟨Single.fin x, Single.fin y, Single.fin z, Single.fin w⟩
            ⟨Single.fin x, Single.fin y, Single.fin z, Single.fin w⟩))
        else ⟨Single.fin 0, Single.fin 0, Single.fin 0, Single.fin 0⟩)
        = (⟨Single.fin a, Single.fin b, Single.fin c, Single.fin d⟩ : Vec4 (Single ℝ)) ∧
      |a - x / Real.sqrt (x * x + y * y + z * z + w * w)| ≤ 7e-7 ∧
      |b - y / Real.sqrt (x * x + y * y + z * z + w * w)| ≤ 7e-7 ∧
      |c - z / Real.sqrt (x * x + y * y + z * z + w * w)| ≤ 7e-7 ∧
      |d - w / Real.sqrt (x * x + y * y + z * z + w * w)| ≤ 7e-7 ∧
      |Real.sqrt (a ^ 2 + b ^ 2 + c ^ 2 + d ^ 2) - 1| ≤ 1e-5 := by
  have hX := mul_self_nonneg x
  have hY := mul_self_nonneg y
  have hZ := mul_self_nonneg z
  have hW := mul_self_nonneg w
  obtain ⟨-, -, -, -, -, -, e3⟩ :=
    dot_error rnd hrnd (x * x) (y * y) (z * z) (w * w) hX hY hZ hW
  rw [single_dot_self_fin rnd hrnd x y z w hS]
  generalize rnd (rnd (rnd (x * x) + rnd (y * y)) + rnd (rnd (z * z) + rnd (w * w))) = s
    at e3 ⊢
  obtain ⟨hspos, hν⟩ := computed_norm_close rnd hrnd _ s hN e3
  have hSnn : 0 ≤ x * x + y * y + z * z + w * w := by linarith
  have hNN := Real.mul_self_sqrt hSnn
  have hx : |x| ≤ Real.sqrt (x * x + y * y + z * z + w * w) :=
    Real.abs_le_sqrt (by nlinarith)
  have hy : |y| ≤ Real.sqrt (x * x + y * y + z * z + w * w) :=
    Real.abs_le_sqrt (by nlinarith)
  have hz : |z| ≤ Real.sqrt (x * x + y * y + z * z + w * w) :=
    Real.abs_le_sqrt (by nlinarith)
  have hw : |w| ≤ Real.sqrt (x * x + y * y + z * z + w * w) :=
    Real.abs_le_sqrt (by nlinarith)
  have hNle : Real.sqrt (x * x + y * y + z * z + w * w) ≤ 1e20 := by
    rw [Real.sqrt_le_iff]
    exact ⟨by norm_num, by norm_num; linarith⟩
  generalize Real.sqrt (x * x + y * y + z * z + w * w) = N at hN hν hNN hx hy hz hw hNle ⊢
  have hNpos : 0 < N := lt_of_lt_of_le (by norm_num) hN
  have a := abs_le.mp hν
  rw [single_sqrt_fin rnd s hspos.le,
    single_round_fin rnd _ (by linarith [a.2]) (by linarith [a.1])]
  generalize rnd (Real.sqrt s) = ν at hν a ⊢
  have hνpos : 0 < ν := by linarith [a.1]
  have hgt : Single.gt (Single.fin ν) Single.normalizeEpsilon = true := by
    show decide ((9223372 / 2 ^ 63 : ℝ) < ν) = true
    rw [decide_eq_true_iff]
    linarith [a.1]
  rw [if_pos hgt]
  obtain ⟨dx, qx⟩ := single_div_close rnd hrnd N ν x hNpos hν hx
  obtain ⟨dy, qy⟩ := single_div_close rnd hrnd N ν y hNpos hν hy
  obtain ⟨dz, qz⟩ := single_div_close rnd hrnd N ν z hNpos hν hz
  obtain ⟨dw, qw⟩ := single_div_close rnd hrnd N ν w hNpos hν hw
  have hsum : (x / N) ^ 2 + (y / N) ^ 2 + (z / N) ^ 2 + (w / N) ^ 2 = 1 := by
    have : (x / N) ^ 2 + (y / N) ^ 2 + (z / N) ^ 2 + (w / N) ^ 2
        = (x * x + y * y + z * z + w * w) / (N * N) := by
      field_simp
      ring
    rw [this, ← hNN]
    exact div_self (mul_pos hNpos hNpos).ne'
  refine ⟨rnd (x / ν), rnd (y / ν), rnd (z / ν), rnd (w / ν), ?_, qx, qy, qz, qw,
    unit_norm_close _ _ _ _ _ _ _ _ hsum qx qy qz qw⟩
  show (⟨Single.div rnd (Single.fin x) (Single.fin ν),
      Single.div rnd (Single.fin y) (Single.fin ν),
      Single.div rnd (Single.fin z) (Single.fin ν),
      Single.div rnd (Single.fin w) (Single.fin ν)⟩ : Vec4 (Single ℝ)) = _
  rw [dx, dy, dz, dw]

/-- C9 (amended): `normalize`, run in single precision, keeps the length of the list and
replaces each quaternion `q` by `q` divided by the computed norm `n` (the rounded square
root of the rounded `glm::dot(q, q)`) when `n > 1e-12f`, and by the zero quaternion
otherwise.  For `q` with finite components and exact norm `‖q‖`: if `‖q‖ ≥ 1.00001e-12`
and `‖q‖² ≤ 3.4e38`, the result has finite components, each within `7e-7` of the
component of `q / ‖q‖`, and a norm within `1e-5` of 1; if `‖q‖ ≤ 0.99999e-12` the result
is the zero quaternion; and if `‖q‖² ≥ 3.41e38` the squared norm overflows to `+inf` and
the result is the zero quaternion too.  `rnd` is the rounding of the format, of which only
the error bound `|rnd x - x| ≤ |x| × 2^-24 + 2^-126` is used. -/
theorem normalize_single (rnd : ℝ → ℝ)
    (hrnd : ∀ x : ℝ, |rnd x - x| ≤ |x| / 2 ^ 24 + 1 / 2 ^ 126)
    (vecs : List (Vec4 (Single ℝ))) :
    (Single.normalize rnd vecs Single.normalizeEpsilon).length = vecs.length ∧
    ∀ (i : Nat) (q : Vec4 (Single ℝ)), vecs[i]? = some q →
      ∃ r, (Single.normalize rnd vecs Single.normalizeEpsilon)[i]? = some r ∧
        (Single.gt (Single.sqrt rnd (Single.dot rnd q q)) Single.normalizeEpsilon = true →
          r = Single.divS rnd q (Single.sqrt rnd (Single.dot rnd q q))) ∧
        (Single.gt (Single.sqrt rnd (Single.dot rnd q q)) Single.normalizeEpsilon = false →
          r = ⟨Single.fin 0, Single.fin 0, Single.fin 0, Single.fin 0⟩) ∧
        ∀ x y z w : ℝ, q = ⟨Single.fin x, Single.fin y, Single.fin z, Single.fin w⟩ →
          (1.00001e-12 ≤ Real.sqrt (x ^ 2 + y ^ 2 + z ^ 2 + w ^ 2) →
            x ^ 2 + y ^ 2 + z ^ 2 + w ^ 2 ≤ 3.4e38 →
            ∃ a b c d : ℝ,
              r = ⟨Single.fin a, Single.fin b, Single.fin c, Single.fin d⟩ ∧
              |a - x / Real.sqrt (x ^ 2 + y ^ 2 + z ^ 2 + w ^ 2)| ≤ 7e-7 ∧
              |b - y / Real.sqrt (x ^ 2 + y ^ 2 + z ^ 2 + w ^ 2)| ≤ 7e-7 ∧
              |c - z / Real.sqrt (x ^ 2 + y ^ 2 + z ^ 2 + w ^ 2)| ≤ 7e-7 ∧
              |d - w / Real.sqrt (x ^ 2 + y ^ 2 + z ^ 2 + w ^ 2)| ≤ 7e-7 ∧
              |Real.sqrt (a ^ 2 + b ^ 2 + c ^ 2 + d ^ 2) - 1| ≤ 1e-5) ∧
          (Real.sqrt (x ^ 2 + y ^ 2 + z ^ 2 + w ^ 2) ≤ 0.99999e-12 →
            r = ⟨Single.fin 0, Single.fin 0, Single.fin 0, Single.fin 0⟩) ∧
          (3.41e38 ≤ x ^ 2 + y ^ 2 + z ^ 2 + w ^ 2 →
            r = ⟨Single.fin 0, Single.fin 0, Single.fin 0, Single.fin 0⟩) := by
  refine ⟨by simp only [Single.normalize, List.length_map], fun i q hq => ?_⟩
  refine ⟨_, single_normalize_getElem rnd vecs _ i q hq, fun h => if_pos h,
    fun h => if_neg (by rw [h]; exact Bool.false_ne_true), ?_⟩
  intro x y z w hqe
  subst hqe
  have e : x ^ 2 + y ^ 2 + z ^ 2 + w ^ 2 = x * x + y * y + z * z + w * w := by ring
  rw [e]
  refine ⟨fun hN hS => single_normalize_good rnd hrnd x y z w hN hS, fun hN => ?_,
    fun hS => single_normalize_overflow rnd hrnd x y z w hS⟩
  exact if_neg (by rw [single_normalize_small rnd hrnd x y z w hN]; exact Bool.false_ne_true)

/-- Exact rounding satisfies the error bound, and the list holds the quaternion
`(3, 0, 4, 0)`: the hypothesis of the theorem on `normalize` in single precision holds. -/
theorem normalize_single_witness :
    (∀ x : ℝ, |(fun t : ℝ => t) x - x| ≤ |x| / 2 ^ 24 + 1 / 2 ^ 126) ∧
    (Single.normalize (fun t : ℝ => t)
        [⟨Single.fin 3, Single.fin 0, Single.fin 4, Single.fin 0⟩]
        Single.normalizeEpsilon).length
      = [(⟨Single.fin 3, Single.fin 0, Single.fin 4, Single.fin 0⟩ : Vec4 (Single ℝ))].length ∧
    ∀ (i : Nat) (q : Vec4 (Single ℝ)),
      [(⟨Single.fin 3, Single.fin 0, Single.fin 4, Single.fin 0⟩ : Vec4 (Single ℝ))][i]?
        = some q →
      ∃ r, (Single.normalize (fun t : ℝ => t)
          [⟨Single.fin 3, Single.fin 0, Single.fin 4, Single.fin 0⟩]
          Single.normalizeEpsilon)[i]? = some r ∧
        (Single.gt (Single.sqrt (fun t : ℝ => t) (Single.dot (fun t : ℝ => t) q q))
            Single.normalizeEpsilon = true →
          r = Single.divS (fun t : ℝ => t) q
            (Single.sqrt (fun t : ℝ => t) (Single.dot (fun t : ℝ => t) q q))) ∧
        (Single.gt (Single.sqrt (fun t : ℝ => t) (Single.dot (fun t : ℝ => t) q q))
            Single.normalizeEpsilon = false →
          r = ⟨Single.fin 0, Single.fin 0, Single.fin 0, Single.fin 0⟩) ∧
        ∀ x y z w : ℝ, q = ⟨Single.fin x, Single.fin y, Single.fin z, Single.fin w⟩ →
          (1.00001e-12 ≤ Real.sqrt (x ^ 2 + y ^ 2 + z ^ 2 + w ^ 2) →
            x ^ 2 + y ^ 2 + z ^ 2 + w ^ 2 ≤ 3.4e38 →
            ∃ a b c d : ℝ,
              r = ⟨Single.fin a, Single.fin b, Single.fin c, Single.fin d⟩ ∧
              |a - x / Real.sqrt (x ^ 2 + y ^ 2 + z ^ 2 + w ^ 2)| ≤ 7e-7 ∧
              |b - y / Real.sqrt (x ^ 2 + y ^ 2 + z ^ 2 + w ^ 2)| ≤ 7e-7 ∧
              |c - z / Real.sqrt (x ^ 2 + y ^ 2 + z ^ 2 + w ^ 2)| ≤ 7e-7 ∧
              |d - w / Real.sqrt (x ^ 2 + y ^ 2 + z ^ 2 + w ^ 2)| ≤ 7e-7 ∧
              |Real.sqrt (a ^ 2 + b ^ 2 + c ^ 2 + d ^ 2) - 1| ≤ 1e-5) ∧
          (Real.sqrt (x ^ 2 + y ^ 2 + z ^ 2 + w ^ 2) ≤ 0.99999e-12 →
            r = ⟨Single.fin 0, Single.fin 0, Single.fin 0, Single.fin 0⟩) ∧
          (3.41e38 ≤ x ^ 2 + y ^ 2 + z ^ 2 + w ^ 2 →
            r = ⟨Single.fin 0, Single.fin 0, Single.fin 0, Single.fin 0⟩) :=
  ⟨fun x => by
      show |x - x| ≤ |x| / 2 ^ 24 + 1 / 2 ^ 126
      rw [sub_self, abs_zero]
      positivity,
    normalize_single (fun t : ℝ => t)
      (fun x => by
        show |x - x| ≤ |x| / 2 ^ 24 + 1 / 2 ^ 126
        rw [sub_self, abs_zero]
        positivity)
      [⟨Single.fin 3, Single.fin 0, Single.fin 4, Single.fin 0⟩]⟩

/-- C9 fails as stated: the quaternion `(1e20f, 0, 0, 0)` has norm above `1e-12`, yet
`normalize` turns it into the zero quaternion, whose norm is 0 and not within `1e-5` of 1:
the squared norm overflows to `+inf`, the computed norm is `+inf`, and every component
divided by `+inf` is 0.  This holds for every rounding within the error bound, exact
rounding included. -/
theorem normalize_single_counterexample :
    (1e-12 : ℝ) < Real.sqrt ((100000002004087734272 : ℝ) ^ 2 + 0 ^ 2 + 0 ^ 2 + 0 ^ 2) ∧
    (∀ rnd : ℝ → ℝ, (∀ x : ℝ, |rnd x - x| ≤ |x| / 2 ^ 24 + 1 / 2 ^ 126) →
      Single.normalize rnd
          [⟨Single.fin 100000002004087734272, Single.fin 0, Single.fin 0, Single.fin 0⟩]
          Single.normalizeEpsilon
        = [⟨Single.fin 0, Single.fin 0, Single.fin 0, Single.fin 0⟩]) ∧
    Single.normalize (fun t : ℝ => t)
        [⟨Single.fin 100000002004087734272, Single.fin 0, Single.fin 0, Single.fin 0⟩]
        Single.normalizeEpsilon
      = [⟨Single.fin 0, Single.fin 0, Single.fin 0, Single.fin 0⟩] ∧
    ¬ |Real.sqrt ((0 : ℝ) ^ 2 + 0 ^ 2 + 0 ^ 2 + 0 ^ 2) - 1| ≤ 1e-5 := by
  have key : ∀ rnd : ℝ → ℝ, (∀ x : ℝ, |rnd x - x| ≤ |x| / 2 ^ 24 + 1 / 2 ^ 126) →
      Single.normalize rnd
          [⟨Single.fin 100000002004087734272, Single.fin 0, Single.fin 0, Single.fin 0⟩]
          Single.normalizeEpsilon
        = [⟨Single.fin 0, Single.fin 0, Single.fin 0, Single.fin 0⟩] := by
    intro rnd hrnd
    simp only [Single.normalize, List.map_cons, List.map_nil]
    rw [single_normalize_overflow rnd hrnd _ _ _ _ (by norm_num)]
  refine ⟨?_, key, key _ (fun x => ?_), ?_⟩
  · refine Real.lt_sqrt_of_sq_lt ?_
    norm_num
  · show |x - x| ≤ |x| / 2 ^ 24 + 1 / 2 ^ 126
    rw [sub_self, abs_zero]
    positivity
  · norm_num

end single

end GRT
